import Mathlib

/-!
# Tearaway: a cloth simulation (src/character.js)

Shallow embedding of the physics core of `src/character.js`.

Modelling conventions.

* JavaScript numbers are modelled by an arbitrary linearly ordered field `α`
  (exact arithmetic, no rounding).  `Math.sqrt` is a parameter `sqrt : α → α`
  of every function that calls it; theorems that need its properties are
  stated for `α = ℝ` and `sqrt = Real.sqrt`.
* A division by zero yields `NaN` or `±Infinity` in JavaScript, values that
  the field does not contain.  A function that performs such a division
  returns `Except.error Fault.divByZero` at that point.
* Objects are modelled by references.  A reference to a `Point` is its index
  in `Cloth.points` (the order of `this.points.push`), a reference to a
  `Constraint` is its index in `Cloth.heap` (the order of `new Constraint`).
  Reading through a reference that designates no object (a `TypeError` in
  JavaScript) is `Except.error Fault.badRef`.
* The nullable fields `pinX`, `pinY` are `Option α`; truthiness of a number
  is "different from zero".
-/

namespace Tearaway

/-- Ways in which an execution leaves the model. -/
inductive Fault where
  | divByZero
  | badRef
deriving DecidableEq

/-- The global tunables of lines 11-18 together with the canvas size of lines 36-37. -/
structure Config (α : Type) where
  accuracy : Nat
  gravity : α
  clothY : Nat
  clothX : Nat
  spacing : α
  tearDist : α
  friction : α
  bounce : α
  width : α
  height : α

/-- The global `mouse` object of lines 41-50. -/
structure Mouse (α : Type) where
  cut : α
  influence : α
  down : Bool
  button : Nat
  x : α
  y : α
  px : α
  py : α

/-- Class `Point`, lines 52-64. `constraints` holds references into `Cloth.heap`. -/
structure Point (α : Type) where
  x : α
  y : α
  px : α
  py : α
  vx : α
  vy : α
  pinX : Option α
  pinY : Option α
  constraints : List Nat

/-- Class `Constraint`, lines 148-153. `p1` and `p2` are references into `Cloth.points`. -/
structure Constraint (α : Type) where
  p1 : Nat
  p2 : Nat
  length : α

/-- Class `Cloth`: the array `this.points`, and the store of all constraint objects. -/
structure Cloth (α : Type) where
  points : List (Point α)
  heap : List (Constraint α)

section Model

variable {α : Type} [LinearOrderedField α]

/-- JavaScript truthiness of a nullable number: `null` and `0` are falsy. -/
def truthy (v : Option α) : Bool :=
  match v with
  | none => false
  | some a => decide (a ≠ 0)

/-- The constructor of `Point`, lines 53-64. -/
def Point.new (x y : α) : Point α :=
  { x := x, y := y, px := x, py := y, vx := 0, vy := 0,
    pinX := none, pinY := none, constraints := [] }

/-- Method `Point.addForce`, lines 137-140. -/
def Point.addForce (p : Point α) (x y : α) : Point α :=
  { p with vx := p.vx + x, vy := p.vy + y }

/-- Method `Point.pin`, lines 142-145. -/
def Point.pin (p : Point α) (pinx piny : α) : Point α :=
  { p with pinX := some pinx, pinY := some piny }

/-- Method `Point.free`, lines 133-135: `splice(indexOf(c), 1)`.  When `c` is absent
`indexOf` is `-1` and `splice(-1, 1)` removes the last element. -/
def Point.free (p : Point α) (c : Nat) : Point α :=
  if c ∈ p.constraints then
    { p with constraints := p.constraints.eraseIdx (p.constraints.indexOf c) }
  else
    { p with constraints := p.constraints.dropLast }

/-- The guard `this.pinX && this.pinY` of lines 67 and 120. -/
def Point.frozen (p : Point α) : Bool :=
  truthy p.pinX && truthy p.pinY

/-- Lines 69-80 of `Point.update`: the pointer either drags the point or cuts it loose. -/
def Point.pointer (sqrt : α → α) (mouse : Mouse α) (p : Point α) : Point α :=
  if mouse.down then
    let dx := p.x - mouse.x
    let dy := p.y - mouse.y
    let dist := sqrt (dx * dx + dy * dy)
    if mouse.button = 1 ∧ dist < mouse.influence then
      { p with px := p.x - (mouse.x - mouse.px), py := p.y - (mouse.y - mouse.py) }
    else if dist < mouse.cut then
      { p with constraints := [] }
    else p
  else p

/-- Lines 82-93 of `Point.update`: gravity and the damped Verlet step. -/
def Point.verlet (cfg : Config α) (p : Point α) (delta : α) : Point α :=
  let p := p.addForce 0 cfg.gravity
  let nx := p.x + (p.x - p.px) * cfg.friction + p.vx * delta
  let ny := p.y + (p.y - p.py) * cfg.friction + p.vy * delta
  { p with px := p.x, py := p.y, x := nx, y := ny, vy := 0, vx := 0 }

/-- Lines 95-109 of `Point.update`: reflection at the four canvas edges. -/
def Point.bounds (cfg : Config α) (p : Point α) : Point α :=
  let p :=
    if p.x ≥ cfg.width then
      { p with px := cfg.width + (cfg.width - p.px) * cfg.bounce, x := cfg.width }
    else if p.x ≤ 0 then
      { p with px := p.px * (-1 * cfg.bounce), x := 0 }
    else p
  if p.y ≥ cfg.height then
    { p with py := cfg.height + (cfg.height - p.py) * cfg.bounce, y := cfg.height }
  else if p.y ≤ 0 then
    { p with py := p.py * (-1 * cfg.bounce), y := 0 }
  else p

/-- Method `Point.update`, lines 66-112. -/
def Point.update (sqrt : α → α) (cfg : Config α) (mouse : Mouse α) (p : Point α)
    (delta : α) : Point α :=
  if p.frozen then p
  else Point.bounds cfg (Point.verlet cfg (Point.pointer sqrt mouse p) delta)

/-- Apply `f` to the point that reference `i` designates. -/
def Cloth.modifyPoint (s : Cloth α) (i : Nat) (f : Point α → Point α) : Cloth α :=
  match s.points[i]? with
  | none => s
  | some p => { s with points := s.points.set i (f p) }

/-- Method `Constraint.resolve`, lines 155-177, called on the constraint with reference `c`. -/
def Constraint.resolve (sqrt : α → α) (cfg : Config α) (s : Cloth α) (c : Nat) :
    Except Fault (Cloth α) :=
  match s.heap[c]? with
  | none => .error .badRef
  | some k =>
    match s.points[k.p1]?, s.points[k.p2]? with
    | some a, some b =>
      let dx := a.x - b.x
      let dy := a.y - b.y
      let dist := sqrt (dx * dx + dy * dy)
      if dist < k.length then .ok s
      else if dist = 0 then .error .divByZero
      else
        let diff := (k.length - dist) / dist
        let s := if dist > cfg.tearDist then s.modifyPoint k.p1 (fun p => p.free c) else s
        let mul := diff * 0.5 * (1 - k.length / dist)
        let px := dx * mul
        let py := dy * mul
        let s := s.modifyPoint k.p1 (fun p => if truthy p.pinX then p else { p with x := p.x + px })
        let s := s.modifyPoint k.p1 (fun p => if truthy p.pinY then p else { p with y := p.y + py })
        let s := s.modifyPoint k.p2 (fun p => if truthy p.pinX then p else { p with x := p.x - px })
        let s := s.modifyPoint k.p2 (fun p => if truthy p.pinY then p else { p with y := p.y - py })
        .ok s
    | _, _ => .error .badRef

/-- The loop of `this.constraints.forEach(...)`, line 126, on the point with reference `i`:
`n` indices remain to be visited, `k` is the next one.  The number of visits is fixed when
the loop starts; each visit reads the list as it is then, and an index that is no longer
present is passed over. -/
def Point.resolveLoop (sqrt : α → α) (cfg : Config α) (i : Nat) :
    Nat → Nat → Cloth α → Except Fault (Cloth α)
  | 0, _, s => .ok s
  | n + 1, k, s =>
    match s.points[i]? with
    | none => .error .badRef
    | some p =>
      match p.constraints[k]? with
      | none => Point.resolveLoop sqrt cfg i n (k + 1) s
      | some c =>
        match Constraint.resolve sqrt cfg s c with
        | .error e => .error e
        | .ok s' => Point.resolveLoop sqrt cfg i n (k + 1) s'

/-- Method `Point.resolve`, lines 119-127, called on the point with reference `i`. -/
def Point.resolve (sqrt : α → α) (cfg : Config α) (s : Cloth α) (i : Nat) :
    Except Fault (Cloth α) :=
  match s.points[i]? with
  | none => .error .badRef
  | some p =>
    if p.frozen then
      match p.pinX, p.pinY with
      | some a, some b => .ok { s with points := s.points.set i { p with x := a, y := b } }
      | _, _ => .ok s
    else Point.resolveLoop sqrt cfg i p.constraints.length 0 s

/-- Method `Point.attach`, lines 129-131, for the point `p` whose reference is `self`:
a new constraint object is allocated and its reference pushed on `p.constraints`. -/
def Point.attach (cfg : Config α) (self : Nat) (p : Point α) (heap : List (Constraint α))
    (other : Nat) : Point α × List (Constraint α) :=
  ({ p with constraints := p.constraints ++ [heap.length] },
   heap ++ [{ p1 := self, p2 := other, length := cfg.spacing }])

/-- Lines 189, 193 and 194 of the `Cloth` constructor: the point created at row `y` and
column `x`, pinned to its own position when the cloth is not free and `y` is 0. -/
def Cloth.gridPoint (cfg : Config α) (free : Bool) (y x : Nat) : Point α :=
  let startX := cfg.width / 2 - ((cfg.clothX : α) * cfg.spacing) / 2
  let point := Point.new (startX + (x : α) * cfg.spacing) (20 + (y : α) * cfg.spacing)
  if !free && y == 0 then point.pin point.x point.y else point

/-- The body of the inner loop of the `Cloth` constructor, lines 193-198, at row `y` and
column `x`.  The new point receives the reference `s.points.length` when it is pushed. -/
def Cloth.addPoint (cfg : Config α) (free : Bool) (s : Cloth α) (y x : Nat) : Cloth α :=
  let point := Cloth.gridPoint cfg free y x
  let self := s.points.length
  let r := if x ≠ 0 then Point.attach cfg self point s.heap (s.points.length - 1)
    else (point, s.heap)
  let r := if y ≠ 0 then Point.attach cfg self r.1 r.2 (x + (y - 1) * (cfg.clothX + 1))
    else r
  { points := s.points ++ [r.1], heap := r.2 }

/-- One row of the `Cloth` constructor: the loop of line 192. -/
def Cloth.addRow (cfg : Config α) (free : Bool) (s : Cloth α) (y : Nat) : Cloth α :=
  (List.range (cfg.clothX + 1)).foldl (fun s x => Cloth.addPoint cfg free s y x) s

/-- The constructor of `Cloth`, lines 186-201. -/
def Cloth.new (cfg : Config α) (free : Bool) : Cloth α :=
  (List.range (cfg.clothY + 1)).foldl (fun s y => Cloth.addRow cfg free s y)
    { points := [], heap := [] }

/-- One relaxation pass, lines 207-209: `resolve()` on the points with the given
references, in order. -/
def Cloth.resolveAll (sqrt : α → α) (cfg : Config α) :
    List Nat → Cloth α → Except Fault (Cloth α)
  | [], s => .ok s
  | i :: is, s =>
    match Point.resolve sqrt cfg s i with
    | .error e => .error e
    | .ok s' => Cloth.resolveAll sqrt cfg is s'

/-- One relaxation pass over `this.points`, lines 207-209. -/
def Cloth.relaxPass (sqrt : α → α) (cfg : Config α) (s : Cloth α) : Except Fault (Cloth α) :=
  Cloth.resolveAll sqrt cfg (List.range s.points.length) s

/-- The loop `while (i--)` of lines 204-210, `n` passes. -/
def Cloth.relax (sqrt : α → α) (cfg : Config α) : Nat → Cloth α → Except Fault (Cloth α)
  | 0, s => .ok s
  | n + 1, s =>
    match Cloth.relaxPass sqrt cfg s with
    | .error e => .error e
    | .ok s' => Cloth.relax sqrt cfg n s'

/-- The calls made on the 2D context `ctx`. -/
inductive DrawCmd (α : Type) where
  | beginPath
  | moveTo (x y : α)
  | lineTo (x y : α)
  | stroke
  | save
  | restore
  | closePath
  | clip
  | drawImage (sx sy sw sh dx dy dw dh : α)

/-- The loaded texture: only its size is read (lines 307-310). -/
structure Image (α : Type) where
  width : α
  height : α

/-- Method `Constraint.draw`, lines 179-182. -/
def Constraint.draw (s : Cloth α) (c : Nat) : Except Fault (List (DrawCmd α)) :=
  match s.heap[c]? with
  | none => .error .badRef
  | some k =>
    match s.points[k.p1]?, s.points[k.p2]? with
    | some a, some b => .ok [DrawCmd.moveTo a.x a.y, DrawCmd.lineTo b.x b.y]
    | _, _ => .error .badRef

/-- The loop of `Point.draw`, lines 114-117, over the references still to be drawn. -/
def Point.drawAll (s : Cloth α) : List Nat → Except Fault (List (DrawCmd α))
  | [] => .ok []
  | c :: cs =>
    match Constraint.draw s c with
    | .error e => .error e
    | .ok d =>
      match Point.drawAll s cs with
      | .error e => .error e
      | .ok ds => .ok (d ++ ds)

/-- Method `Point.draw`, lines 114-117: the constraints are drawn from the last to the first. -/
def Point.draw (s : Cloth α) (p : Point α) : Except Fault (List (DrawCmd α)) :=
  Point.drawAll s p.constraints.reverse

/-- The loop of lines 216-218: every point is updated and then drawn, in order. -/
def Cloth.wireLoop (sqrt : α → α) (cfg : Config α) (mouse : Mouse α) (delta : α) :
    List Nat → Cloth α → Except Fault (Cloth α × List (DrawCmd α))
  | [], s => .ok (s, [])
  | i :: is, s =>
    match s.points[i]? with
    | none => .error .badRef
    | some p =>
      let q := Point.update sqrt cfg mouse p (delta * delta)
      let s1 : Cloth α := { s with points := s.points.set i q }
      match Point.draw s1 q with
      | .error e => .error e
      | .ok d =>
        match Cloth.wireLoop sqrt cfg mouse delta is s1 with
        | .error e => .error e
        | .ok r => .ok (r.1, d ++ r.2)

/-- The distance computed at lines 269-271. -/
def Cloth.pairDist (sqrt : α → α) (a b : Point α) : α :=
  let dx := a.x - b.x
  let dy := a.y - b.y
  sqrt (dx * dx + dy * dy)

/-- The loops of lines 266-274 over the six pairs `i < j` of the four corners. -/
def Cloth.maxDist (sqrt : α → α) (p1 p2 p3 p4 : Point α) : α :=
  [Cloth.pairDist sqrt p1 p2, Cloth.pairDist sqrt p1 p3, Cloth.pairDist sqrt p1 p4,
   Cloth.pairDist sqrt p2 p3, Cloth.pairDist sqrt p2 p4, Cloth.pairDist sqrt p3 p4].foldl
    (fun maxDist dist => if dist > maxDist then dist else maxDist) 0

/-- The body of the loops of `Cloth.drawTextured`, lines 247-321, for the cell in row `y`
and column `x`: the calls it makes on `ctx`. -/
def Cloth.quad (sqrt : α → α) (cfg : Config α) (img : Image α) (s : Cloth α) (y x : Nat) :
    List (DrawCmd α) :=
  match s.points[x + y * (cfg.clothX + 1)]?, s.points[x + 1 + y * (cfg.clothX + 1)]?,
      s.points[x + (y + 1) * (cfg.clothX + 1)]?, s.points[x + 1 + (y + 1) * (cfg.clothX + 1)]? with
  | some p1, some p2, some p3, some p4 =>
    if p1.constraints.length = 0 ∨ p2.constraints.length = 0 ∨
        p3.constraints.length = 0 ∨ p4.constraints.length = 0 then []
    else if Cloth.maxDist sqrt p1 p2 p3 p4 > 3 * cfg.spacing then []
    else
      let overlap : α := 1
      let u1 := max 0 (((x : α) - overlap * 0.02) / (cfg.clothX : α))
      let v1 := max 0 (((y : α) - overlap * 0.02) / (cfg.clothY : α))
      let u2 := min 1 (((x : α) + 1 + overlap * 0.02) / (cfg.clothX : α))
      let v2 := min 1 (((y : α) + 1 + overlap * 0.02) / (cfg.clothY : α))
      let centerX := (p1.x + p2.x + p3.x + p4.x) / 4
      let centerY := (p1.y + p2.y + p3.y + p4.y) / 4
      let expandFactor : α := 1.05
      let ep1x := centerX + (p1.x - centerX) * expandFactor
      let ep1y := centerY + (p1.y - centerY) * expandFactor
      let ep2x := centerX + (p2.x - centerX) * expandFactor
      let ep2y := centerY + (p2.y - centerY) * expandFactor
      let ep3x := centerX + (p3.x - centerX) * expandFactor
      let ep3y := centerY + (p3.y - centerY) * expandFactor
      let ep4x := centerX + (p4.x - centerX) * expandFactor
      let ep4y := centerY + (p4.y - centerY) * expandFactor
      let sx := u1 * img.width
      let sy := v1 * img.height
      let sw := (u2 - u1) * img.width
      let sh := (v2 - v1) * img.height
      let dx := min (min (min ep1x ep2x) ep3x) ep4x
      let dy := min (min (min ep1y ep2y) ep3y) ep4y
      let dw := max (max (max ep1x ep2x) ep3x) ep4x - dx
      let dh := max (max (max ep1y ep2y) ep3y) ep4y - dy
      [DrawCmd.save, DrawCmd.beginPath, DrawCmd.moveTo ep1x ep1y, DrawCmd.lineTo ep2x ep2y,
        DrawCmd.lineTo ep4x ep4y, DrawCmd.lineTo ep3x ep3y, DrawCmd.closePath, DrawCmd.clip]
      ++ (if sw > 0 ∧ sh > 0 ∧ dw > 0 ∧ dh > 0 then [DrawCmd.drawImage sx sy sw sh dx dy dw dh]
          else [])
      ++ [DrawCmd.restore]
  | _, _, _, _ => []

/-- The integration step of `Cloth.drawTextured`, lines 241-243. -/
def Cloth.integrate (sqrt : α → α) (cfg : Config α) (mouse : Mouse α) (s : Cloth α) : Cloth α :=
  { s with points := s.points.map (fun p => Point.update sqrt cfg mouse p (0.016 * 0.016)) }

/-- Method `Cloth.drawTextured`, lines 240-324: the new state and the calls made on `ctx`. -/
def Cloth.drawTextured (sqrt : α → α) (cfg : Config α) (mouse : Mouse α) (img : Image α)
    (s : Cloth α) : Cloth α × List (DrawCmd α) :=
  let s := Cloth.integrate sqrt cfg mouse s
  (s, (List.range cfg.clothY).flatMap (fun y =>
        (List.range cfg.clothX).flatMap (fun x => Cloth.quad sqrt cfg img s y x)))

/-- Method `Cloth.update`, lines 203-221: the new state and the calls made on `ctx`. -/
def Cloth.update (sqrt : α → α) (cfg : Config α) (mouse : Mouse α) (textureLoaded : Bool)
    (textureImage : Option (Image α)) (s : Cloth α) (delta : α) :
    Except Fault (Cloth α × List (DrawCmd α)) :=
  match Cloth.relax sqrt cfg cfg.accuracy s with
  | .error e => .error e
  | .ok s =>
    match textureLoaded, textureImage with
    | true, some img => .ok (Cloth.drawTextured sqrt cfg mouse img s)
    | _, _ =>
      match Cloth.wireLoop sqrt cfg mouse delta (List.range s.points.length) s with
      | .error e => .error e
      | .ok r => .ok (r.1, [DrawCmd.beginPath] ++ r.2 ++ [DrawCmd.stroke])

/-- The values of the globals at lines 11-18, on a canvas of 700 by 400 (lines 36-37). -/
def defaults : Config α :=
  { accuracy := 5, gravity := 400, clothY := 50, clothX := 50, spacing := 8, tearDist := 15,
    friction := 0.99, bounce := 0.5, width := 700, height := 400 }

/-- The `mouse` object as created at lines 41-50. -/
def mouse0 : Mouse α :=
  { cut := 8, influence := 36, down := false, button := 1, x := 0, y := 0, px := 0, py := 0 }

/-- Two points on the line `y = 0`, at `x = 0` and `x = d`; the second has attached itself
to the first with rest length `len`. -/
def pair (d len : α) : Cloth α :=
  { points := [Point.new 0 0, { Point.new d 0 with constraints := [0] }],
    heap := [{ p1 := 1, p2 := 0, length := len }] }

/-- Whether a call on `ctx` is the `drawImage` of line 318. -/
def DrawCmd.isDrawImage (c : DrawCmd α) : Bool :=
  match c with
  | DrawCmd.drawImage _ _ _ _ _ _ _ _ => true
  | _ => false

/-- The configuration of a cloth of 3 by 2 points: `clothX = 2`, `clothY = 1`. -/
def small : Config α :=
  { defaults with clothX := 2, clothY := 1 }

/-- A free cloth of 3 by 2 points, linked as the constructor links them, that has fallen
flat on the floor `y = 400` of the canvas and is at rest there: both rows lie on the floor,
the columns at `x = 100, 108, 116`. -/
def fallen : Cloth α :=
  { points := [Point.new 100 400,
               { Point.new 108 400 with constraints := [0] },
               { Point.new 116 400 with constraints := [1] },
               { Point.new 100 400 with constraints := [2] },
               { Point.new 108 400 with constraints := [3, 4] },
               { Point.new 116 400 with constraints := [5, 6] }],
    heap := [{ p1 := 1, p2 := 0, length := 8 }, { p1 := 2, p2 := 1, length := 8 },
             { p1 := 3, p2 := 0, length := 8 }, { p1 := 4, p2 := 3, length := 8 },
             { p1 := 4, p2 := 1, length := 8 }, { p1 := 5, p2 := 4, length := 8 },
             { p1 := 5, p2 := 2, length := 8 }] }

/-- Three points on the line `y = 0`, at `x = 0, 8, 18`, each attached to the one before it
with rest length 8: the first link is at rest, the second is stretched to 10. -/
def chain : Cloth α :=
  { points := [Point.new 0 0,
               { Point.new 8 0 with constraints := [0] },
               { Point.new 18 0 with constraints := [1] }],
    heap := [{ p1 := 1, p2 := 0, length := 8 }, { p1 := 2, p2 := 1, length := 8 }] }

/-- The configuration of a cloth of 2 by 2 points on a canvas as wide as the cloth:
`clothX = 1`, `clothY = 1`, `canvas.width = 8`, so that `startX` (line 189) is 0. -/
def narrow : Config α :=
  { defaults with clothX := 1, clothY := 1, width := 8 }

/-- The states a cloth goes through: the state `s0` it is built in, and then the state left
by each call of `Cloth.update` (line 358), under whatever pointer state, texture state and
time step that call finds. -/
inductive Cloth.Reachable (sqrt : α → α) (cfg : Config α) (s0 : Cloth α) : Cloth α → Prop where
  | start : Cloth.Reachable sqrt cfg s0 s0
  | frame (mouse : Mouse α) (textureLoaded : Bool) (textureImage : Option (Image α))
      (delta : α) (s s' : Cloth α) (cmds : List (DrawCmd α)) :
      Cloth.Reachable sqrt cfg s0 s →
      Cloth.update sqrt cfg mouse textureLoaded textureImage s delta = .ok (s', cmds) →
      Cloth.Reachable sqrt cfg s0 s'

/-- The point is pinned at `(a, b)` and is there. -/
def Point.held (a b : α) (p : Point α) : Prop :=
  p.pinX = some a ∧ p.pinY = some b ∧ p.x = a ∧ p.y = b

/-- The point with reference `i` exists, is pinned at `(a, b)` and is there. -/
def Cloth.heldAt (s : Cloth α) (i : Nat) (a b : α) : Prop :=
  ∃ p, s.points[i]? = some p ∧ p.held a b

/-- The loop `Point.resolveLoop` together with a record of the calls of
`Constraint.resolve` it makes: for each call, the state in which it is made and the
constraint it is made on, in order. -/
def Point.resolveLoopLog (sqrt : α → α) (cfg : Config α) (i : Nat) :
    Nat → Nat → Cloth α → Except Fault (Cloth α × List (Cloth α × Nat))
  | 0, _, s => .ok (s, [])
  | n + 1, k, s =>
    match s.points[i]? with
    | none => .error .badRef
    | some p =>
      match p.constraints[k]? with
      | none => Point.resolveLoopLog sqrt cfg i n (k + 1) s
      | some c =>
        match Constraint.resolve sqrt cfg s c with
        | .error e => .error e
        | .ok s' =>
          match Point.resolveLoopLog sqrt cfg i n (k + 1) s' with
          | .error e => .error e
          | .ok r => .ok (r.1, (s, c) :: r.2)

/-- Method `Point.resolve`, lines 119-127, together with the record of the calls of
`Constraint.resolve` it makes. -/
def Point.resolveLog (sqrt : α → α) (cfg : Config α) (s : Cloth α) (i : Nat) :
    Except Fault (Cloth α × List (Cloth α × Nat)) :=
  match s.points[i]? with
  | none => .error .badRef
  | some p =>
    if p.frozen then
      match p.pinX, p.pinY with
      | some a, some b =>
        .ok ({ s with points := s.points.set i { p with x := a, y := b } }, [])
      | _, _ => .ok (s, [])
    else Point.resolveLoopLog sqrt cfg i p.constraints.length 0 s

/-- One relaxation pass, lines 207-209, together with the record of the calls of
`Constraint.resolve` it makes. -/
def Cloth.resolveAllLog (sqrt : α → α) (cfg : Config α) :
    List Nat → Cloth α → Except Fault (Cloth α × List (Cloth α × Nat))
  | [], s => .ok (s, [])
  | i :: is, s =>
    match Point.resolveLog sqrt cfg s i with
    | .error e => .error e
    | .ok r =>
      match Cloth.resolveAllLog sqrt cfg is r.1 with
      | .error e => .error e
      | .ok r' => .ok (r'.1, r.2 ++ r'.2)

/-- The loop `while (i--)` of lines 204-210, `n` passes, together with the record of the
calls of `Constraint.resolve` it makes. -/
def Cloth.relaxLog (sqrt : α → α) (cfg : Config α) :
    Nat → Cloth α → Except Fault (Cloth α × List (Cloth α × Nat))
  | 0, s => .ok (s, [])
  | n + 1, s =>
    match Cloth.resolveAllLog sqrt cfg (List.range s.points.length) s with
    | .error e => .error e
    | .ok r =>
      match Cloth.relaxLog sqrt cfg n r.1 with
      | .error e => .error e
      | .ok r' => .ok (r'.1, r.2 ++ r'.2)

/-- No constraint list gains anything from `s` to `t`: the store of constraints and the
number of points are the same, and the list of every point in `t` is a sublist of the list
that point has in `s`. -/
def Cloth.shrinks (s t : Cloth α) : Prop :=
  t.heap = s.heap ∧ t.points.length = s.points.length ∧
  ∀ (i : Nat) (q : Point α), t.points[i]? = some q →
    ∃ p : Point α, s.points[i]? = some p ∧ q.constraints.Sublist p.constraints

/-- Every reference in a constraint list designates a constraint of the store whose two
endpoints are points of the cloth (in the program a reference always designates an
object). -/
def Cloth.valid (s : Cloth α) : Prop :=
  ∀ (i : Nat) (p : Point α), s.points[i]? = some p → ∀ c ∈ p.constraints,
    ∃ k : Constraint α, s.heap[c]? = some k ∧ k.p1 < s.points.length ∧ k.p2 < s.points.length

/-- Every constraint found in the list of a point has that point as its `p1`, and occurs in
that list once. -/
def Cloth.owned (s : Cloth α) : Prop :=
  ∀ (i : Nat) (p : Point α), s.points[i]? = some p → p.constraints.Nodup ∧
    ∀ c ∈ p.constraints, ∃ k : Constraint α, s.heap[c]? = some k ∧ k.p1 = i

/-- The call `p1.free(c)` of line 164, made in state `t`, finds `c` in the list of `p1`
(`indexOf` is not `-1`) and removes exactly `c`: the list holds `c` once, and what `free`
leaves is the list without `c`. -/
def Cloth.freeFinds (t : Cloth α) (c : Nat) : Prop :=
  ∃ (k : Constraint α) (p : Point α),
    t.heap[c]? = some k ∧ t.points[k.p1]? = some p ∧ c ∈ p.constraints ∧
    p.constraints.count c = 1 ∧ (p.free c).constraints = p.constraints.erase c ∧
    c ∉ (p.free c).constraints ∧ ∀ e, e ≠ c → (e ∈ (p.free c).constraints ↔ e ∈ p.constraints)

/-- A point at (20, 10) that has attached itself to its left neighbour at (0, 10) and to
its upper neighbour at (20, 0), with rest length 8: the left link is stretched to 20, beyond
the default tear threshold 15, the upper link to 10. -/
def fork : Cloth α :=
  { points := [Point.new 0 10, Point.new 20 0,
               { Point.new 20 10 with constraints := [0, 1] }],
    heap := [{ p1 := 2, p2 := 0, length := 8 }, { p1 := 2, p2 := 1, length := 8 }] }

/-- What the constructor's loops maintain: no list holds a reference twice, and every
reference in the list of a point designates a constraint from that point to a point created
before it. -/
def Cloth.built (s : Cloth α) : Prop :=
  ∀ (i : Nat) (p : Point α), s.points[i]? = some p → p.constraints.Nodup ∧
    ∀ c ∈ p.constraints, ∃ k : Constraint α, s.heap[c]? = some k ∧ k.p1 = i ∧ k.p2 < i

end Model

end Tearaway

/-! ## Theorems -/

namespace Tearaway

section Lemmas

variable {α : Type}

theorem modifyPoint_heap (s : Cloth α) (i : Nat) (f : Point α → Point α) :
    (s.modifyPoint i f).heap = s.heap := by
  unfold Cloth.modifyPoint
  split <;> rfl

theorem modifyPoint_length (s : Cloth α) (i : Nat) (f : Point α → Point α) :
    (s.modifyPoint i f).points.length = s.points.length := by
  unfold Cloth.modifyPoint
  split <;> simp

theorem modifyPoint_get (s : Cloth α) (i j : Nat) (f : Point α → Point α) :
    (s.modifyPoint i f).points[j]? = (s.points[j]?).map (fun p => if j = i then f p else p) := by
  unfold Cloth.modifyPoint
  by_cases h : j = i
  · subst h
    cases hp : s.points[j]? with
    | none => simp [hp]
    | some p =>
      have hlt : j < s.points.length := (List.getElem?_eq_some.mp hp).1
      simp [hp, List.getElem?_set, hlt]
  · cases hp : s.points[i]? with
    | none => cases hq : s.points[j]? <;> simp [hq, h]
    | some p =>
      have hne : i ≠ j := fun e => h e.symm
      cases hq : s.points[j]? <;> simp [List.getElem?_set_ne hne, hq, h]

theorem modifyPoint_get_self (s : Cloth α) (i : Nat) (f : Point α → Point α) :
    (s.modifyPoint i f).points[i]? = (s.points[i]?).map f := by
  rw [modifyPoint_get]
  cases s.points[i]? <;> simp

theorem modifyPoint_get_ne (s : Cloth α) {i j : Nat} (f : Point α → Point α) (h : j ≠ i) :
    (s.modifyPoint i f).points[j]? = s.points[j]? := by
  rw [modifyPoint_get]
  cases s.points[j]? <;> simp [h]

end Lemmas

/-- C1 (code bug): a point at (3, 4) on which `pin(0, 5)` has been called keeps the
position (3, 4) through `resolve()`, because `this.pinX && this.pinY` reads the pin
coordinate 0 as "not pinned". -/
theorem C1_pin_zero_not_restored (cfg : Config ℝ) :
    ∃ s', Point.resolve Real.sqrt cfg { points := [(Point.new 3 4).pin 0 5], heap := [] } 0
        = .ok s' ∧
      s'.points.map (fun p => (p.x, p.y, p.pinX, p.pinY)) = [(3, 4, some 0, some 5)] := by
  refine ⟨{ points := [(Point.new 3 4).pin 0 5], heap := [] }, ?_, ?_⟩
  · simp [Point.resolve, Point.frozen, truthy, Point.pin, Point.new, Point.resolveLoop]
  · simp [Point.pin, Point.new]

/-- A point on which `pin(a, b)` has been called with both numbers different from zero has
the position `(a, b)` after `resolve()`, whatever its position before. -/
theorem resolve_pin_nonzero {α : Type} [LinearOrderedField α] (sqrt : α → α) (cfg : Config α)
    (s : Cloth α) (i : Nat) (p : Point α) (a b : α) (ha : a ≠ 0) (hb : b ≠ 0)
    (hp : s.points[i]? = some (p.pin a b)) :
    ∃ s', Point.resolve sqrt cfg s i = .ok s' ∧
      (s'.points[i]?).map (fun q => (q.x, q.y)) = some (a, b) := by
  have hlt : i < s.points.length := (List.getElem?_eq_some.mp hp).1
  refine ⟨{ s with points := s.points.set i { p.pin a b with x := a, y := b } }, ?_, ?_⟩
  · simp [Point.resolve, hp, Point.frozen, truthy, Point.pin, ha, hb]
  · simp [List.getElem?_set, hlt]

/-- The constraint list of the point `j` after a chain of `modifyPoint` steps that do not
touch constraint lists. -/
theorem modifyPoint_constraints {α : Type} (s : Cloth α) (i j : Nat) (f : Point α → Point α)
    (hf : ∀ p, (f p).constraints = p.constraints) :
    ((s.modifyPoint i f).points[j]?).map (fun p => p.constraints)
      = (s.points[j]?).map (fun p => p.constraints) := by
  rw [modifyPoint_get]
  cases s.points[j]? with
  | none => rfl
  | some p =>
    by_cases h : j = i
    · simp [h, hf]
    · simp [h]

/-- What `Constraint.resolve` returns when the endpoints are at least the rest length apart
and the distance is not zero: the tear step followed by the four position updates. -/
theorem resolve_far {α : Type} [LinearOrderedField α] (sqrt : α → α) (cfg : Config α)
    (s : Cloth α) (c : Nat) (k : Constraint α) (a b : Point α)
    (hk : s.heap[c]? = some k) (ha : s.points[k.p1]? = some a) (hb : s.points[k.p2]? = some b)
    (h1 : ¬ Cloth.pairDist sqrt a b < k.length) (h0 : Cloth.pairDist sqrt a b ≠ 0) :
    Constraint.resolve sqrt cfg s c = .ok
      (((((if Cloth.pairDist sqrt a b > cfg.tearDist
            then s.modifyPoint k.p1 (fun p => p.free c) else s).modifyPoint k.p1
          (fun p => if truthy p.pinX then p else { p with x := p.x + (a.x - b.x) *
            ((k.length - Cloth.pairDist sqrt a b) / Cloth.pairDist sqrt a b * 0.5 *
              (1 - k.length / Cloth.pairDist sqrt a b)) })).modifyPoint k.p1
          (fun p => if truthy p.pinY then p else { p with y := p.y + (a.y - b.y) *
            ((k.length - Cloth.pairDist sqrt a b) / Cloth.pairDist sqrt a b * 0.5 *
              (1 - k.length / Cloth.pairDist sqrt a b)) })).modifyPoint k.p2
          (fun p => if truthy p.pinX then p else { p with x := p.x - (a.x - b.x) *
            ((k.length - Cloth.pairDist sqrt a b) / Cloth.pairDist sqrt a b * 0.5 *
              (1 - k.length / Cloth.pairDist sqrt a b)) })).modifyPoint k.p2
          (fun p => if truthy p.pinY then p else { p with y := p.y - (a.y - b.y) *
            ((k.length - Cloth.pairDist sqrt a b) / Cloth.pairDist sqrt a b * 0.5 *
              (1 - k.length / Cloth.pairDist sqrt a b)) })) := by
  unfold Cloth.pairDist at h1 h0 ⊢
  simp only [Constraint.resolve, hk, ha, hb]
  rw [if_neg h1, if_neg h0]

/-- What `Constraint.resolve` returns when the endpoints are closer than the rest length. -/
theorem resolve_near {α : Type} [LinearOrderedField α] (sqrt : α → α) (cfg : Config α)
    (s : Cloth α) (c : Nat) (k : Constraint α) (a b : Point α)
    (hk : s.heap[c]? = some k) (ha : s.points[k.p1]? = some a) (hb : s.points[k.p2]? = some b)
    (h1 : Cloth.pairDist sqrt a b < k.length) :
    Constraint.resolve sqrt cfg s c = .ok s := by
  unfold Cloth.pairDist at h1
  simp only [Constraint.resolve, hk, ha, hb]
  rw [if_pos h1]

/-- The constraint list of the owner after `Constraint.resolve`. -/
theorem resolve_owner_constraints {α : Type} [LinearOrderedField α] (sqrt : α → α)
    (cfg : Config α) (s s' : Cloth α) (c : Nat) (k : Constraint α) (a b : Point α)
    (hk : s.heap[c]? = some k) (ha : s.points[k.p1]? = some a) (hb : s.points[k.p2]? = some b)
    (hr : Constraint.resolve sqrt cfg s c = .ok s') :
    (s'.points[k.p1]?).map (fun p => p.constraints)
      = some (if k.length ≤ Cloth.pairDist sqrt a b ∧ cfg.tearDist < Cloth.pairDist sqrt a b
          then (a.free c).constraints else a.constraints) := by
  by_cases h1 : Cloth.pairDist sqrt a b < k.length
  · rw [resolve_near sqrt cfg s c k a b hk ha hb h1] at hr
    cases hr
    have : ¬ (k.length ≤ Cloth.pairDist sqrt a b ∧ cfg.tearDist < Cloth.pairDist sqrt a b) :=
      fun h => absurd h1 (not_lt.mpr h.1)
    simp [ha, this]
  · by_cases h0 : Cloth.pairDist sqrt a b = 0
    · exfalso
      unfold Cloth.pairDist at h1 h0
      simp only [Constraint.resolve, hk, ha, hb] at hr
      rw [if_neg h1, if_pos h0] at hr
      cases hr
    · rw [resolve_far sqrt cfg s c k a b hk ha hb h1 h0] at hr
      cases hr
      rw [modifyPoint_constraints _ _ _ _ (by intro p; split <;> rfl),
        modifyPoint_constraints _ _ _ _ (by intro p; split <;> rfl),
        modifyPoint_constraints _ _ _ _ (by intro p; split <;> rfl),
        modifyPoint_constraints _ _ _ _ (by intro p; split <;> rfl)]
      by_cases ht : Cloth.pairDist sqrt a b > cfg.tearDist
      · rw [if_pos ht, modifyPoint_get_self, ha, if_pos ⟨not_lt.mp h1, ht⟩]
        rfl
      · rw [if_neg ht, ha, if_neg (fun h => ht h.2)]
        rfl

theorem sqrt_line (d : ℝ) (hd : 0 ≤ d) :
    Real.sqrt ((d - 0) * (d - 0) + (0 - 0) * (0 - 0)) = d := by
  rw [show (d - 0) * (d - 0) + (0 - 0) * (0 - 0) = d * d by ring]
  exact Real.sqrt_mul_self hd

/-- C2 (counterexample): with rest length 20 and tear threshold 5, a constraint that is in
its owner's list and whose endpoints are 10 apart (more than the threshold) is left in the
list by `resolve()`, which returns at line 160. -/
theorem C2_counterexample :
    (pair (10 : ℝ) 20).heap[0]? = some { p1 := 1, p2 := 0, length := 20 } ∧
    (pair (10 : ℝ) 20).points[1]? = some { Point.new (10 : ℝ) 0 with constraints := [0] } ∧
    (pair (10 : ℝ) 20).points[0]? = some (Point.new 0 0) ∧
    Cloth.pairDist Real.sqrt { Point.new (10 : ℝ) 0 with constraints := [0] } (Point.new 0 0)
      > ({ defaults with tearDist := 5 } : Config ℝ).tearDist ∧
    Constraint.resolve Real.sqrt { defaults with tearDist := 5 } (pair (10 : ℝ) 20) 0
      = .ok (pair (10 : ℝ) 20) := by
  have hd := sqrt_line 10 (by norm_num)
  refine ⟨rfl, rfl, rfl, ?_, ?_⟩
  · simp only [Cloth.pairDist, Point.new, hd]
    norm_num
  · apply resolve_near Real.sqrt { defaults with tearDist := 5 } (pair (10 : ℝ) 20) 0
      { p1 := 1, p2 := 0, length := 20 }
      { Point.new (10 : ℝ) 0 with constraints := [0] } (Point.new 0 0) rfl rfl rfl
    simp only [Cloth.pairDist, Point.new, hd]
    norm_num

/-- C2 (amended): for a constraint `c` that is in its owner's list, a call of
`Constraint.resolve` that performs no division by zero removes `c` from that list if and
only if the distance between the endpoints is at least the rest length and strictly greater
than `tearDist`; otherwise the list is unchanged. -/
theorem C2_tear_iff (cfg : Config ℝ) (s s' : Cloth ℝ) (c : Nat) (k : Constraint ℝ)
    (a b : Point ℝ)
    (hk : s.heap[c]? = some k) (ha : s.points[k.p1]? = some a) (hb : s.points[k.p2]? = some b)
    (hc : c ∈ a.constraints)
    (hr : Constraint.resolve Real.sqrt cfg s c = .ok s') :
    ∃ a', s'.points[k.p1]? = some a' ∧
      (a'.constraints = a.constraints.erase c ↔
        (k.length ≤ Cloth.pairDist Real.sqrt a b ∧ cfg.tearDist < Cloth.pairDist Real.sqrt a b)) ∧
      (a'.constraints = a.constraints ↔
        ¬ (k.length ≤ Cloth.pairDist Real.sqrt a b ∧
            cfg.tearDist < Cloth.pairDist Real.sqrt a b)) := by
  have h := resolve_owner_constraints Real.sqrt cfg s s' c k a b hk ha hb hr
  have hne : a.constraints.erase c ≠ a.constraints := by
    intro e
    have hl := List.length_erase_of_mem hc
    rw [e] at hl
    have hpos : 0 < a.constraints.length := List.length_pos_of_mem hc
    omega
  have hfree : (a.free c).constraints = a.constraints.erase c := by
    simp [Point.free, hc]
  cases hp : s'.points[k.p1]? with
  | none => simp [hp] at h
  | some a' =>
    refine ⟨a', rfl, ?_⟩
    rw [hp] at h
    simp only [Option.map_some', Option.some.injEq] at h
    by_cases ht : k.length ≤ Cloth.pairDist Real.sqrt a b ∧
        cfg.tearDist < Cloth.pairDist Real.sqrt a b
    · rw [if_pos ht, hfree] at h
      rw [h]
      exact ⟨⟨fun _ => ht, fun _ => rfl⟩, ⟨fun e => absurd e hne, fun e => absurd ht e⟩⟩
    · rw [if_neg ht] at h
      rw [h]
      exact ⟨⟨fun e => absurd e.symm hne, fun e => absurd e ht⟩, ⟨fun _ => ht, fun _ => rfl⟩⟩

/-- C2 (witness): with the default threshold 15 and rest length 8, endpoints 20 apart. The
call tears the constraint: the owner's list `[0]` becomes `[]`. -/
theorem C2_tear_iff_witness :
    (0 ∈ ({ Point.new (20 : ℝ) 0 with constraints := [0] } : Point ℝ).constraints) ∧
    Constraint.resolve Real.sqrt (defaults : Config ℝ) (pair (20 : ℝ) 8) 0
      = .ok { points := [{ Point.new (0 : ℝ) 0 with x := 3.6 },
                         { Point.new (20 : ℝ) 0 with x := 16.4 }],
              heap := [{ p1 := 1, p2 := 0, length := 8 }] } ∧
    ∃ a', ({ points := [{ Point.new (0 : ℝ) 0 with x := 3.6 },
                        { Point.new (20 : ℝ) 0 with x := 16.4 }],
             heap := [{ p1 := 1, p2 := 0, length := 8 }] } : Cloth ℝ).points[1]? = some a' ∧
      (a'.constraints = ([0] : List Nat).erase 0 ↔
        ((8 : ℝ) ≤ Cloth.pairDist Real.sqrt { Point.new (20 : ℝ) 0 with constraints := [0] }
            (Point.new 0 0) ∧
          (defaults : Config ℝ).tearDist <
            Cloth.pairDist Real.sqrt { Point.new (20 : ℝ) 0 with constraints := [0] }
              (Point.new 0 0))) ∧
      (a'.constraints = [0] ↔
        ¬ ((8 : ℝ) ≤ Cloth.pairDist Real.sqrt { Point.new (20 : ℝ) 0 with constraints := [0] }
            (Point.new 0 0) ∧
          (defaults : Config ℝ).tearDist <
            Cloth.pairDist Real.sqrt { Point.new (20 : ℝ) 0 with constraints := [0] }
              (Point.new 0 0))) := by
  have hd := sqrt_line 20 (by norm_num)
  have hr : Constraint.resolve Real.sqrt (defaults : Config ℝ) (pair (20 : ℝ) 8) 0
      = .ok { points := [{ Point.new (0 : ℝ) 0 with x := 3.6 },
                         { Point.new (20 : ℝ) 0 with x := 16.4 }],
              heap := [{ p1 := 1, p2 := 0, length := 8 }] } := by
    simp [Constraint.resolve, pair, Point.new, hd, defaults, Cloth.modifyPoint, truthy,
      Point.free]
    norm_num
  exact ⟨by simp, hr,
    C2_tear_iff defaults (pair (20 : ℝ) 8) _ 0 { p1 := 1, p2 := 0, length := 8 }
      { Point.new (20 : ℝ) 0 with constraints := [0] } (Point.new 0 0) rfl rfl rfl
      (by simp) hr⟩

/-- C3: for a constraint of strictly positive rest length whose endpoints are closer than
the rest length, in particular whose endpoints have identical coordinates, `resolve()`
returns normally (no division by zero is performed) and the whole state is unchanged: no
endpoint has moved and no constraint was removed from any list. -/
theorem C3_near_unchanged (cfg : Config ℝ) (s : Cloth ℝ) (c : Nat) (k : Constraint ℝ)
    (a b : Point ℝ)
    (hk : s.heap[c]? = some k) (ha : s.points[k.p1]? = some a) (hb : s.points[k.p2]? = some b)
    (hL : 0 < k.length)
    (h : Cloth.pairDist Real.sqrt a b < k.length ∨ (a.x = b.x ∧ a.y = b.y)) :
    Constraint.resolve Real.sqrt cfg s c = .ok s := by
  apply resolve_near Real.sqrt cfg s c k a b hk ha hb
  rcases h with h | ⟨hx, hy⟩
  · exact h
  · simp only [Cloth.pairDist, hx, hy, sub_self, mul_zero, add_zero, Real.sqrt_zero]
    exact hL

/-- C3 (witness): two points at the same place (0, 0), joined by a constraint of rest
length 8. -/
theorem C3_near_unchanged_witness :
    (0 : ℝ) < 8 ∧
    Constraint.resolve Real.sqrt (defaults : Config ℝ) (pair (0 : ℝ) 8) 0
      = .ok (pair (0 : ℝ) 8) :=
  ⟨by norm_num,
    C3_near_unchanged defaults (pair (0 : ℝ) 8) 0 { p1 := 1, p2 := 0, length := 8 }
      { Point.new (0 : ℝ) 0 with constraints := [0] } (Point.new 0 0) rfl rfl rfl
      (by norm_num) (Or.inr ⟨rfl, rfl⟩)⟩

/-! ### The constructor of `Cloth` -/

/-- A loop whose every step appends a block to a list, seen through a map `g`. -/
theorem foldl_blocks {σ π β : Type} (pts : σ → List π) (step : σ → Nat → σ) (g : π → β)
    (blk : Nat → List β)
    (h : ∀ s y, (pts (step s y)).map g = (pts s).map g ++ blk y) :
    ∀ n s, (pts ((List.range n).foldl step s)).map g
      = (pts s).map g ++ (List.range n).flatMap blk := by
  intro n
  induction n with
  | zero => intro s; simp
  | succ n ih =>
    intro s
    rw [List.range_succ, List.foldl_append, List.flatMap_append]
    simp only [List.foldl_cons, List.foldl_nil, List.flatMap_cons, List.flatMap_nil,
      List.append_nil]
    rw [h, ih, List.append_assoc]

theorem flatMap_single {β : Type} (e : Nat → β) (l : List Nat) :
    l.flatMap (fun x => [e x]) = l.map e := by
  induction l with
  | nil => rfl
  | cons a l ih => simp [ih]

/-- The point pushed by one step of the constructor is the grid point of lines 193-194
with one constraint for each neighbour it attaches to. -/
theorem addPoint_points {α : Type} [LinearOrderedField α] (cfg : Config α) (free : Bool)
    (s : Cloth α) (y x : Nat) :
    (Cloth.addPoint cfg free s y x).points.map
        (fun p => (({ p with constraints := [] } : Point α), p.constraints.length))
      = s.points.map (fun p => (({ p with constraints := [] } : Point α), p.constraints.length))
        ++ [(Cloth.gridPoint cfg free y x,
             (if x ≠ 0 then 1 else 0) + (if y ≠ 0 then 1 else 0))] := by
  cases free <;> by_cases hy : y = 0 <;> by_cases hx : x = 0 <;>
    simp [Cloth.addPoint, Cloth.gridPoint, Point.attach, Point.pin, Point.new, hx, hy]

theorem addRow_points {α : Type} [LinearOrderedField α] (cfg : Config α) (free : Bool)
    (s : Cloth α) (y : Nat) :
    (Cloth.addRow cfg free s y).points.map
        (fun p => (({ p with constraints := [] } : Point α), p.constraints.length))
      = s.points.map (fun p => (({ p with constraints := [] } : Point α), p.constraints.length))
        ++ (List.range (cfg.clothX + 1)).map (fun x => (Cloth.gridPoint cfg free y x,
             (if x ≠ 0 then 1 else 0) + (if y ≠ 0 then 1 else 0))) := by
  rw [← flatMap_single]
  exact foldl_blocks (fun s : Cloth α => s.points) (fun s x => Cloth.addPoint cfg free s y x)
    _ _ (fun s x => addPoint_points cfg free s y x) _ s

theorem new_points {α : Type} [LinearOrderedField α] (cfg : Config α) (free : Bool) :
    (Cloth.new cfg free).points.map
        (fun p => (({ p with constraints := [] } : Point α), p.constraints.length))
      = (List.range (cfg.clothY + 1)).flatMap (fun y =>
          (List.range (cfg.clothX + 1)).map (fun x => (Cloth.gridPoint cfg free y x,
             (if x ≠ 0 then 1 else 0) + (if y ≠ 0 then 1 else 0)))) := by
  have h := foldl_blocks (fun s : Cloth α => s.points) (fun s y => Cloth.addRow cfg free s y)
    (fun p => (({ p with constraints := [] } : Point α), p.constraints.length)) _
    (fun s y => addRow_points cfg free s y) (cfg.clothY + 1) { points := [], heap := [] }
  simpa [Cloth.new] using h

/-- Length of a grid laid out row after row. -/
theorem grid_length {β : Type} (f : Nat → Nat → β) (w : Nat) :
    ∀ m, ((List.range m).flatMap (fun y => (List.range w).map (f y))).length = m * w := by
  intro m
  induction m with
  | zero => simp
  | succ m ih =>
    rw [List.range_succ, List.flatMap_append, List.length_append, ih]
    simp [Nat.succ_mul]

/-- Row-major indexing of a grid laid out row after row. -/
theorem grid_get {β : Type} (f : Nat → Nat → β) (w : Nat) :
    ∀ m y x, y < m → x < w →
      ((List.range m).flatMap (fun y => (List.range w).map (f y)))[x + y * w]?
        = some (f y x) := by
  intro m
  induction m with
  | zero => intro y x hy; omega
  | succ m ih =>
    intro y x hy hx
    rw [List.range_succ, List.flatMap_append]
    by_cases hym : y < m
    · have hlt : x + y * w < m * w := by
        have : (y + 1) * w ≤ m * w := Nat.mul_le_mul_right w hym
        rw [Nat.succ_mul] at this
        omega
      rw [List.getElem?_append_left (by rw [grid_length]; exact hlt)]
      exact ih y x hym hx
    · have hy' : y = m := by omega
      subst hy'
      rw [List.getElem?_append_right (by rw [grid_length]; omega), grid_length]
      simp [List.getElem?_range hx]

theorem row_sum (y : Nat) : ∀ n,
    ((List.range n).map (fun x => (if x ≠ 0 then 1 else 0) + (if y ≠ 0 then 1 else 0))).sum
      = (n - 1) + (if y ≠ 0 then n else 0) := by
  intro n
  induction n with
  | zero => simp
  | succ n ih =>
    rw [List.range_succ, List.map_append, List.sum_append, ih]
    by_cases hy : y = 0 <;> by_cases hn : n = 0 <;> simp [hy, hn] <;> omega

theorem grid_sum (w : Nat) : ∀ m,
    (((List.range m).flatMap (fun y => (List.range (w + 1)).map
        (fun x => (if x ≠ 0 then 1 else 0) + (if y ≠ 0 then 1 else 0))))).sum
      = m * w + (m - 1) * (w + 1) := by
  intro m
  induction m with
  | zero => simp
  | succ m ih =>
    rw [List.range_succ, List.flatMap_append, List.sum_append, ih]
    simp only [List.flatMap_cons, List.flatMap_nil, List.append_nil]
    rw [row_sum]
    by_cases hm : m = 0
    · subst hm; simp
    · have : m - 1 + 1 = m := by omega
      simp only [hm, ne_eq, not_false_eq_true, if_true, Nat.add_sub_cancel]
      have h2 : m * (w + 1) = (m - 1) * (w + 1) + (w + 1) := by
        conv_lhs => rw [← this]
        rw [Nat.succ_mul]
      rw [h2, Nat.succ_mul]
      omega

/-- C4: for all natural numbers `clothX` and `clothY` the constructor produces exactly
`(clothX+1)*(clothY+1)` points, and the lengths of all points' constraint lists add up to
`clothY*(clothX+1) + clothX*(clothY+1)`; for `clothX = 2` and `clothY = 2` these are 9 points
and 12 constraints. -/
theorem C4_grid_counts {α : Type} [LinearOrderedField α] (cfg : Config α) (free : Bool) :
    (Cloth.new cfg free).points.length = (cfg.clothX + 1) * (cfg.clothY + 1) ∧
    ((Cloth.new cfg free).points.map (fun p => p.constraints.length)).sum
      = cfg.clothY * (cfg.clothX + 1) + cfg.clothX * (cfg.clothY + 1) ∧
    (Cloth.new { cfg with clothX := 2, clothY := 2 } free).points.length = 9 ∧
    ((Cloth.new { cfg with clothX := 2, clothY := 2 } free).points.map
      (fun p => p.constraints.length)).sum = 12 := by
  have key : ∀ cfg : Config α,
      (Cloth.new cfg free).points.length = (cfg.clothX + 1) * (cfg.clothY + 1) ∧
      ((Cloth.new cfg free).points.map (fun p => p.constraints.length)).sum
        = cfg.clothY * (cfg.clothX + 1) + cfg.clothX * (cfg.clothY + 1) := by
    intro cfg
    have h := new_points cfg free
    constructor
    · have hl := congrArg List.length h
      rw [List.length_map, grid_length] at hl
      rw [hl, Nat.mul_comm]
    · have hs := congrArg (fun l => (l.map Prod.snd).sum) h
      simp only [List.map_map] at hs
      have e1 : (Prod.snd ∘ fun p : Point α =>
          (({ p with constraints := [] } : Point α), p.constraints.length))
          = fun p => p.constraints.length := rfl
      rw [e1] at hs
      rw [hs, List.map_flatMap]
      simp only [List.map_map]
      have e2 : ∀ y : Nat, (Prod.snd ∘ fun x : Nat => (Cloth.gridPoint cfg free y x,
          (if x ≠ 0 then 1 else 0) + (if y ≠ 0 then 1 else 0)))
          = fun x => (if x ≠ 0 then 1 else 0) + (if y ≠ 0 then 1 else 0) := fun y => rfl
      simp only [e2]
      rw [grid_sum]
      simp only [Nat.add_sub_cancel]
      ring
  exact ⟨(key cfg).1, (key cfg).2, (key { cfg with clothX := 2, clothY := 2 }).1,
    (key { cfg with clothX := 2, clothY := 2 }).2⟩

/-- The point stored at the row-major index of `(x, y)` is the grid point of lines 193-194,
up to its constraint list. -/
theorem new_get {α : Type} [LinearOrderedField α] (cfg : Config α) (free : Bool)
    (x y : Nat) (hx : x ≤ cfg.clothX) (hy : y ≤ cfg.clothY) :
    ∃ p, (Cloth.new cfg free).points[x + y * (cfg.clothX + 1)]? = some p ∧
      ({ p with constraints := [] } : Point α) = Cloth.gridPoint cfg free y x := by
  have h := congrArg (fun l => l[x + y * (cfg.clothX + 1)]?) (new_points cfg free)
  simp only [List.getElem?_map] at h
  rw [grid_get _ _ _ y x (by omega) (by omega)] at h
  cases hp : (Cloth.new cfg free).points[x + y * (cfg.clothX + 1)]? with
  | none => rw [hp] at h; simp at h
  | some p =>
    rw [hp] at h
    simp only [Option.map_some', Option.some.injEq, Prod.mk.injEq] at h
    exact ⟨p, rfl, h.1⟩

/-- C5: for every grid coordinate `(x, y)` with `x ≤ clothX` and `y ≤ clothY` the
constructor stores at index `x + y*(clothX+1)` the point at position
`(width/2 - clothX*spacing/2 + x*spacing, 20 + y*spacing)`; its pin target is that same
position exactly when `y = 0` and the cloth is built not free, and both pin coordinates are
null otherwise. -/
theorem C5_grid_layout {α : Type} [LinearOrderedField α] (cfg : Config α) (free : Bool)
    (x y : Nat) (hx : x ≤ cfg.clothX) (hy : y ≤ cfg.clothY) :
    ∃ p, (Cloth.new cfg free).points[x + y * (cfg.clothX + 1)]? = some p ∧
      p.x = cfg.width / 2 - ((cfg.clothX : α) * cfg.spacing) / 2 + (x : α) * cfg.spacing ∧
      p.y = 20 + (y : α) * cfg.spacing ∧
      (if y = 0 ∧ free = false then p.pinX = some p.x ∧ p.pinY = some p.y
        else p.pinX = none ∧ p.pinY = none) := by
  obtain ⟨p, hp, hg⟩ := new_get cfg free x y hx hy
  have e1 : p.x = (Cloth.gridPoint cfg free y x).x := by rw [← hg]
  have e2 : p.y = (Cloth.gridPoint cfg free y x).y := by rw [← hg]
  have e3 : p.pinX = (Cloth.gridPoint cfg free y x).pinX := by rw [← hg]
  have e4 : p.pinY = (Cloth.gridPoint cfg free y x).pinY := by rw [← hg]
  refine ⟨p, hp, ?_⟩
  rw [e3, e4, e1, e2]
  cases free <;> by_cases hy0 : y = 0 <;>
    simp [Cloth.gridPoint, Point.pin, Point.new, hy0]

/-- C5 (witness): the default 51 by 51 cloth, column 1 of the top row and of the next row. -/
theorem C5_grid_layout_witness :
    1 ≤ (defaults : Config ℚ).clothX ∧ 0 ≤ (defaults : Config ℚ).clothY ∧
    ∃ p, (Cloth.new (defaults : Config ℚ) false).points[1 + 0 * ((defaults : Config ℚ).clothX + 1)]?
        = some p ∧
      p.x = (defaults : Config ℚ).width / 2
          - (((defaults : Config ℚ).clothX : ℚ) * (defaults : Config ℚ).spacing) / 2
          + ((1 : Nat) : ℚ) * (defaults : Config ℚ).spacing ∧
      p.y = 20 + ((0 : Nat) : ℚ) * (defaults : Config ℚ).spacing ∧
      (if 0 = 0 ∧ false = false then p.pinX = some p.x ∧ p.pinY = some p.y
        else p.pinX = none ∧ p.pinY = none) :=
  ⟨by simp [defaults], by simp [defaults],
    C5_grid_layout defaults false 1 0 (by simp [defaults]) (by simp [defaults])⟩

/-! ### `Point.update` -/

/-- The position computed by the Verlet step, lines 84-85, before the edges are applied. -/
theorem verlet_pos {α : Type} [LinearOrderedField α] (cfg : Config α) (p : Point α)
    (delta : α) :
    (Point.verlet cfg p delta).x = p.x + (p.x - p.px) * cfg.friction + (p.vx + 0) * delta ∧
    (Point.verlet cfg p delta).y
      = p.y + (p.y - p.py) * cfg.friction + (p.vy + cfg.gravity) * delta ∧
    (Point.verlet cfg p delta).px = p.x ∧ (Point.verlet cfg p delta).py = p.y :=
  ⟨rfl, rfl, rfl, rfl⟩

theorem pointer_pos {α : Type} [LinearOrderedField α] (sqrt : α → α) (mouse : Mouse α)
    (p : Point α) :
    (Point.pointer sqrt mouse p).x = p.x ∧ (Point.pointer sqrt mouse p).y = p.y := by
  unfold Point.pointer
  split
  · dsimp only
    split
    · exact ⟨rfl, rfl⟩
    · split <;> exact ⟨rfl, rfl⟩
  · exact ⟨rfl, rfl⟩

theorem bounds_high {α : Type} [LinearOrderedField α] (cfg : Config α) (v : Point α) :
    (v.x > cfg.width → (Point.bounds cfg v).x = cfg.width ∧
      (Point.bounds cfg v).px = cfg.width + (cfg.width - v.px) * cfg.bounce) ∧
    (v.y > cfg.height → (Point.bounds cfg v).y = cfg.height ∧
      (Point.bounds cfg v).py = cfg.height + (cfg.height - v.py) * cfg.bounce) := by
  constructor
  · intro hx
    have hx' : v.x ≥ cfg.width := le_of_lt hx
    unfold Point.bounds
    simp only [hx', if_true]
    split
    · exact ⟨rfl, rfl⟩
    · split <;> exact ⟨rfl, rfl⟩
  · intro hy
    have hy' : v.y ≥ cfg.height := le_of_lt hy
    unfold Point.bounds
    by_cases h1 : v.x ≥ cfg.width
    · simp [h1, hy']
    · by_cases h2 : v.x ≤ 0
      · simp [h1, h2, hy']
      · simp [h1, h2, hy']

/-- C6: for a point that `update` does not skip and every pointer state, if the x computed
by the Verlet step exceeds the canvas width `W`, then after `update` the point's x is exactly
`W` and its previous x is `W + (W - x0) * bounce`, where `x0` is the x before the call; the
same holds for y with the canvas height. -/
theorem C6_bounce_at_high_edge (cfg : Config ℝ) (mouse : Mouse ℝ) (p : Point ℝ) (delta : ℝ)
    (hp : p.frozen = false) :
    ((Point.verlet cfg (Point.pointer Real.sqrt mouse p) delta).x > cfg.width →
      (Point.update Real.sqrt cfg mouse p delta).x = cfg.width ∧
      (Point.update Real.sqrt cfg mouse p delta).px
        = cfg.width + (cfg.width - p.x) * cfg.bounce) ∧
    ((Point.verlet cfg (Point.pointer Real.sqrt mouse p) delta).y > cfg.height →
      (Point.update Real.sqrt cfg mouse p delta).y = cfg.height ∧
      (Point.update Real.sqrt cfg mouse p delta).py
        = cfg.height + (cfg.height - p.y) * cfg.bounce) := by
  have hq := pointer_pos Real.sqrt mouse p
  have hv := verlet_pos cfg (Point.pointer Real.sqrt mouse p) delta
  have hb := bounds_high cfg (Point.verlet cfg (Point.pointer Real.sqrt mouse p) delta)
  rw [hv.2.2.1, hv.2.2.2, hq.1, hq.2] at hb
  simp only [Point.update, hp, Bool.false_eq_true, if_false]
  exact hb

/-- C6 (witness): a point at (699, 399) that came from (690, 390), pointer not pressed: the
Verlet step gives x = 707.91 > 700 and y = 407.91 + 400 * delta > 400. -/
theorem C6_bounce_at_high_edge_witness :
    ({ Point.new (699 : ℝ) 399 with px := 690, py := 390 } : Point ℝ).frozen = false ∧
    ((Point.verlet defaults (Point.pointer Real.sqrt mouse0
        { Point.new (699 : ℝ) 399 with px := 690, py := 390 }) (0.016 * 0.016)).x
          > (defaults : Config ℝ).width ∧
      (Point.verlet defaults (Point.pointer Real.sqrt mouse0
        { Point.new (699 : ℝ) 399 with px := 690, py := 390 }) (0.016 * 0.016)).y
          > (defaults : Config ℝ).height) ∧
    ((Point.update Real.sqrt defaults mouse0
        { Point.new (699 : ℝ) 399 with px := 690, py := 390 } (0.016 * 0.016)).x = 700 ∧
      (Point.update Real.sqrt defaults mouse0
        { Point.new (699 : ℝ) 399 with px := 690, py := 390 } (0.016 * 0.016)).px
          = 700 + (700 - 699) * 0.5) ∧
    ((Point.update Real.sqrt defaults mouse0
        { Point.new (699 : ℝ) 399 with px := 690, py := 390 } (0.016 * 0.016)).y = 400 ∧
      (Point.update Real.sqrt defaults mouse0
        { Point.new (699 : ℝ) 399 with px := 690, py := 390 } (0.016 * 0.016)).py
          = 400 + (400 - 399) * 0.5) := by
  have hf : ({ Point.new (699 : ℝ) 399 with px := 690, py := 390 } : Point ℝ).frozen = false := by
    simp [Point.frozen, Point.new, truthy]
  have hx : (Point.verlet defaults (Point.pointer Real.sqrt mouse0
        { Point.new (699 : ℝ) 399 with px := 690, py := 390 }) (0.016 * 0.016)).x
          > (defaults : Config ℝ).width := by
    simp [Point.verlet, Point.pointer, mouse0, Point.new, Point.addForce, defaults]
    norm_num
  have hy : (Point.verlet defaults (Point.pointer Real.sqrt mouse0
        { Point.new (699 : ℝ) 399 with px := 690, py := 390 }) (0.016 * 0.016)).y
          > (defaults : Config ℝ).height := by
    simp [Point.verlet, Point.pointer, mouse0, Point.new, Point.addForce, defaults]
    norm_num
  have h := C6_bounce_at_high_edge defaults mouse0
    { Point.new (699 : ℝ) 399 with px := 690, py := 390 } (0.016 * 0.016) hf
  exact ⟨hf, ⟨hx, hy⟩, h.1 hx, h.2 hy⟩

theorem bounds_constraints {α : Type} [LinearOrderedField α] (cfg : Config α) (v : Point α) :
    (Point.bounds cfg v).constraints = v.constraints := by
  unfold Point.bounds
  dsimp only
  split_ifs <;> rfl

/-- The constraint list after `update` is the one left by the pointer step of lines 69-80. -/
theorem update_constraints {α : Type} [LinearOrderedField α] (sqrt : α → α) (cfg : Config α)
    (mouse : Mouse α) (p : Point α) (delta : α) (hp : p.frozen = false) :
    (Point.update sqrt cfg mouse p delta).constraints
      = (Point.pointer sqrt mouse p).constraints := by
  simp only [Point.update, hp, Bool.false_eq_true, if_false]
  rw [bounds_constraints]
  rfl

/-- C7 (counterexample): the pointer is pressed with button 1 exactly on a point that holds
three constraints; the point is within the cut radius 8, and within the influence radius 36,
so the drag branch of line 74 runs and the three constraints stay. -/
theorem C7_counterexample :
    ({ Point.new (0 : ℝ) 0 with constraints := [0, 1, 2] } : Point ℝ).frozen = false ∧
    ({ mouse0 with down := true } : Mouse ℝ).down = true ∧
    Real.sqrt (((0 : ℝ) - ({ mouse0 with down := true } : Mouse ℝ).x)
          * (0 - ({ mouse0 with down := true } : Mouse ℝ).x)
        + (0 - ({ mouse0 with down := true } : Mouse ℝ).y)
          * (0 - ({ mouse0 with down := true } : Mouse ℝ).y))
      < ({ mouse0 with down := true } : Mouse ℝ).cut ∧
    (Point.update Real.sqrt defaults { mouse0 with down := true }
      { Point.new (0 : ℝ) 0 with constraints := [0, 1, 2] } (0.016 * 0.016)).constraints
      = [0, 1, 2] := by
  refine ⟨by simp [Point.frozen, Point.new, truthy], rfl, by simp [mouse0], ?_⟩
  rw [update_constraints _ _ _ _ _ (by simp [Point.frozen, Point.new, truthy])]
  simp [Point.new, Point.pointer, mouse0]

/-- C7 (amended): for a point that `update` does not skip, when the pointer is pressed and
the point is closer to the pointer than the cut radius, and the drag condition of line 74
(button 1 and closer than the influence radius) does not hold, `update` leaves the point's
constraint list empty. -/
theorem C7_cut_clears_constraints (cfg : Config ℝ) (mouse : Mouse ℝ) (p : Point ℝ) (delta : ℝ)
    (hp : p.frozen = false) (hdown : mouse.down = true)
    (hcut : Real.sqrt ((p.x - mouse.x) * (p.x - mouse.x) + (p.y - mouse.y) * (p.y - mouse.y))
      < mouse.cut)
    (hdrag : ¬ (mouse.button = 1 ∧
      Real.sqrt ((p.x - mouse.x) * (p.x - mouse.x) + (p.y - mouse.y) * (p.y - mouse.y))
        < mouse.influence)) :
    (Point.update Real.sqrt cfg mouse p delta).constraints = [] := by
  rw [update_constraints _ _ _ _ _ hp]
  simp only [Point.pointer, hdown, if_true]
  rw [if_neg hdrag, if_pos hcut]

/-- C7 (witness): button 3 pressed exactly on a point holding three constraints. -/
theorem C7_cut_clears_constraints_witness :
    ({ Point.new (0 : ℝ) 0 with constraints := [0, 1, 2] } : Point ℝ).frozen = false ∧
    ({ mouse0 with down := true, button := 3 } : Mouse ℝ).down = true ∧
    Real.sqrt (((0 : ℝ) - ({ mouse0 with down := true, button := 3 } : Mouse ℝ).x)
          * (0 - ({ mouse0 with down := true, button := 3 } : Mouse ℝ).x)
        + (0 - ({ mouse0 with down := true, button := 3 } : Mouse ℝ).y)
          * (0 - ({ mouse0 with down := true, button := 3 } : Mouse ℝ).y))
      < ({ mouse0 with down := true, button := 3 } : Mouse ℝ).cut ∧
    ({ mouse0 with down := true, button := 3 } : Mouse ℝ).button ≠ 1 ∧
    (Point.update Real.sqrt defaults { mouse0 with down := true, button := 3 }
      { Point.new (0 : ℝ) 0 with constraints := [0, 1, 2] } (0.016 * 0.016)).constraints
      = [] :=
  ⟨by simp [Point.frozen, Point.new, truthy], rfl, by simp [mouse0], by simp,
    C7_cut_clears_constraints defaults { mouse0 with down := true, button := 3 }
      { Point.new (0 : ℝ) 0 with constraints := [0, 1, 2] } (0.016 * 0.016)
      (by simp [Point.frozen, Point.new, truthy]) rfl
      (by simp [mouse0, Point.new]) (by simp [mouse0])⟩

/-! ### `Cloth.drawTextured` -/

theorem four_spread (a b c d : ℝ) :
    max (max (max a b) c) d - min (min (min a b) c) d > 0 ↔ ¬ (a = b ∧ a = c ∧ a = d) := by
  constructor
  · rintro h ⟨rfl, rfl, rfl⟩
    simp at h
  · intro h
    by_contra hle
    apply h
    have h1 : a ≤ max (max (max a b) c) d := by simp
    have h2 : b ≤ max (max (max a b) c) d := by simp
    have h3 : c ≤ max (max (max a b) c) d := by simp
    have h4 : d ≤ max (max (max a b) c) d := by simp
    have h5 : min (min (min a b) c) d ≤ a := by simp
    have h6 : min (min (min a b) c) d ≤ b := by simp
    have h7 : min (min (min a b) c) d ≤ c := by simp
    have h8 : min (min (min a b) c) d ≤ d := by simp
    refine ⟨?_, ?_, ?_⟩ <;> linarith

theorem expand_inj (c a b : ℝ) : c + (a - c) * 1.05 = c + (b - c) * 1.05 ↔ a = b := by
  constructor
  · intro h
    norm_num at h
    linarith
  · rintro rfl; rfl

theorem expand_spread (c a1 a2 a3 a4 : ℝ) :
    max (max (max (c + (a1 - c) * 1.05) (c + (a2 - c) * 1.05)) (c + (a3 - c) * 1.05))
        (c + (a4 - c) * 1.05)
      - min (min (min (c + (a1 - c) * 1.05) (c + (a2 - c) * 1.05)) (c + (a3 - c) * 1.05))
        (c + (a4 - c) * 1.05) > 0
    ↔ ¬ (a1 = a2 ∧ a1 = a3 ∧ a1 = a4) := by
  rw [four_spread, expand_inj, expand_inj, expand_inj]

theorem fold_max_le (c : ℝ) (l : List ℝ) : ∀ m,
    (l.foldl (fun maxDist dist => if dist > maxDist then dist else maxDist) m ≤ c
      ↔ m ≤ c ∧ ∀ d ∈ l, d ≤ c) := by
  induction l with
  | nil => intro m; simp
  | cons a l ih =>
    intro m
    rw [List.foldl_cons, ih]
    by_cases h : a > m
    · rw [if_pos h]
      simp only [List.mem_cons, forall_eq_or_imp]
      constructor
      · rintro ⟨h1, h2⟩; exact ⟨le_trans (le_of_lt h) h1, h1, h2⟩
      · rintro ⟨_, h1, h2⟩; exact ⟨h1, h2⟩
    · rw [if_neg h]
      simp only [List.mem_cons, forall_eq_or_imp]
      constructor
      · rintro ⟨h1, h2⟩; exact ⟨h1, le_trans (not_lt.mp h) h1, h2⟩
      · rintro ⟨h0, _, h2⟩; exact ⟨h0, h2⟩

theorem maxDist_le (p1 p2 p3 p4 : Point ℝ) (c : ℝ) :
    Cloth.maxDist Real.sqrt p1 p2 p3 p4 ≤ c ↔
      (Cloth.pairDist Real.sqrt p1 p2 ≤ c ∧ Cloth.pairDist Real.sqrt p1 p3 ≤ c ∧
       Cloth.pairDist Real.sqrt p1 p4 ≤ c ∧ Cloth.pairDist Real.sqrt p2 p3 ≤ c ∧
       Cloth.pairDist Real.sqrt p2 p4 ≤ c ∧ Cloth.pairDist Real.sqrt p3 p4 ≤ c) := by
  unfold Cloth.maxDist
  rw [fold_max_le]
  simp only [List.mem_cons, List.mem_singleton, forall_eq_or_imp, forall_eq, List.not_mem_nil,
    false_imp_iff, implies_true, and_true]
  constructor
  · rintro ⟨_, h⟩; exact h
  · intro h
    exact ⟨le_trans (Real.sqrt_nonneg _) h.1, h⟩

theorem source_extent (n X : Nat) (w : ℝ) (hn : n < X) (hw : 0 < w) :
    (min 1 (((n : ℝ) + 1 + 1 * 0.02) / (X : ℝ)) - max 0 (((n : ℝ) - 1 * 0.02) / (X : ℝ))) * w
      > 0 := by
  have hX : (0 : ℝ) < X := by
    have : 0 < X := by omega
    exact_mod_cast this
  have hnX : (n : ℝ) + 1 ≤ X := by exact_mod_cast hn
  have hn0 : (0 : ℝ) ≤ n := Nat.cast_nonneg n
  have h1 : ((n : ℝ) - 1 * 0.02) / (X : ℝ) < 1 := by
    rw [div_lt_one hX]; norm_num; linarith
  have h2 : (0 : ℝ) < ((n : ℝ) + 1 + 1 * 0.02) / (X : ℝ) := by
    apply div_pos _ hX; norm_num; linarith
  have h3 : ((n : ℝ) - 1 * 0.02) / (X : ℝ) < ((n : ℝ) + 1 + 1 * 0.02) / (X : ℝ) := by
    apply div_lt_div_of_pos_right _ hX; norm_num; linarith
  have : max 0 (((n : ℝ) - 1 * 0.02) / (X : ℝ)) < min 1 (((n : ℝ) + 1 + 1 * 0.02) / (X : ℝ)) :=
    lt_min (max_lt one_pos h1) (max_lt h2 h3)
  exact mul_pos (sub_pos.mpr this) hw

/-- When the body of the loops of `drawTextured` issues `drawImage` for a cell. -/
theorem quad_drawn_iff (cfg : Config ℝ) (img : Image ℝ) (s : Cloth ℝ) (x y : Nat)
    (hx : x < cfg.clothX) (hy : y < cfg.clothY) (hw : 0 < img.width) (hh : 0 < img.height)
    (p1 p2 p3 p4 : Point ℝ)
    (h1 : s.points[x + y * (cfg.clothX + 1)]? = some p1)
    (h2 : s.points[x + 1 + y * (cfg.clothX + 1)]? = some p2)
    (h3 : s.points[x + (y + 1) * (cfg.clothX + 1)]? = some p3)
    (h4 : s.points[x + 1 + (y + 1) * (cfg.clothX + 1)]? = some p4) :
    (Cloth.quad Real.sqrt cfg img s y x).any DrawCmd.isDrawImage = true ↔
      ((1 ≤ p1.constraints.length ∧ 1 ≤ p2.constraints.length ∧
        1 ≤ p3.constraints.length ∧ 1 ≤ p4.constraints.length) ∧
       (Cloth.pairDist Real.sqrt p1 p2 ≤ 3 * cfg.spacing ∧
        Cloth.pairDist Real.sqrt p1 p3 ≤ 3 * cfg.spacing ∧
        Cloth.pairDist Real.sqrt p1 p4 ≤ 3 * cfg.spacing ∧
        Cloth.pairDist Real.sqrt p2 p3 ≤ 3 * cfg.spacing ∧
        Cloth.pairDist Real.sqrt p2 p4 ≤ 3 * cfg.spacing ∧
        Cloth.pairDist Real.sqrt p3 p4 ≤ 3 * cfg.spacing) ∧
       ¬ (p1.x = p2.x ∧ p1.x = p3.x ∧ p1.x = p4.x) ∧
       ¬ (p1.y = p2.y ∧ p1.y = p3.y ∧ p1.y = p4.y)) := by
  rw [← maxDist_le]
  simp only [Cloth.quad, h1, h2, h3, h4]
  by_cases hc : p1.constraints.length = 0 ∨ p2.constraints.length = 0 ∨
      p3.constraints.length = 0 ∨ p4.constraints.length = 0
  · rw [if_pos hc]
    simp only [List.any_nil, Bool.false_eq_true, false_iff]
    rintro ⟨⟨a1, a2, a3, a4⟩, -⟩
    omega
  · rw [if_neg hc]
    have hc' : 1 ≤ p1.constraints.length ∧ 1 ≤ p2.constraints.length ∧
        1 ≤ p3.constraints.length ∧ 1 ≤ p4.constraints.length := by omega
    by_cases hm : Cloth.maxDist Real.sqrt p1 p2 p3 p4 > 3 * cfg.spacing
    · rw [if_pos hm]
      simp only [List.any_nil, Bool.false_eq_true, false_iff]
      rintro ⟨-, hle, -⟩
      exact absurd hm (not_lt.mpr hle)
    · rw [if_neg hm]
      have hsw := source_extent x cfg.clothX img.width hx hw
      have hsh := source_extent y cfg.clothY img.height hy hh
      have hdw := expand_spread ((p1.x + p2.x + p3.x + p4.x) / 4) p1.x p2.x p3.x p4.x
      have hdh := expand_spread ((p1.y + p2.y + p3.y + p4.y) / 4) p1.y p2.y p3.y p4.y
      simp only [List.any_append, List.any_cons, List.any_nil, DrawCmd.isDrawImage,
        Bool.or_false, Bool.false_or, Bool.or_eq_true]
      rw [← hdw, ← hdh]
      constructor
      · intro h
        split_ifs at h with hcond
        · exact ⟨hc', not_lt.mp hm, hcond.2.2.1, hcond.2.2.2⟩
        · simp at h
      · rintro ⟨-, -, hd1, hd2⟩
        rw [if_pos ⟨hsw, hsh, hd1, hd2⟩]
        simp [DrawCmd.isDrawImage]

theorem integrate_fallen :
    Cloth.integrate Real.sqrt small mouse0 (fallen : Cloth ℝ) = fallen := by
  norm_num [Cloth.integrate, fallen, Point.update, Point.frozen, Point.new, truthy,
    Point.pointer, mouse0, Point.verlet, Point.addForce, Point.bounds, small, defaults]

theorem sqrt_flat_le (a b c : ℝ) (hc : 0 ≤ c) (h : (a - b) * (a - b) ≤ c ^ 2) :
    Real.sqrt ((a - b) * (a - b) + (400 - 400) * (400 - 400)) ≤ c := by
  rw [Real.sqrt_le_iff]
  refine ⟨hc, ?_⟩
  linarith

/-- A `drawImage` issued by the body of the loops for the cell `(x, y)` has the source corner
of that cell, lines 307-308. -/
theorem quad_drawImage_source (cfg : Config ℝ) (img : Image ℝ) (s : Cloth ℝ) (y x : Nat)
    (a b sw sh dx dy dw dh : ℝ)
    (h : DrawCmd.drawImage a b sw sh dx dy dw dh ∈ Cloth.quad Real.sqrt cfg img s y x) :
    a = max 0 (((x : ℝ) - 1 * 0.02) / (cfg.clothX : ℝ)) * img.width ∧
    b = max 0 (((y : ℝ) - 1 * 0.02) / (cfg.clothY : ℝ)) * img.height := by
  unfold Cloth.quad at h
  split at h
  · split at h
    · simp at h
    · split at h
      · simp at h
      · simp only [List.mem_append, List.mem_cons, List.mem_singleton, List.not_mem_nil,
          or_false, false_or, reduceCtorEq] at h
        split at h
        · simp only [List.mem_singleton, DrawCmd.drawImage.injEq] at h
          exact ⟨h.1, h.2.1⟩
        · simp at h
  · simp at h

/-- The source corner of lines 279 and 307 tells the columns apart. -/
theorem source_corner_inj (X : Nat) (w : ℝ) (hw : 0 < w) (n n' : Nat) (hn : n < X)
    (h : max 0 (((n : ℝ) - 1 * 0.02) / (X : ℝ)) * w
      = max 0 (((n' : ℝ) - 1 * 0.02) / (X : ℝ)) * w) : n = n' := by
  have hX : (0 : ℝ) < X := by
    have : 0 < X := by omega
    exact_mod_cast this
  have key : ∀ m : Nat, max 0 (((m : ℝ) - 1 * 0.02) / (X : ℝ))
      = if m = 0 then 0 else ((m : ℝ) - 1 * 0.02) / (X : ℝ) := by
    intro m
    by_cases hm : m = 0
    · subst hm
      rw [if_pos rfl]
      apply max_eq_left
      apply div_nonpos_of_nonpos_of_nonneg _ (le_of_lt hX)
      norm_num
    · rw [if_neg hm]
      apply max_eq_right
      apply div_nonneg _ (le_of_lt hX)
      have : (1 : ℝ) ≤ m := by exact_mod_cast Nat.one_le_iff_ne_zero.mpr hm
      norm_num
      linarith
  have h' := mul_right_cancel₀ (ne_of_gt hw) h
  rw [key n, key n'] at h'
  have pos : ∀ m : Nat, m ≠ 0 → 0 < ((m : ℝ) - 1 * 0.02) / (X : ℝ) := by
    intro m hm
    apply div_pos _ hX
    have : (1 : ℝ) ≤ m := by exact_mod_cast Nat.one_le_iff_ne_zero.mpr hm
    norm_num
    linarith
  by_cases h0 : n = 0 <;> by_cases h0' : n' = 0
  · rw [h0, h0']
  · rw [if_pos h0, if_neg h0'] at h'
    exact absurd h' (ne_of_lt (pos n' h0'))
  · rw [if_neg h0, if_pos h0'] at h'
    exact absurd h'.symm (ne_of_lt (pos n h0))
  · rw [if_neg h0, if_neg h0'] at h'
    have e := (div_left_inj' (ne_of_gt hX)).mp h'
    have e2 : (n : ℝ) = n' := by linarith
    exact_mod_cast e2

/-- The calls `drawTextured` makes are the calls of the loop body, cell after cell, on the
state left by the integration step. -/
theorem drawTextured_calls {α : Type} [LinearOrderedField α] (sqrt : α → α) (cfg : Config α)
    (mouse : Mouse α) (img : Image α) (s : Cloth α) :
    (Cloth.drawTextured sqrt cfg mouse img s).2
      = (List.range cfg.clothY).flatMap (fun y => (List.range cfg.clothX).flatMap
          (fun x => Cloth.quad sqrt cfg img (Cloth.drawTextured sqrt cfg mouse img s).1 y x)) :=
  rfl

/-- Among the calls `drawTextured` makes there is a `drawImage` with the source corner of the
cell `(x, y)` exactly when the loop body issues a `drawImage` for that cell. -/
theorem cell_drawn_iff (cfg : Config ℝ) (mouse : Mouse ℝ) (img : Image ℝ) (s : Cloth ℝ)
    (x y : Nat) (hx : x < cfg.clothX) (hy : y < cfg.clothY)
    (hw : 0 < img.width) (hh : 0 < img.height) :
    (∃ sw sh dx dy dw dh : ℝ,
        DrawCmd.drawImage (max 0 (((x : ℝ) - 1 * 0.02) / (cfg.clothX : ℝ)) * img.width)
            (max 0 (((y : ℝ) - 1 * 0.02) / (cfg.clothY : ℝ)) * img.height) sw sh dx dy dw dh
          ∈ (Cloth.drawTextured Real.sqrt cfg mouse img s).2) ↔
      (Cloth.quad Real.sqrt cfg img (Cloth.drawTextured Real.sqrt cfg mouse img s).1 y x).any
        DrawCmd.isDrawImage = true := by
  rw [drawTextured_calls]
  constructor
  · rintro ⟨sw, sh, dx, dy, dw, dh, hmem⟩
    simp only [List.mem_flatMap, List.mem_range] at hmem
    obtain ⟨y', hy', x', hx', hq⟩ := hmem
    obtain ⟨ea, eb⟩ := quad_drawImage_source cfg img _ y' x' _ _ _ _ _ _ _ _ hq
    have e1 : x = x' := source_corner_inj cfg.clothX img.width hw x x' hx ea
    have e2 : y = y' := source_corner_inj cfg.clothY img.height hh y y' hy eb
    subst e1 e2
    exact List.any_eq_true.mpr ⟨_, hq, rfl⟩
  · intro h
    obtain ⟨c, hc, hd⟩ := List.any_eq_true.mp h
    cases c with
    | drawImage a b sw sh dx dy dw dh =>
      obtain ⟨ea, eb⟩ := quad_drawImage_source cfg img _ y x _ _ _ _ _ _ _ _ hc
      subst ea eb
      refine ⟨sw, sh, dx, dy, dw, dh, ?_⟩
      simp only [List.mem_flatMap, List.mem_range]
      exact ⟨y, hy, x, hx, hc⟩
    | _ => simp [DrawCmd.isDrawImage] at hd

theorem new_small : Cloth.new (small : Config ℝ) false =
    { points := [(Point.new 342 20).pin 342 20,
                 { (Point.new 350 20).pin 350 20 with constraints := [0] },
                 { (Point.new 358 20).pin 358 20 with constraints := [1] },
                 { Point.new 342 28 with constraints := [2] },
                 { Point.new 350 28 with constraints := [3, 4] },
                 { Point.new 358 28 with constraints := [5, 6] }],
      heap := [{ p1 := 1, p2 := 0, length := 8 }, { p1 := 2, p2 := 1, length := 8 },
               { p1 := 3, p2 := 0, length := 8 }, { p1 := 4, p2 := 3, length := 8 },
               { p1 := 4, p2 := 1, length := 8 }, { p1 := 5, p2 := 4, length := 8 },
               { p1 := 5, p2 := 2, length := 8 }] } := by
  have h2 : List.range 2 = [0, 1] := rfl
  have h3 : List.range 3 = [0, 1, 2] := rfl
  norm_num [Cloth.new, Cloth.addRow, Cloth.addPoint, Cloth.gridPoint, Point.attach, small,
    defaults, h2, h3, Point.new, Point.pin]

theorem integrate_new_small :
    (Cloth.integrate Real.sqrt small mouse0 (Cloth.new (small : Config ℝ) false)).points
      = [(Point.new (342 : ℝ) 20).pin 342 20,
         { (Point.new 350 20).pin 350 20 with constraints := [0] },
         { (Point.new 358 20).pin 358 20 with constraints := [1] },
         { Point.new 342 28 with y := 28.1024, constraints := [2] },
         { Point.new 350 28 with y := 28.1024, constraints := [3, 4] },
         { Point.new 358 28 with y := 28.1024, constraints := [5, 6] }] := by
  rw [new_small]
  norm_num [Cloth.integrate, Point.update, Point.frozen, Point.new, Point.pin, truthy,
    Point.pointer, mouse0, Point.verlet, Point.addForce, Point.bounds, small, defaults]

theorem sqrt_le_of_sq (v c : ℝ) (hc : 0 ≤ c) (h : v ≤ c ^ 2) : Real.sqrt v ≤ c :=
  Real.sqrt_le_iff.mpr ⟨hc, h⟩

/-- C8 (counterexample): a cloth of 3 by 2 points lying flat on the floor of the canvas.
After the integration step the four corners of the cell in column 1 of row 0 are where they
were, each holds a constraint, and the six distances between them are 8, 0, 8, 8, 0, 8, all
at most `3 * spacing = 24`; but the four corners have the same y, the destination height
`dh` of line 315 is 0, and the guard of line 317 skips `drawImage`: among the calls
`drawTextured` makes there is no `drawImage` for that cell. -/
theorem C8_counterexample :
    (Cloth.drawTextured Real.sqrt small mouse0 { width := 64, height := 64 }
      (fallen : Cloth ℝ)).1 = fallen ∧
    (fallen : Cloth ℝ).points[1 + 0 * ((small : Config ℝ).clothX + 1)]?
      = some { Point.new 108 400 with constraints := [0] } ∧
    (fallen : Cloth ℝ).points[1 + 1 + 0 * ((small : Config ℝ).clothX + 1)]?
      = some { Point.new 116 400 with constraints := [1] } ∧
    (fallen : Cloth ℝ).points[1 + (0 + 1) * ((small : Config ℝ).clothX + 1)]?
      = some { Point.new 108 400 with constraints := [3, 4] } ∧
    (fallen : Cloth ℝ).points[1 + 1 + (0 + 1) * ((small : Config ℝ).clothX + 1)]?
      = some { Point.new 116 400 with constraints := [5, 6] } ∧
    Cloth.maxDist Real.sqrt ({ Point.new 108 400 with constraints := [0] } : Point ℝ)
      { Point.new 116 400 with constraints := [1] }
      { Point.new 108 400 with constraints := [3, 4] }
      { Point.new 116 400 with constraints := [5, 6] } ≤ 3 * (small : Config ℝ).spacing ∧
    ¬ ∃ sw sh dx dy dw dh : ℝ,
      DrawCmd.drawImage
          (max 0 ((((1 : Nat) : ℝ) - 1 * 0.02) / ((small : Config ℝ).clothX : ℝ)) * 64)
          (max 0 ((((0 : Nat) : ℝ) - 1 * 0.02) / ((small : Config ℝ).clothY : ℝ)) * 64)
          sw sh dx dy dw dh
        ∈ (Cloth.drawTextured Real.sqrt small mouse0 { width := 64, height := 64 }
            (fallen : Cloth ℝ)).2 := by
  have hi : (Cloth.drawTextured Real.sqrt small mouse0 { width := 64, height := 64 }
      (fallen : Cloth ℝ)).1 = fallen := integrate_fallen
  refine ⟨hi, rfl, rfl, rfl, rfl, ?_, ?_⟩
  · rw [maxDist_le]
    simp only [Cloth.pairDist, Point.new, small, defaults]
    refine ⟨?_, ?_, ?_, ?_, ?_, ?_⟩ <;> apply sqrt_flat_le <;> norm_num
  · intro hex
    have hany := (cell_drawn_iff small mouse0 { width := 64, height := 64 } (fallen : Cloth ℝ)
      1 0 (by simp [small]) (by simp [small]) (by norm_num) (by norm_num)).mp hex
    rw [hi] at hany
    have h := quad_drawn_iff small { width := 64, height := 64 } (fallen : Cloth ℝ) 1 0
      (by simp [small]) (by simp [small]) (by norm_num) (by norm_num)
      { Point.new 108 400 with constraints := [0] }
      { Point.new 116 400 with constraints := [1] }
      { Point.new 108 400 with constraints := [3, 4] }
      { Point.new 116 400 with constraints := [5, 6] } rfl rfl rfl rfl
    exact (h.mp hany).2.2.2 ⟨rfl, rfl, rfl⟩

/-- C8 (amended): for a cloth state with `(clothX+1)*(clothY+1)` points, a cell `(x, y)`
with `x < clothX` and `y < clothY` and a loaded texture of positive width and height, the
calls `drawTextured` makes on `ctx` include a `drawImage` for that cell (the one whose source
rectangle starts at the cell's corner `(u1 * width, v1 * height)` of lines 307-308) if and
only if, after its integration step, all four corners hold at least one constraint, the six
distances between the corners are at most `3 * spacing`, the four corners do not all have
the same x and do not all have the same y (so that the destination box of lines 314-315 has
positive width and height). -/
theorem C8_quad_drawn_iff (cfg : Config ℝ) (mouse : Mouse ℝ) (img : Image ℝ) (s : Cloth ℝ)
    (x y : Nat) (hx : x < cfg.clothX) (hy : y < cfg.clothY)
    (hw : 0 < img.width) (hh : 0 < img.height)
    (hlen : s.points.length = (cfg.clothX + 1) * (cfg.clothY + 1)) :
    ∃ p1 p2 p3 p4 : Point ℝ,
      (Cloth.drawTextured Real.sqrt cfg mouse img s).1.points[x + y * (cfg.clothX + 1)]?
        = some p1 ∧
      (Cloth.drawTextured Real.sqrt cfg mouse img s).1.points[x + 1 + y * (cfg.clothX + 1)]?
        = some p2 ∧
      (Cloth.drawTextured Real.sqrt cfg mouse img s).1.points[x + (y + 1) * (cfg.clothX + 1)]?
        = some p3 ∧
      (Cloth.drawTextured Real.sqrt cfg mouse img s).1.points[x + 1 + (y + 1) * (cfg.clothX + 1)]?
        = some p4 ∧
      ((∃ sw sh dx dy dw dh : ℝ,
          DrawCmd.drawImage (max 0 (((x : ℝ) - 1 * 0.02) / (cfg.clothX : ℝ)) * img.width)
              (max 0 (((y : ℝ) - 1 * 0.02) / (cfg.clothY : ℝ)) * img.height)
              sw sh dx dy dw dh
            ∈ (Cloth.drawTextured Real.sqrt cfg mouse img s).2) ↔
        ((1 ≤ p1.constraints.length ∧ 1 ≤ p2.constraints.length ∧
          1 ≤ p3.constraints.length ∧ 1 ≤ p4.constraints.length) ∧
         (Cloth.pairDist Real.sqrt p1 p2 ≤ 3 * cfg.spacing ∧
          Cloth.pairDist Real.sqrt p1 p3 ≤ 3 * cfg.spacing ∧
          Cloth.pairDist Real.sqrt p1 p4 ≤ 3 * cfg.spacing ∧
          Cloth.pairDist Real.sqrt p2 p3 ≤ 3 * cfg.spacing ∧
          Cloth.pairDist Real.sqrt p2 p4 ≤ 3 * cfg.spacing ∧
          Cloth.pairDist Real.sqrt p3 p4 ≤ 3 * cfg.spacing) ∧
         ¬ (p1.x = p2.x ∧ p1.x = p3.x ∧ p1.x = p4.x) ∧
         ¬ (p1.y = p2.y ∧ p1.y = p3.y ∧ p1.y = p4.y))) := by
  have hl : (Cloth.drawTextured Real.sqrt cfg mouse img s).1.points.length
      = (cfg.clothX + 1) * (cfg.clothY + 1) := by
    simp [Cloth.drawTextured, Cloth.integrate, hlen]
  have e1 : (cfg.clothX + 1) * (cfg.clothY + 1)
      = cfg.clothY * (cfg.clothX + 1) + (cfg.clothX + 1) := by ring
  have e2 : (y + 1) * (cfg.clothX + 1) = y * (cfg.clothX + 1) + (cfg.clothX + 1) := by ring
  have e3 : (y + 1) * (cfg.clothX + 1) ≤ cfg.clothY * (cfg.clothX + 1) :=
    Nat.mul_le_mul_right _ (by omega)
  have get : ∀ i, i < (cfg.clothX + 1) * (cfg.clothY + 1) →
      ∃ p, (Cloth.drawTextured Real.sqrt cfg mouse img s).1.points[i]? = some p := by
    intro i hi
    exact ⟨_, List.getElem?_eq_getElem (by rw [hl]; exact hi)⟩
  obtain ⟨p1, h1⟩ := get (x + y * (cfg.clothX + 1)) (by omega)
  obtain ⟨p2, h2⟩ := get (x + 1 + y * (cfg.clothX + 1)) (by omega)
  obtain ⟨p3, h3⟩ := get (x + (y + 1) * (cfg.clothX + 1)) (by omega)
  obtain ⟨p4, h4⟩ := get (x + 1 + (y + 1) * (cfg.clothX + 1)) (by omega)
  exact ⟨p1, p2, p3, p4, h1, h2, h3, h4,
    (cell_drawn_iff cfg mouse img s x y hx hy hw hh).trans
      (quad_drawn_iff cfg img _ x y hx hy hw hh p1 p2 p3 p4 h1 h2 h3 h4)⟩

/-- C8 (witness): the cloth of 3 by 2 points as the constructor builds it, hanging from its
pinned top row, pointer at rest, a texture of 64 by 64.  After the integration step the
corners of the cell in column 1 of row 0 are at (350, 20), (358, 20), (350, 28.1024) and
(358, 28.1024); all conditions hold and `drawTextured` issues the `drawImage` of that
cell. -/
theorem C8_quad_drawn_iff_witness :
    1 < (small : Config ℝ).clothX ∧ 0 < (small : Config ℝ).clothY ∧
    (Cloth.new (small : Config ℝ) false).points.length
      = ((small : Config ℝ).clothX + 1) * ((small : Config ℝ).clothY + 1) ∧
    ∃ sw sh dx dy dw dh : ℝ,
      DrawCmd.drawImage
          (max 0 ((((1 : Nat) : ℝ) - 1 * 0.02) / ((small : Config ℝ).clothX : ℝ)) * 64)
          (max 0 ((((0 : Nat) : ℝ) - 1 * 0.02) / ((small : Config ℝ).clothY : ℝ)) * 64)
          sw sh dx dy dw dh
        ∈ (Cloth.drawTextured Real.sqrt small mouse0 { width := 64, height := 64 }
            (Cloth.new (small : Config ℝ) false)).2 := by
  have hlen : (Cloth.new (small : Config ℝ) false).points.length
      = ((small : Config ℝ).clothX + 1) * ((small : Config ℝ).clothY + 1) := by
    rw [new_small]; rfl
  refine ⟨by simp [small], by simp [small], hlen, ?_⟩
  have hI := integrate_new_small
  have hD : (Cloth.drawTextured Real.sqrt small mouse0 { width := 64, height := 64 }
      (Cloth.new (small : Config ℝ) false)).1
        = Cloth.integrate Real.sqrt small mouse0 (Cloth.new (small : Config ℝ) false) := rfl
  obtain ⟨p1, p2, p3, p4, h1, h2, h3, h4, hiff⟩ :=
    C8_quad_drawn_iff small mouse0 { width := 64, height := 64 }
      (Cloth.new (small : Config ℝ) false) 1 0 (by simp [small]) (by simp [small])
      (by norm_num) (by norm_num) hlen
  rw [hD, hI] at h1 h2 h3 h4
  have e1 : p1 = { (Point.new (350 : ℝ) 20).pin 350 20 with constraints := [0] } := by
    simpa [small, defaults] using h1.symm
  have e2 : p2 = { (Point.new (358 : ℝ) 20).pin 358 20 with constraints := [1] } := by
    simpa [small, defaults] using h2.symm
  have e3 : p3 = { Point.new (350 : ℝ) 28 with y := 28.1024, constraints := [3, 4] } := by
    simpa [small, defaults] using h3.symm
  have e4 : p4 = { Point.new (358 : ℝ) 28 with y := 28.1024, constraints := [5, 6] } := by
    simpa [small, defaults] using h4.symm
  subst e1 e2 e3 e4
  apply hiff.mpr
  refine ⟨by simp, ?_, ?_, ?_⟩
  · simp only [Cloth.pairDist, Point.new, Point.pin, small, defaults]
    refine ⟨?_, ?_, ?_, ?_, ?_, ?_⟩ <;> apply sqrt_le_of_sq <;> norm_num
  · norm_num [Point.new, Point.pin]
  · norm_num [Point.new, Point.pin]

/-! ### Relaxation -/

theorem free_fields {α : Type} [LinearOrderedField α] (p : Point α) (c : Nat) :
    (p.free c).x = p.x ∧ (p.free c).y = p.y ∧ (p.free c).pinX = p.pinX ∧
    (p.free c).pinY = p.pinY := by
  unfold Point.free
  split <;> exact ⟨rfl, rfl, rfl, rfl⟩

/-- The endpoints after a `Constraint.resolve` that goes past the guard of line 160, for a
constraint between two different points: each coordinate moves by the displacement of lines
168-169 unless it is pinned. -/
theorem resolve_far_endpoints {α : Type} [LinearOrderedField α] (sqrt : α → α)
    (cfg : Config α) (s s' : Cloth α) (c : Nat) (k : Constraint α) (a b : Point α)
    (hk : s.heap[c]? = some k) (ha : s.points[k.p1]? = some a) (hb : s.points[k.p2]? = some b)
    (h1 : ¬ Cloth.pairDist sqrt a b < k.length) (h0 : Cloth.pairDist sqrt a b ≠ 0)
    (hne : k.p1 ≠ k.p2) (hr : Constraint.resolve sqrt cfg s c = .ok s') (m : α)
    (hm : m = (k.length - Cloth.pairDist sqrt a b) / Cloth.pairDist sqrt a b * 0.5 *
              (1 - k.length / Cloth.pairDist sqrt a b)) :
    ∃ a' b', s'.points[k.p1]? = some a' ∧ s'.points[k.p2]? = some b' ∧
      a'.x = (if truthy a.pinX then a.x else a.x + (a.x - b.x) * m) ∧
      a'.y = (if truthy a.pinY then a.y else a.y + (a.y - b.y) * m) ∧
      b'.x = (if truthy b.pinX then b.x else b.x - (a.x - b.x) * m) ∧
      b'.y = (if truthy b.pinY then b.y else b.y - (a.y - b.y) * m) := by
  rw [resolve_far sqrt cfg s c k a b hk ha hb h1 h0] at hr
  cases hr
  rw [← hm]
  have hne' : k.p2 ≠ k.p1 := fun e => hne e.symm
  obtain ⟨a0, ha0, hx0, hy0, hpx0, hpy0⟩ : ∃ a0,
      (if Cloth.pairDist sqrt a b > cfg.tearDist
        then s.modifyPoint k.p1 (fun p => p.free c) else s).points[k.p1]? = some a0 ∧
      a0.x = a.x ∧ a0.y = a.y ∧ a0.pinX = a.pinX ∧ a0.pinY = a.pinY := by
    split
    · refine ⟨a.free c, ?_, free_fields a c⟩
      rw [modifyPoint_get_self, ha]; rfl
    · exact ⟨a, ha, rfl, rfl, rfl, rfl⟩
  have hb0 : (if Cloth.pairDist sqrt a b > cfg.tearDist
        then s.modifyPoint k.p1 (fun p => p.free c) else s).points[k.p2]? = some b := by
    split
    · rw [modifyPoint_get_ne _ _ hne', hb]
    · exact hb
  generalize (if Cloth.pairDist sqrt a b > cfg.tearDist
        then s.modifyPoint k.p1 (fun p => p.free c) else s) = base at ha0 hb0
  refine ⟨(fun p : Point α => if truthy p.pinY then p else { p with y := p.y + (a.y - b.y) * m })
      ((fun p : Point α => if truthy p.pinX then p else { p with x := p.x + (a.x - b.x) * m }) a0),
    (fun p : Point α => if truthy p.pinY then p else { p with y := p.y - (a.y - b.y) * m })
      ((fun p : Point α => if truthy p.pinX then p else { p with x := p.x - (a.x - b.x) * m }) b),
    ?_, ?_, ?_⟩
  · rw [modifyPoint_get_ne _ _ hne, modifyPoint_get_ne _ _ hne, modifyPoint_get_self,
      modifyPoint_get_self, ha0]
    rfl
  · rw [modifyPoint_get_self, modifyPoint_get_self, modifyPoint_get_ne _ _ hne',
      modifyPoint_get_ne _ _ hne', hb0]
    rfl
  · rw [← hx0, ← hy0, ← hpx0, ← hpy0]
    refine ⟨?_, ?_, ?_, ?_⟩
    · by_cases e1 : truthy a0.pinX = true <;> by_cases e2 : truthy a0.pinY = true <;>
        simp [e1, e2]
    · by_cases e1 : truthy a0.pinX = true <;> by_cases e2 : truthy a0.pinY = true <;>
        simp [e1, e2]
    · by_cases e1 : truthy b.pinX = true <;> by_cases e2 : truthy b.pinY = true <;>
        simp [e1, e2]
    · by_cases e1 : truthy b.pinX = true <;> by_cases e2 : truthy b.pinY = true <;>
        simp [e1, e2]

theorem sqrt_64 : Real.sqrt 64 = 8 := by
  rw [show (64 : ℝ) = 8 * 8 by norm_num]
  exact Real.sqrt_mul_self (by norm_num)

theorem sqrt_100 : Real.sqrt 100 = 10 := by
  rw [show (100 : ℝ) = 10 * 10 by norm_num]
  exact Real.sqrt_mul_self (by norm_num)

/-- The multiplier of line 166 when the distance `d` is at least the rest length `L ≥ 0`. -/
theorem mul_bounds (L d m : ℝ) (hpos : 0 < d) (hL : 0 ≤ L) (hLd : L ≤ d)
    (hm : m = (L - d) / d * 0.5 * (1 - L / d)) :
    m ≤ 0 ∧ L / d ≤ 1 + 2 * m ∧ 0 ≤ L / d := by
  have hr0 : 0 ≤ L / d := div_nonneg hL (le_of_lt hpos)
  have hr1 : L / d ≤ 1 := (div_le_one hpos).mpr hLd
  have e : (L - d) / d = L / d - 1 := by field_simp
  rw [e] at hm
  generalize L / d = r at hm hr0 hr1
  subst hm
  refine ⟨?_, ?_, hr0⟩
  · nlinarith [sq_nonneg (1 - r)]
  · nlinarith [mul_nonneg hr0 (sub_nonneg.mpr hr1)]

/-- Scaling each coordinate difference by a factor between `L / d` and 1 leaves the distance
between `L` and `d`. -/
theorem scaled_dist_bounds (dx dy L d fx fy : ℝ) (hd : d = Real.sqrt (dx * dx + dy * dy))
    (hpos : 0 < d) (hL : 0 ≤ L) (hr0 : 0 ≤ L / d)
    (hfx : L / d ≤ fx ∧ fx ≤ 1) (hfy : L / d ≤ fy ∧ fy ≤ 1) :
    L ≤ Real.sqrt ((dx * fx) * (dx * fx) + (dy * fy) * (dy * fy)) ∧
    Real.sqrt ((dx * fx) * (dx * fx) + (dy * fy) * (dy * fy)) ≤ d := by
  have hsum : 0 ≤ dx * dx + dy * dy := add_nonneg (mul_self_nonneg dx) (mul_self_nonneg dy)
  have hdd : d * d = dx * dx + dy * dy := by rw [hd]; exact Real.mul_self_sqrt hsum
  have hfx0 : 0 ≤ fx := le_trans hr0 hfx.1
  have hfy0 : 0 ≤ fy := le_trans hr0 hfy.1
  have hfx2 : fx * fx ≤ 1 := by nlinarith
  have hfy2 : fy * fy ≤ 1 := by nlinarith
  have hrx : (L / d) * (L / d) ≤ fx * fx := by nlinarith
  have hry : (L / d) * (L / d) ≤ fy * fy := by nlinarith
  have hLL : L * L = (L / d) * (L / d) * (d * d) := by field_simp
  constructor
  · rw [← Real.sqrt_mul_self hL]
    apply Real.sqrt_le_sqrt
    rw [hLL, hdd]
    nlinarith [mul_self_nonneg dx, mul_self_nonneg dy]
  · rw [hd]
    apply Real.sqrt_le_sqrt
    nlinarith [mul_self_nonneg dx, mul_self_nonneg dy]

/-- The difference of one coordinate after the updates of lines 171-174 is the difference
before scaled by 1, `1 + m` or `1 + 2 * m`, according to which ends are pinned. -/
theorem coordinate_factor (pa pb : Bool) (xa xb m r : ℝ) (hm : m ≤ 0) (hr : r ≤ 1 + 2 * m) :
    ∃ f, (r ≤ f ∧ f ≤ 1) ∧
      (if pa then xa else xa + (xa - xb) * m) - (if pb then xb else xb - (xa - xb) * m)
        = (xa - xb) * f := by
  cases pa <;> cases pb
  · exact ⟨1 + 2 * m, ⟨hr, by linarith⟩, by simp; ring⟩
  · exact ⟨1 + m, ⟨by linarith, by linarith⟩, by simp; ring⟩
  · exact ⟨1 + m, ⟨by linarith, by linarith⟩, by simp; ring⟩
  · exact ⟨1, ⟨by linarith, le_refl 1⟩, by simp⟩

/-- C9 (counterexample): three points in a row, the first link at rest (distance 8, rest
length 8) and the second stretched to 10.  One full relaxation pass leaves both constraints
in their owners' lists, but resolving the second link moves the middle point from 8 to 8.2:
the first link is then 0.2 away from its rest length, against 0 before the pass. -/
theorem C9_counterexample :
    Cloth.relaxPass Real.sqrt defaults (chain : Cloth ℝ)
      = .ok { points := [Point.new 0 0,
                         { Point.new 8 0 with x := 8.2, constraints := [0] },
                         { Point.new 18 0 with x := 17.8, constraints := [1] }],
              heap := [{ p1 := 1, p2 := 0, length := 8 }, { p1 := 2, p2 := 1, length := 8 }] } ∧
    |Cloth.pairDist Real.sqrt ({ Point.new 8 0 with x := 8.2, constraints := [0] } : Point ℝ)
        (Point.new 0 0) - 8| = 0.2 ∧
    |Cloth.pairDist Real.sqrt ({ Point.new 8 0 with constraints := [0] } : Point ℝ)
        (Point.new 0 0) - 8| = 0 := by
  have hr : List.range 3 = [0, 1, 2] := rfl
  have h8 := sqrt_line 8 (by norm_num)
  have h82 := sqrt_line 8.2 (by norm_num)
  refine ⟨?_, ?_, ?_⟩
  · norm_num [Cloth.relaxPass, Cloth.resolveAll, Point.resolve, Point.resolveLoop,
      Constraint.resolve, chain, Point.frozen, truthy, Point.new, hr, sqrt_64, sqrt_100,
      Cloth.modifyPoint, defaults, Point.free]
  · simp only [Cloth.pairDist, Point.new, h82]
    norm_num [abs_of_nonneg]
  · simp only [Cloth.pairDist, Point.new, h8]
    norm_num

/-- C9 (amended): for every cloth state and every constraint of non-negative rest length,
the absolute difference between the distance of the constraint's endpoints and its rest
length after one call of that constraint's `resolve()` is at most the difference before the
call. -/
theorem C9_resolve_nonincreasing (cfg : Config ℝ) (s s' : Cloth ℝ) (c : Nat)
    (k : Constraint ℝ) (a b a' b' : Point ℝ)
    (hk : s.heap[c]? = some k) (ha : s.points[k.p1]? = some a) (hb : s.points[k.p2]? = some b)
    (hL : 0 ≤ k.length) (hr : Constraint.resolve Real.sqrt cfg s c = .ok s')
    (ha' : s'.points[k.p1]? = some a') (hb' : s'.points[k.p2]? = some b') :
    |Cloth.pairDist Real.sqrt a' b' - k.length| ≤ |Cloth.pairDist Real.sqrt a b - k.length| := by
  by_cases h1 : Cloth.pairDist Real.sqrt a b < k.length
  · rw [resolve_near Real.sqrt cfg s c k a b hk ha hb h1] at hr
    cases hr
    rw [ha] at ha'
    rw [hb] at hb'
    cases ha'
    cases hb'
    exact le_refl _
  · by_cases h0 : Cloth.pairDist Real.sqrt a b = 0
    · exfalso
      unfold Cloth.pairDist at h1 h0
      simp only [Constraint.resolve, hk, ha, hb] at hr
      rw [if_neg h1, if_pos h0] at hr
      cases hr
    · have hne : k.p1 ≠ k.p2 := by
        intro e
        apply h0
        rw [e, hb] at ha
        cases ha
        simp [Cloth.pairDist]
      have hd0 : 0 ≤ Cloth.pairDist Real.sqrt a b := Real.sqrt_nonneg _
      have hpos : 0 < Cloth.pairDist Real.sqrt a b := lt_of_le_of_ne hd0 (Ne.symm h0)
      have hLd : k.length ≤ Cloth.pairDist Real.sqrt a b := not_lt.mp h1
      obtain ⟨a2, b2, ea, eb, hax, hay, hbx, hby⟩ :=
        resolve_far_endpoints Real.sqrt cfg s s' c k a b hk ha hb h1 h0 hne hr _ rfl
      rw [ea] at ha'
      rw [eb] at hb'
      cases ha'
      cases hb'
      obtain ⟨hm0, hm1, hr0⟩ := mul_bounds k.length (Cloth.pairDist Real.sqrt a b) _ hpos hL
        hLd rfl
      obtain ⟨fx, hfx, ex⟩ := coordinate_factor (truthy a.pinX) (truthy b.pinX) a.x b.x _ _
        hm0 hm1
      obtain ⟨fy, hfy, ey⟩ := coordinate_factor (truthy a.pinY) (truthy b.pinY) a.y b.y _ _
        hm0 hm1
      have hb2 := scaled_dist_bounds (a.x - b.x) (a.y - b.y) k.length
        (Cloth.pairDist Real.sqrt a b) fx fy rfl hpos hL hr0 hfx hfy
      have hd' : Cloth.pairDist Real.sqrt a' b'
          = Real.sqrt (((a.x - b.x) * fx) * ((a.x - b.x) * fx)
              + ((a.y - b.y) * fy) * ((a.y - b.y) * fy)) := by
        unfold Cloth.pairDist
        rw [hax, hay, hbx, hby, ex, ey]
      rw [hd', abs_of_nonneg (sub_nonneg.mpr hb2.1), abs_of_nonneg (sub_nonneg.mpr hLd)]
      linarith [hb2.2]

/-- C9 (witness): two points 10 apart joined by a constraint of rest length 8; the call
brings them to 0.2 and 9.8. -/
theorem C9_resolve_nonincreasing_witness :
    (0 : ℝ) ≤ 8 ∧
    Constraint.resolve Real.sqrt (defaults : Config ℝ) (pair (10 : ℝ) 8) 0
      = .ok { points := [{ Point.new (0 : ℝ) 0 with x := 0.2 },
                         { Point.new (10 : ℝ) 0 with x := 9.8, constraints := [0] }],
              heap := [{ p1 := 1, p2 := 0, length := 8 }] } ∧
    |Cloth.pairDist Real.sqrt ({ Point.new (10 : ℝ) 0 with x := 9.8, constraints := [0] })
        ({ Point.new (0 : ℝ) 0 with x := 0.2 }) - 8|
      ≤ |Cloth.pairDist Real.sqrt ({ Point.new (10 : ℝ) 0 with constraints := [0] })
        (Point.new (0 : ℝ) 0) - 8| := by
  have hr : Constraint.resolve Real.sqrt (defaults : Config ℝ) (pair (10 : ℝ) 8) 0
      = .ok { points := [{ Point.new (0 : ℝ) 0 with x := 0.2 },
                         { Point.new (10 : ℝ) 0 with x := 9.8, constraints := [0] }],
              heap := [{ p1 := 1, p2 := 0, length := 8 }] } := by
    norm_num [Constraint.resolve, pair, Point.new, sqrt_100, defaults, Cloth.modifyPoint,
      truthy, Point.free]
  exact ⟨by norm_num, hr,
    C9_resolve_nonincreasing defaults (pair (10 : ℝ) 8) _ 0 { p1 := 1, p2 := 0, length := 8 }
      { Point.new (10 : ℝ) 0 with constraints := [0] } (Point.new 0 0) _ _ rfl rfl rfl
      (by norm_num) hr rfl rfl⟩

/-! ### The top row of a cloth built not free -/

theorem new_narrow : Cloth.new (narrow : Config ℝ) false =
    { points := [(Point.new 0 20).pin 0 20, { (Point.new 8 20).pin 8 20 with constraints := [0] },
                 { Point.new 0 28 with constraints := [1] },
                 { Point.new 8 28 with constraints := [2, 3] }],
      heap := [{ p1 := 1, p2 := 0, length := 8 }, { p1 := 2, p2 := 0, length := 8 },
               { p1 := 3, p2 := 2, length := 8 }, { p1 := 3, p2 := 1, length := 8 }] } := by
  have hr : List.range 2 = [0, 1] := rfl
  norm_num [Cloth.new, Cloth.addRow, Cloth.addPoint, Cloth.gridPoint, Point.attach, narrow, defaults, hr,
    Point.new, Point.pin]

theorem relaxPass_narrow : Cloth.relaxPass Real.sqrt narrow (Cloth.new (narrow : Config ℝ) false)
    = .ok (Cloth.new (narrow : Config ℝ) false) := by
  rw [new_narrow]
  have hr : List.range 4 = [0, 1, 2, 3] := rfl
  norm_num [Cloth.relaxPass, Cloth.resolveAll, Point.resolve, Point.resolveLoop,
      Constraint.resolve, Point.frozen, truthy, Point.new, Point.pin, hr, sqrt_64,
      Cloth.modifyPoint, narrow, defaults, Point.free]

theorem relax_narrow : Cloth.relax Real.sqrt narrow 5 (Cloth.new (narrow : Config ℝ) false)
    = .ok (Cloth.new (narrow : Config ℝ) false) := by
  simp only [Cloth.relax, relaxPass_narrow]

/-- C10 (code bug): a cloth of 2 by 2 points built not free on a canvas of width 8, so
that `startX` is 0.  The constructor pins the top-left point with `pin(0, 20)`; the guards of
lines 67 and 120 read the pin coordinate 0 as "not pinned", and one `Cloth.update(0.016)`
with the pointer at rest moves that top-row point from (0, 20) to (0, 20.1024), while the
other top-row point, pinned at (8, 20), stays. -/
theorem C10_top_left_falls :
    (Cloth.new (narrow : Config ℝ) false).points.map (fun p => (p.x, p.y, p.pinX, p.pinY))
      = [(0, 20, some 0, some 20), (8, 20, some 8, some 20),
         (0, 28, none, none), (8, 28, none, none)] ∧
    (Cloth.update Real.sqrt narrow mouse0 false none (Cloth.new (narrow : Config ℝ) false)
        0.016).map (fun r => r.1.points.map (fun p => (p.x, p.y)))
      = .ok [(0, 20.1024), (8, 20), (0, 28.1024), (8, 28.1024)] := by
  have ha : (narrow : Config ℝ).accuracy = 5 := rfl
  have hr : List.range 4 = [0, 1, 2, 3] := rfl
  constructor
  · rw [new_narrow]
    simp [Point.new, Point.pin]
  · simp only [Cloth.update, ha, relax_narrow]
    rw [new_narrow]
    norm_num [Cloth.wireLoop, hr, Point.update, Point.frozen, truthy, Point.new, Point.pin,
      Point.pointer, mouse0, Point.verlet, Point.addForce, Point.bounds, narrow, defaults,
      Point.draw, Point.drawAll, Constraint.draw, Except.map]

/-! ### A point pinned at non-zero coordinates never moves -/


theorem modifyPoint_heldAt {α : Type} {a b : α} (s : Cloth α) (i j : Nat) (f : Point α → Point α)
    (hf : ∀ p, p.held a b → (f p).held a b) (h : s.heldAt i a b) :
    (s.modifyPoint j f).heldAt i a b := by
  obtain ⟨p, hp, hh⟩ := h
  unfold Cloth.heldAt
  rw [modifyPoint_get, hp]
  by_cases e : i = j
  · exact ⟨f p, by simp [e], hf p hh⟩
  · exact ⟨p, by simp [e], hh⟩

section Held

variable {α : Type} [LinearOrderedField α]

theorem held_truthy {a b : α} (ha : a ≠ 0) (hb : b ≠ 0) {p : Point α} (h : p.held a b) :
    truthy p.pinX = true ∧ truthy p.pinY = true := by
  obtain ⟨h1, h2, -, -⟩ := h
  simp [h1, h2, truthy, ha, hb]

theorem free_held {a b : α} (c : Nat) (p : Point α) (h : p.held a b) : (p.free c).held a b := by
  obtain ⟨h1, h2, h3, h4⟩ := h
  obtain ⟨e1, e2, e3, e4⟩ := free_fields p c
  exact ⟨by rw [e3, h1], by rw [e4, h2], by rw [e1, h3], by rw [e2, h4]⟩

theorem resolve_heldAt {a b : α} (ha : a ≠ 0) (hb : b ≠ 0) (sqrt : α → α) (cfg : Config α)
    (s s' : Cloth α) (c i : Nat) (hr : Constraint.resolve sqrt cfg s c = .ok s')
    (h : s.heldAt i a b) : s'.heldAt i a b := by
  cases hk : s.heap[c]? with
  | none => simp [Constraint.resolve, hk] at hr
  | some k =>
    cases hp : s.points[k.p1]? with
    | none => simp [Constraint.resolve, hk, hp] at hr
    | some p =>
      cases hq : s.points[k.p2]? with
      | none => simp [Constraint.resolve, hk, hp, hq] at hr
      | some q =>
        by_cases h1 : Cloth.pairDist sqrt p q < k.length
        · rw [resolve_near sqrt cfg s c k p q hk hp hq h1] at hr
          cases hr
          exact h
        · by_cases h0 : Cloth.pairDist sqrt p q = 0
          · exfalso
            unfold Cloth.pairDist at h1 h0
            simp only [Constraint.resolve, hk, hp, hq] at hr
            rw [if_neg h1, if_pos h0] at hr
            cases hr
          · rw [resolve_far sqrt cfg s c k p q hk hp hq h1 h0] at hr
            cases hr
            have keepX : ∀ (d : α) (r : Point α), r.held a b →
                (if truthy r.pinX then r else { r with x := r.x + d }).held a b := by
              intro d r hh
              rw [if_pos (held_truthy ha hb hh).1]
              exact hh
            have keepY : ∀ (d : α) (r : Point α), r.held a b →
                (if truthy r.pinY then r else { r with y := r.y + d }).held a b := by
              intro d r hh
              rw [if_pos (held_truthy ha hb hh).2]
              exact hh
            have keepX' : ∀ (d : α) (r : Point α), r.held a b →
                (if truthy r.pinX then r else { r with x := r.x - d }).held a b := by
              intro d r hh
              rw [if_pos (held_truthy ha hb hh).1]
              exact hh
            have keepY' : ∀ (d : α) (r : Point α), r.held a b →
                (if truthy r.pinY then r else { r with y := r.y - d }).held a b := by
              intro d r hh
              rw [if_pos (held_truthy ha hb hh).2]
              exact hh
            apply modifyPoint_heldAt _ _ _ _ (keepY' _)
            apply modifyPoint_heldAt _ _ _ _ (keepX' _)
            apply modifyPoint_heldAt _ _ _ _ (keepY _)
            apply modifyPoint_heldAt _ _ _ _ (keepX _)
            split
            · exact modifyPoint_heldAt _ _ _ _ (free_held c) h
            · exact h

theorem resolveLoop_heldAt {a b : α} (ha : a ≠ 0) (hb : b ≠ 0) (sqrt : α → α)
    (cfg : Config α) (i j : Nat) :
    ∀ (n k : Nat) (s s' : Cloth α), Point.resolveLoop sqrt cfg j n k s = .ok s' →
      s.heldAt i a b → s'.heldAt i a b := by
  intro n
  induction n with
  | zero =>
    intro k s s' hr h
    simp only [Point.resolveLoop] at hr
    cases hr
    exact h
  | succ n ih =>
    intro k s s' hr h
    unfold Point.resolveLoop at hr
    cases hp : s.points[j]? with
    | none => simp [hp] at hr
    | some p =>
      simp only [hp] at hr
      cases hc : p.constraints[k]? with
      | none =>
        simp only [hc] at hr
        exact ih _ _ _ hr h
      | some c =>
        simp only [hc] at hr
        cases hres : Constraint.resolve sqrt cfg s c with
        | error e => simp [hres] at hr
        | ok s1 =>
          simp only [hres] at hr
          exact ih _ _ _ hr (resolve_heldAt ha hb sqrt cfg s s1 c i hres h)

theorem pointResolve_heldAt {a b : α} (ha : a ≠ 0) (hb : b ≠ 0) (sqrt : α → α)
    (cfg : Config α) (i j : Nat) (s s' : Cloth α)
    (hr : Point.resolve sqrt cfg s j = .ok s') (h : s.heldAt i a b) : s'.heldAt i a b := by
  unfold Point.resolve at hr
  cases hp : s.points[j]? with
  | none => simp [hp] at hr
  | some p =>
    simp only [hp] at hr
    by_cases hf : p.frozen = true
    · rw [if_pos hf] at hr
      cases hx : p.pinX with
      | none => simp [Point.frozen, hx, truthy] at hf
      | some u =>
        cases hy : p.pinY with
        | none => simp [Point.frozen, hy, truthy] at hf
        | some v =>
          simp only [hx, hy] at hr
          cases hr
          obtain ⟨q, hq, hh⟩ := h
          have hlt : j < s.points.length := (List.getElem?_eq_some.mp hp).1
          by_cases e : j = i
          · subst e
            rw [hp] at hq
            cases hq
            obtain ⟨h1, h2, h3, h4⟩ := hh
            rw [hx] at h1
            rw [hy] at h2
            cases h1
            cases h2
            refine ⟨{ p with x := a, y := b }, by simp [List.getElem?_set, hlt, hx, hy], ?_⟩
            exact ⟨hx, hy, rfl, rfl⟩
          · exact ⟨q, by rw [List.getElem?_set_ne e]; exact hq, hh⟩
    · rw [if_neg hf] at hr
      exact resolveLoop_heldAt ha hb sqrt cfg i j _ _ s s' hr h

theorem resolveAll_heldAt {a b : α} (ha : a ≠ 0) (hb : b ≠ 0) (sqrt : α → α)
    (cfg : Config α) (i : Nat) :
    ∀ (js : List Nat) (s s' : Cloth α), Cloth.resolveAll sqrt cfg js s = .ok s' →
      s.heldAt i a b → s'.heldAt i a b := by
  intro js
  induction js with
  | nil =>
    intro s s' hr h
    simp only [Cloth.resolveAll] at hr
    cases hr
    exact h
  | cons j js ih =>
    intro s s' hr h
    unfold Cloth.resolveAll at hr
    cases hres : Point.resolve sqrt cfg s j with
    | error e => simp [hres] at hr
    | ok s1 =>
      simp only [hres] at hr
      exact ih _ _ hr (pointResolve_heldAt ha hb sqrt cfg i j s s1 hres h)

theorem relax_heldAt {a b : α} (ha : a ≠ 0) (hb : b ≠ 0) (sqrt : α → α)
    (cfg : Config α) (i : Nat) :
    ∀ (n : Nat) (s s' : Cloth α), Cloth.relax sqrt cfg n s = .ok s' →
      s.heldAt i a b → s'.heldAt i a b := by
  intro n
  induction n with
  | zero =>
    intro s s' hr h
    simp only [Cloth.relax] at hr
    cases hr
    exact h
  | succ n ih =>
    intro s s' hr h
    unfold Cloth.relax at hr
    cases hres : Cloth.relaxPass sqrt cfg s with
    | error e => simp [hres] at hr
    | ok s1 =>
      simp only [hres] at hr
      exact ih _ _ hr (resolveAll_heldAt ha hb sqrt cfg i _ s s1 hres h)

theorem update_held {a b : α} (ha : a ≠ 0) (hb : b ≠ 0) (sqrt : α → α) (cfg : Config α)
    (mouse : Mouse α) (delta : α) (p : Point α) (h : p.held a b) :
    Point.update sqrt cfg mouse p delta = p := by
  obtain ⟨h1, h2⟩ := held_truthy ha hb h
  simp [Point.update, Point.frozen, h1, h2]

theorem wireLoop_heldAt {a b : α} (ha : a ≠ 0) (hb : b ≠ 0) (sqrt : α → α)
    (cfg : Config α) (mouse : Mouse α) (delta : α) (i : Nat) :
    ∀ (js : List Nat) (s : Cloth α) (r : Cloth α × List (DrawCmd α)),
      Cloth.wireLoop sqrt cfg mouse delta js s = .ok r →
      s.heldAt i a b → r.1.heldAt i a b := by
  intro js
  induction js with
  | nil =>
    intro s r hr h
    simp only [Cloth.wireLoop] at hr
    cases hr
    exact h
  | cons j js ih =>
    intro s r hr h
    unfold Cloth.wireLoop at hr
    cases hp : s.points[j]? with
    | none => simp [hp] at hr
    | some p =>
      simp only [hp] at hr
      cases hd : Point.draw
          ({ s with points := s.points.set j (Point.update sqrt cfg mouse p (delta * delta)) })
          (Point.update sqrt cfg mouse p (delta * delta)) with
      | error e => simp [hd] at hr
      | ok d =>
        simp only [hd] at hr
        cases hres : Cloth.wireLoop sqrt cfg mouse delta js
            ({ s with points := s.points.set j (Point.update sqrt cfg mouse p (delta * delta)) })
          with
        | error e => simp [hres] at hr
        | ok r1 =>
          simp only [hres] at hr
          cases hr
          apply ih _ _ hres
          obtain ⟨q, hq, hh⟩ := h
          have hlt : j < s.points.length := (List.getElem?_eq_some.mp hp).1
          by_cases e : j = i
          · subst e
            rw [hp] at hq
            cases hq
            refine ⟨p, ?_, hh⟩
            simp [List.getElem?_set, hlt, update_held ha hb sqrt cfg mouse _ p hh]
          · exact ⟨q, by simp only [List.getElem?_set_ne e]; exact hq, hh⟩

theorem clothUpdate_heldAt {a b : α} (ha : a ≠ 0) (hb : b ≠ 0) (sqrt : α → α)
    (cfg : Config α) (mouse : Mouse α) (textureLoaded : Bool)
    (textureImage : Option (Image α)) (delta : α) (i : Nat) (s : Cloth α)
    (r : Cloth α × List (DrawCmd α))
    (hr : Cloth.update sqrt cfg mouse textureLoaded textureImage s delta = .ok r)
    (h : s.heldAt i a b) : r.1.heldAt i a b := by
  unfold Cloth.update at hr
  cases hres : Cloth.relax sqrt cfg cfg.accuracy s with
  | error e => simp [hres] at hr
  | ok s1 =>
    simp only [hres] at hr
    have h1 := relax_heldAt ha hb sqrt cfg i _ s s1 hres h
    have wire : ∀ r, (match Cloth.wireLoop sqrt cfg mouse delta (List.range s1.points.length) s1
          with
          | .error e => (.error e : Except Fault (Cloth α × List (DrawCmd α)))
          | .ok r => .ok (r.1, [DrawCmd.beginPath] ++ r.2 ++ [DrawCmd.stroke])) = .ok r →
        r.1.heldAt i a b := by
      intro r hw
      cases hl : Cloth.wireLoop sqrt cfg mouse delta (List.range s1.points.length) s1 with
      | error e => simp [hl] at hw
      | ok r1 =>
        simp only [hl] at hw
        cases hw
        exact wireLoop_heldAt ha hb sqrt cfg mouse delta i _ s1 r1 hl h1
    cases textureLoaded with
    | false => exact wire r hr
    | true =>
      cases textureImage with
      | none => exact wire r hr
      | some img =>
        simp only at hr
        cases hr
        obtain ⟨q, hq, hh⟩ := h1
        refine ⟨q, ?_, hh⟩
        simp [Cloth.drawTextured, Cloth.integrate, hq, update_held ha hb sqrt cfg mouse _ q hh]

/-- A point that is pinned at coordinates both different from zero, and is there, stays
there through every `Cloth.update`: neither `Point.update`, `Point.resolve` nor any
`Constraint.resolve` moves it. -/
theorem reachable_heldAt {a b : α} (ha : a ≠ 0) (hb : b ≠ 0) (sqrt : α → α)
    (cfg : Config α) (i : Nat) (s0 s : Cloth α) (hr : Cloth.Reachable sqrt cfg s0 s)
    (h : s0.heldAt i a b) : s.heldAt i a b := by
  induction hr with
  | start => exact h
  | frame mouse tl ti delta s1 s2 cmds _ hu ih =>
    exact clothUpdate_heldAt ha hb sqrt cfg mouse tl ti delta i s1 (s2, cmds) hu ih

/-- In every state reachable from a cloth built not free, a top-row point whose x at
construction is not zero is still at the position it was given at construction. -/
theorem top_row_fixed (sqrt : α → α) (cfg : Config α) (x : Nat) (hx : x ≤ cfg.clothX)
    (hnz : cfg.width / 2 - ((cfg.clothX : α) * cfg.spacing) / 2 + (x : α) * cfg.spacing ≠ 0)
    (s : Cloth α) (hr : Cloth.Reachable sqrt cfg (Cloth.new cfg false) s) :
    ∃ p, s.points[x]? = some p ∧
      p.x = cfg.width / 2 - ((cfg.clothX : α) * cfg.spacing) / 2 + (x : α) * cfg.spacing ∧
      p.y = 20 := by
  have h20 : (20 : α) ≠ 0 := by norm_num
  have h0 : (Cloth.new cfg false).heldAt x
      (cfg.width / 2 - ((cfg.clothX : α) * cfg.spacing) / 2 + (x : α) * cfg.spacing) 20 := by
    obtain ⟨p, hp, hg⟩ := new_get cfg false x 0 hx (Nat.zero_le _)
    simp only [Nat.zero_mul, Nat.add_zero] at hp
    refine ⟨p, hp, ?_⟩
    have e1 : p.x = (Cloth.gridPoint cfg false 0 x).x := by rw [← hg]
    have e2 : p.y = (Cloth.gridPoint cfg false 0 x).y := by rw [← hg]
    have e3 : p.pinX = (Cloth.gridPoint cfg false 0 x).pinX := by rw [← hg]
    have e4 : p.pinY = (Cloth.gridPoint cfg false 0 x).pinY := by rw [← hg]
    unfold Point.held
    rw [e1, e2, e3, e4]
    simp [Cloth.gridPoint, Point.pin, Point.new]
  obtain ⟨p, hp, -, -, h3, h4⟩ := reachable_heldAt hnz h20 sqrt cfg x _ s hr h0
  exact ⟨p, hp, h3, h4⟩

end Held

/-! ### `Point.update`: the Verlet step, the pointer and the canvas edges -/

/-- C11: for a point that `update` does not skip, with accumulated force `(vx, vy)`, when
the pointer is not pressed and the resulting position lies strictly inside the canvas,
`update(d)` sets the position to
`(x + (x - px)*friction + vx*d, y + (y - py)*friction + (vy + gravity)*d)`, the previous
position to the old position `(x, y)` and the force accumulator to `(0, 0)`; pins and
constraint list are as before. -/
theorem C11_verlet_step (cfg : Config ℝ) (mouse : Mouse ℝ) (p : Point ℝ) (d : ℝ)
    (hp : p.frozen = false) (hdown : mouse.down = false)
    (hx : 0 < p.x + (p.x - p.px) * cfg.friction + p.vx * d ∧
      p.x + (p.x - p.px) * cfg.friction + p.vx * d < cfg.width)
    (hy : 0 < p.y + (p.y - p.py) * cfg.friction + (p.vy + cfg.gravity) * d ∧
      p.y + (p.y - p.py) * cfg.friction + (p.vy + cfg.gravity) * d < cfg.height) :
    Point.update Real.sqrt cfg mouse p d =
      { p with x := p.x + (p.x - p.px) * cfg.friction + p.vx * d,
               y := p.y + (p.y - p.py) * cfg.friction + (p.vy + cfg.gravity) * d,
               px := p.x, py := p.y, vx := 0, vy := 0 } := by
  have hx1 : ¬ (p.x + (p.x - p.px) * cfg.friction + p.vx * d ≥ cfg.width) := not_le.mpr hx.2
  have hx2 : ¬ (p.x + (p.x - p.px) * cfg.friction + p.vx * d ≤ 0) := not_le.mpr hx.1
  have hy1 : ¬ (p.y + (p.y - p.py) * cfg.friction + (p.vy + cfg.gravity) * d ≥ cfg.height) :=
    not_le.mpr hy.2
  have hy2 : ¬ (p.y + (p.y - p.py) * cfg.friction + (p.vy + cfg.gravity) * d ≤ 0) :=
    not_le.mpr hy.1
  simp only [Point.update, hp, Bool.false_eq_true, if_false, Point.pointer, hdown,
    Point.verlet, Point.addForce, add_zero, Point.bounds]
  rw [if_neg hx1, if_neg hx2]
  simp only []
  rw [if_neg hy1, if_neg hy2]

/-- C11 (witness): a point at (100, 100) that came from (99, 98) and carries the force
(10, 20), default configuration, pointer not pressed. -/
theorem C11_verlet_step_witness :
    ({ Point.new (100 : ℝ) 100 with px := 99, py := 98, vx := 10, vy := 20 } : Point ℝ).frozen
      = false ∧
    (mouse0 : Mouse ℝ).down = false ∧
    Point.update Real.sqrt defaults mouse0
        { Point.new (100 : ℝ) 100 with px := 99, py := 98, vx := 10, vy := 20 }
        (0.016 * 0.016) =
      { Point.new (100 : ℝ) 100 with
          x := 100 + (100 - 99) * (defaults : Config ℝ).friction + 10 * (0.016 * 0.016),
          y := 100 + (100 - 98) * (defaults : Config ℝ).friction
            + (20 + (defaults : Config ℝ).gravity) * (0.016 * 0.016),
          px := 100, py := 100, vx := 0, vy := 0 } :=
  ⟨by simp [Point.frozen, Point.new, truthy], rfl,
    C11_verlet_step defaults mouse0
      { Point.new (100 : ℝ) 100 with px := 99, py := 98, vx := 10, vy := 20 } (0.016 * 0.016)
      (by simp [Point.frozen, Point.new, truthy]) rfl
      (by constructor <;> norm_num [Point.new, defaults])
      (by constructor <;> norm_num [Point.new, defaults])⟩

/-- After the reflection of lines 95-109 the position is inside the canvas. -/
theorem bounds_range {α : Type} [LinearOrderedField α] (cfg : Config α) (v : Point α)
    (hW : 0 ≤ cfg.width) (hH : 0 ≤ cfg.height) :
    (0 ≤ (Point.bounds cfg v).x ∧ (Point.bounds cfg v).x ≤ cfg.width) ∧
    (0 ≤ (Point.bounds cfg v).y ∧ (Point.bounds cfg v).y ≤ cfg.height) := by
  unfold Point.bounds
  dsimp only
  constructor
  · by_cases h1 : v.x ≥ cfg.width
    · simp only [h1, if_true]
      split_ifs <;> exact ⟨hW, le_refl _⟩
    · by_cases h2 : v.x ≤ 0
      · simp only [h1, if_false, h2, if_true]
        split_ifs <;> exact ⟨le_refl _, hW⟩
      · simp only [h1, if_false, h2]
        split_ifs <;> exact ⟨le_of_lt (not_le.mp h2), le_of_lt (not_le.mp h1)⟩
  · split_ifs <;>
      first
        | exact ⟨hH, le_refl _⟩
        | exact ⟨le_refl _, hH⟩
        | exact ⟨le_of_lt (not_le.mp (by assumption)), le_of_lt (not_le.mp (by assumption))⟩

/-- C18: for a point that `update` does not skip, every pointer state, every time step and
every canvas of width and height at least 0, the position after `update` satisfies
`0 ≤ x ≤ width` and `0 ≤ y ≤ height`, whatever the position before the call. -/
theorem C18_inside_canvas (cfg : Config ℝ) (mouse : Mouse ℝ) (p : Point ℝ) (delta : ℝ)
    (hp : p.frozen = false) (hW : 0 ≤ cfg.width) (hH : 0 ≤ cfg.height) :
    (0 ≤ (Point.update Real.sqrt cfg mouse p delta).x ∧
      (Point.update Real.sqrt cfg mouse p delta).x ≤ cfg.width) ∧
    (0 ≤ (Point.update Real.sqrt cfg mouse p delta).y ∧
      (Point.update Real.sqrt cfg mouse p delta).y ≤ cfg.height) := by
  simp only [Point.update, hp, Bool.false_eq_true, if_false]
  exact bounds_range cfg _ hW hH

/-- C18 (witness): a point far outside the canvas, at (-50, 900), coming from (30, 20). -/
theorem C18_inside_canvas_witness :
    ({ Point.new (-50 : ℝ) 900 with px := 30, py := 20 } : Point ℝ).frozen = false ∧
    (0 : ℝ) ≤ (defaults : Config ℝ).width ∧ (0 : ℝ) ≤ (defaults : Config ℝ).height ∧
    (0 ≤ (Point.update Real.sqrt defaults mouse0
        { Point.new (-50 : ℝ) 900 with px := 30, py := 20 } (0.016 * 0.016)).x ∧
      (Point.update Real.sqrt defaults mouse0
        { Point.new (-50 : ℝ) 900 with px := 30, py := 20 } (0.016 * 0.016)).x
          ≤ (defaults : Config ℝ).width) ∧
    (0 ≤ (Point.update Real.sqrt defaults mouse0
        { Point.new (-50 : ℝ) 900 with px := 30, py := 20 } (0.016 * 0.016)).y ∧
      (Point.update Real.sqrt defaults mouse0
        { Point.new (-50 : ℝ) 900 with px := 30, py := 20 } (0.016 * 0.016)).y
          ≤ (defaults : Config ℝ).height) :=
  ⟨by simp [Point.frozen, Point.new, truthy], by norm_num [defaults], by norm_num [defaults],
    C18_inside_canvas defaults mouse0 { Point.new (-50 : ℝ) 900 with px := 30, py := 20 }
      (0.016 * 0.016) (by simp [Point.frozen, Point.new, truthy]) (by norm_num [defaults])
      (by norm_num [defaults])⟩

/-- C15: for a point that `update` does not skip and every pointer state, `update` is the
Verlet step and the edge reflection applied to the point left by the pointer step, and the
pointer step overrides the previous position with `x - (mouse.x - mouse.px)`,
`y - (mouse.y - mouse.py)` exactly when the pointer is pressed, the button is 1 and the point
is closer than the influence radius; it replaces the constraint list by the empty list
exactly when the pointer is pressed, that drag condition is false and the point is closer
than the cut radius; otherwise it leaves the point as it is.  The two effects never both
happen in one call. -/
theorem C15_drag_or_cut (cfg : Config ℝ) (mouse : Mouse ℝ) (p : Point ℝ) (delta : ℝ)
    (hp : p.frozen = false) :
    Point.update Real.sqrt cfg mouse p delta
      = Point.bounds cfg (Point.verlet cfg (Point.pointer Real.sqrt mouse p) delta) ∧
    ((mouse.down = true ∧ mouse.button = 1 ∧
        Real.sqrt ((p.x - mouse.x) * (p.x - mouse.x) + (p.y - mouse.y) * (p.y - mouse.y))
          < mouse.influence) →
      Point.pointer Real.sqrt mouse p
        = { p with px := p.x - (mouse.x - mouse.px), py := p.y - (mouse.y - mouse.py) } ∧
      (Point.update Real.sqrt cfg mouse p delta).constraints = p.constraints) ∧
    ((mouse.down = true ∧
        ¬ (mouse.button = 1 ∧
          Real.sqrt ((p.x - mouse.x) * (p.x - mouse.x) + (p.y - mouse.y) * (p.y - mouse.y))
            < mouse.influence) ∧
        Real.sqrt ((p.x - mouse.x) * (p.x - mouse.x) + (p.y - mouse.y) * (p.y - mouse.y))
          < mouse.cut) →
      Point.pointer Real.sqrt mouse p = { p with constraints := [] } ∧
      (Point.update Real.sqrt cfg mouse p delta).constraints = []) ∧
    ((¬ (mouse.down = true ∧ mouse.button = 1 ∧
          Real.sqrt ((p.x - mouse.x) * (p.x - mouse.x) + (p.y - mouse.y) * (p.y - mouse.y))
            < mouse.influence) ∧
      ¬ (mouse.down = true ∧
          Real.sqrt ((p.x - mouse.x) * (p.x - mouse.x) + (p.y - mouse.y) * (p.y - mouse.y))
            < mouse.cut)) →
      Point.pointer Real.sqrt mouse p = p ∧
      (Point.update Real.sqrt cfg mouse p delta).constraints = p.constraints) := by
  refine ⟨by simp only [Point.update, hp, Bool.false_eq_true, if_false], ?_, ?_, ?_⟩
  · rintro ⟨hd, hdrag⟩
    have e : Point.pointer Real.sqrt mouse p
        = { p with px := p.x - (mouse.x - mouse.px), py := p.y - (mouse.y - mouse.py) } := by
      simp only [Point.pointer, hd, if_true]
      rw [if_pos hdrag]
    exact ⟨e, by rw [update_constraints _ _ _ _ _ hp, e]⟩
  · rintro ⟨hd, hdrag, hcut⟩
    have e : Point.pointer Real.sqrt mouse p = { p with constraints := [] } := by
      simp only [Point.pointer, hd, if_true]
      rw [if_neg hdrag, if_pos hcut]
    exact ⟨e, by rw [update_constraints _ _ _ _ _ hp, e]⟩
  · rintro ⟨h1, h2⟩
    have e : Point.pointer Real.sqrt mouse p = p := by
      by_cases hd : mouse.down = true
      · simp only [Point.pointer, hd, if_true]
        rw [if_neg (fun h => h1 ⟨hd, h⟩), if_neg (fun h => h2 ⟨hd, h⟩)]
      · simp only [Point.pointer, hd, Bool.false_eq_true, if_false]
    exact ⟨e, by rw [update_constraints _ _ _ _ _ hp, e]⟩

/-- C15 (witness): the pointer is pressed with button 1 on a point holding three
constraints: the previous position is overridden and the three constraints stay. -/
theorem C15_drag_or_cut_witness :
    ({ Point.new (0 : ℝ) 0 with constraints := [0, 1, 2] } : Point ℝ).frozen = false ∧
    Point.pointer Real.sqrt { mouse0 with down := true, px := 3, py := 4 }
        { Point.new (0 : ℝ) 0 with constraints := [0, 1, 2] }
      = { Point.new (0 : ℝ) 0 with px := 0 - (0 - 3), py := 0 - (0 - 4),
                                   constraints := [0, 1, 2] } ∧
    (Point.update Real.sqrt defaults { mouse0 with down := true, px := 3, py := 4 }
      { Point.new (0 : ℝ) 0 with constraints := [0, 1, 2] } (0.016 * 0.016)).constraints
      = [0, 1, 2] :=
  ⟨by simp [Point.frozen, Point.new, truthy],
    (C15_drag_or_cut defaults { mouse0 with down := true, px := 3, py := 4 }
      { Point.new (0 : ℝ) 0 with constraints := [0, 1, 2] } (0.016 * 0.016)
      (by simp [Point.frozen, Point.new, truthy])).2.1
      ⟨rfl, by simp [mouse0], by simp [mouse0, Point.new]⟩⟩

/-! ### `Constraint.resolve`: the displacement -/

/-- Two endpoints at a non-zero distance are two different points. -/
theorem endpoints_ne (s : Cloth ℝ) (k : Constraint ℝ) (a b : Point ℝ)
    (ha : s.points[k.p1]? = some a) (hb : s.points[k.p2]? = some b)
    (h0 : Cloth.pairDist Real.sqrt a b ≠ 0) : k.p1 ≠ k.p2 := by
  intro e
  apply h0
  rw [e, hb] at ha
  cases ha
  simp [Cloth.pairDist]

/-- C12 (counterexample): two points 16 apart joined by a constraint of rest length 8, tear
threshold 15.  The call removes the constraint from its owner's list and also moves both
endpoints, from 0 and 16 to 2 and 14. -/
theorem C12_counterexample :
    Cloth.pairDist Real.sqrt ({ Point.new (16 : ℝ) 0 with constraints := [0] } : Point ℝ)
      (Point.new 0 0) > (defaults : Config ℝ).tearDist ∧
    Constraint.resolve Real.sqrt (defaults : Config ℝ) (pair (16 : ℝ) 8) 0
      = .ok { points := [{ Point.new (0 : ℝ) 0 with x := 2 },
                         { Point.new (16 : ℝ) 0 with x := 14 }],
              heap := [{ p1 := 1, p2 := 0, length := 8 }] } := by
  have hd := sqrt_line 16 (by norm_num)
  constructor
  · simp only [Cloth.pairDist, Point.new, hd]
    norm_num [defaults]
  · simp [Constraint.resolve, pair, Point.new, hd, defaults, Cloth.modifyPoint, truthy,
      Point.free]
    norm_num

/-- C12 (amended): for a constraint that is in its owner's list and whose endpoint distance
`d` exceeds the tear threshold, is at least the rest length `L` and is not zero,
`Constraint.resolve()` detaches the constraint and also applies the displacement, as in the
non-tearing case: with `m = ((L - d)/d) * 0.5 * (1 - L/d)`, every coordinate of `p1` whose
pin is not set (or is 0) moves by `+ delta * m` and every such coordinate of `p2` by
`- delta * m`; a coordinate keeps its value only where its pin is set. -/
theorem C12_tear_also_moves (cfg : Config ℝ) (s : Cloth ℝ) (c : Nat) (k : Constraint ℝ)
    (a b : Point ℝ)
    (hk : s.heap[c]? = some k) (ha : s.points[k.p1]? = some a) (hb : s.points[k.p2]? = some b)
    (hc : c ∈ a.constraints)
    (ht : cfg.tearDist < Cloth.pairDist Real.sqrt a b)
    (hL : k.length ≤ Cloth.pairDist Real.sqrt a b)
    (h0 : Cloth.pairDist Real.sqrt a b ≠ 0) :
    ∃ s' a' b', Constraint.resolve Real.sqrt cfg s c = .ok s' ∧
      s'.points[k.p1]? = some a' ∧ s'.points[k.p2]? = some b' ∧
      a'.constraints = a.constraints.erase c ∧
      a'.x = (if truthy a.pinX then a.x else a.x + (a.x - b.x) *
        ((k.length - Cloth.pairDist Real.sqrt a b) / Cloth.pairDist Real.sqrt a b * 0.5 *
          (1 - k.length / Cloth.pairDist Real.sqrt a b))) ∧
      a'.y = (if truthy a.pinY then a.y else a.y + (a.y - b.y) *
        ((k.length - Cloth.pairDist Real.sqrt a b) / Cloth.pairDist Real.sqrt a b * 0.5 *
          (1 - k.length / Cloth.pairDist Real.sqrt a b))) ∧
      b'.x = (if truthy b.pinX then b.x else b.x - (a.x - b.x) *
        ((k.length - Cloth.pairDist Real.sqrt a b) / Cloth.pairDist Real.sqrt a b * 0.5 *
          (1 - k.length / Cloth.pairDist Real.sqrt a b))) ∧
      b'.y = (if truthy b.pinY then b.y else b.y - (a.y - b.y) *
        ((k.length - Cloth.pairDist Real.sqrt a b) / Cloth.pairDist Real.sqrt a b * 0.5 *
          (1 - k.length / Cloth.pairDist Real.sqrt a b))) := by
  have h1 : ¬ Cloth.pairDist Real.sqrt a b < k.length := not_lt.mpr hL
  have hne := endpoints_ne s k a b ha hb h0
  have hr := resolve_far Real.sqrt cfg s c k a b hk ha hb h1 h0
  obtain ⟨a', b', ea, eb, hax, hay, hbx, hby⟩ :=
    resolve_far_endpoints Real.sqrt cfg s _ c k a b hk ha hb h1 h0 hne hr _ rfl
  have hcs := resolve_owner_constraints Real.sqrt cfg s _ c k a b hk ha hb hr
  rw [ea, if_pos ⟨hL, ht⟩] at hcs
  simp only [Option.map_some', Option.some.injEq] at hcs
  have hfree : (a.free c).constraints = a.constraints.erase c := by
    simp [Point.free, hc]
  exact ⟨_, a', b', hr, ea, eb, by rw [hcs, hfree], hax, hay, hbx, hby⟩

/-- C12 (witness): the two points 16 apart of the counterexample; no coordinate is pinned,
so both endpoints move. -/
theorem C12_tear_also_moves_witness :
    (0 ∈ ({ Point.new (16 : ℝ) 0 with constraints := [0] } : Point ℝ).constraints) ∧
    ∃ s' a' b', Constraint.resolve Real.sqrt (defaults : Config ℝ) (pair (16 : ℝ) 8) 0
        = .ok s' ∧
      s'.points[1]? = some a' ∧ s'.points[0]? = some b' ∧
      a'.constraints = ([0] : List Nat).erase 0 ∧
      a'.x = (if truthy (none : Option ℝ) then (16 : ℝ) else 16 + (16 - 0) *
        ((8 - Cloth.pairDist Real.sqrt { Point.new (16 : ℝ) 0 with constraints := [0] }
              (Point.new 0 0))
            / Cloth.pairDist Real.sqrt { Point.new (16 : ℝ) 0 with constraints := [0] }
              (Point.new 0 0) * 0.5 *
          (1 - 8 / Cloth.pairDist Real.sqrt { Point.new (16 : ℝ) 0 with constraints := [0] }
              (Point.new 0 0)))) ∧
      a'.y = (if truthy (none : Option ℝ) then (0 : ℝ) else 0 + (0 - 0) *
        ((8 - Cloth.pairDist Real.sqrt { Point.new (16 : ℝ) 0 with constraints := [0] }
              (Point.new 0 0))
            / Cloth.pairDist Real.sqrt { Point.new (16 : ℝ) 0 with constraints := [0] }
              (Point.new 0 0) * 0.5 *
          (1 - 8 / Cloth.pairDist Real.sqrt { Point.new (16 : ℝ) 0 with constraints := [0] }
              (Point.new 0 0)))) ∧
      b'.x = (if truthy (none : Option ℝ) then (0 : ℝ) else 0 - (16 - 0) *
        ((8 - Cloth.pairDist Real.sqrt { Point.new (16 : ℝ) 0 with constraints := [0] }
              (Point.new 0 0))
            / Cloth.pairDist Real.sqrt { Point.new (16 : ℝ) 0 with constraints := [0] }
              (Point.new 0 0) * 0.5 *
          (1 - 8 / Cloth.pairDist Real.sqrt { Point.new (16 : ℝ) 0 with constraints := [0] }
              (Point.new 0 0)))) ∧
      b'.y = (if truthy (none : Option ℝ) then (0 : ℝ) else 0 - (0 - 0) *
        ((8 - Cloth.pairDist Real.sqrt { Point.new (16 : ℝ) 0 with constraints := [0] }
              (Point.new 0 0))
            / Cloth.pairDist Real.sqrt { Point.new (16 : ℝ) 0 with constraints := [0] }
              (Point.new 0 0) * 0.5 *
          (1 - 8 / Cloth.pairDist Real.sqrt { Point.new (16 : ℝ) 0 with constraints := [0] }
              (Point.new 0 0)))) := by
  have hd : Cloth.pairDist Real.sqrt ({ Point.new (16 : ℝ) 0 with constraints := [0] })
      (Point.new 0 0) = 16 := by
    simp only [Cloth.pairDist, Point.new]
    exact sqrt_line 16 (by norm_num)
  exact ⟨by simp,
    C12_tear_also_moves defaults (pair (16 : ℝ) 8) 0 { p1 := 1, p2 := 0, length := 8 }
      { Point.new (16 : ℝ) 0 with constraints := [0] } (Point.new 0 0) rfl rfl rfl (by simp)
      (by rw [hd]; norm_num [defaults]) (by rw [hd]; norm_num) (by rw [hd]; norm_num)⟩

/-- C14: for a constraint with rest length `L` whose endpoints have no pin coordinate set
and whose distance `d` satisfies `L ≤ d ≤ tearDist` and `d > 0`, `Constraint.resolve()`
moves `p1` by `(dx*m, dy*m)` and `p2` by `(-dx*m, -dy*m)`, where `(dx, dy) = p1 - p2` and
`m = ((L - d)/d) * 0.5 * (1 - L/d)`, and changes nothing else in the two points; the two
displacements are equal and opposite, so the midpoint of the endpoints is unchanged. -/
theorem C14_displacement (cfg : Config ℝ) (s : Cloth ℝ) (c : Nat) (k : Constraint ℝ)
    (a b : Point ℝ)
    (hk : s.heap[c]? = some k) (ha : s.points[k.p1]? = some a) (hb : s.points[k.p2]? = some b)
    (hpa : a.pinX = none ∧ a.pinY = none) (hpb : b.pinX = none ∧ b.pinY = none)
    (hL : k.length ≤ Cloth.pairDist Real.sqrt a b)
    (ht : Cloth.pairDist Real.sqrt a b ≤ cfg.tearDist)
    (hpos : 0 < Cloth.pairDist Real.sqrt a b) :
    ∃ s' a' b', Constraint.resolve Real.sqrt cfg s c = .ok s' ∧
      s'.points[k.p1]? = some a' ∧ s'.points[k.p2]? = some b' ∧
      a' = { a with
        x := a.x + (a.x - b.x) *
          ((k.length - Cloth.pairDist Real.sqrt a b) / Cloth.pairDist Real.sqrt a b * 0.5 *
            (1 - k.length / Cloth.pairDist Real.sqrt a b)),
        y := a.y + (a.y - b.y) *
          ((k.length - Cloth.pairDist Real.sqrt a b) / Cloth.pairDist Real.sqrt a b * 0.5 *
            (1 - k.length / Cloth.pairDist Real.sqrt a b)) } ∧
      b' = { b with
        x := b.x - (a.x - b.x) *
          ((k.length - Cloth.pairDist Real.sqrt a b) / Cloth.pairDist Real.sqrt a b * 0.5 *
            (1 - k.length / Cloth.pairDist Real.sqrt a b)),
        y := b.y - (a.y - b.y) *
          ((k.length - Cloth.pairDist Real.sqrt a b) / Cloth.pairDist Real.sqrt a b * 0.5 *
            (1 - k.length / Cloth.pairDist Real.sqrt a b)) } ∧
      (a'.x - a.x = -(b'.x - b.x) ∧ a'.y - a.y = -(b'.y - b.y)) ∧
      ((a'.x + b'.x) / 2 = (a.x + b.x) / 2 ∧ (a'.y + b'.y) / 2 = (a.y + b.y) / 2) := by
  have h1 : ¬ Cloth.pairDist Real.sqrt a b < k.length := not_lt.mpr hL
  have h0 : Cloth.pairDist Real.sqrt a b ≠ 0 := ne_of_gt hpos
  have hne := endpoints_ne s k a b ha hb h0
  have hne' : k.p2 ≠ k.p1 := fun e => hne e.symm
  have hr := resolve_far Real.sqrt cfg s c k a b hk ha hb h1 h0
  rw [if_neg (not_lt.mpr ht)] at hr
  refine ⟨_, _, _, hr, ?_, ?_, rfl, rfl, ⟨by ring, by ring⟩, ⟨by ring, by ring⟩⟩
  · rw [modifyPoint_get_ne _ _ hne, modifyPoint_get_ne _ _ hne, modifyPoint_get_self,
      modifyPoint_get_self, ha]
    simp [truthy, hpa.1, hpa.2]
  · rw [modifyPoint_get_self, modifyPoint_get_self, modifyPoint_get_ne _ _ hne',
      modifyPoint_get_ne _ _ hne', hb]
    simp [truthy, hpb.1, hpb.2]

/-- C14 (witness): two unpinned points 10 apart joined by a constraint of rest length 8,
tear threshold 15. -/
theorem C14_displacement_witness :
    (8 : ℝ) ≤ Cloth.pairDist Real.sqrt ({ Point.new (10 : ℝ) 0 with constraints := [0] })
      (Point.new 0 0) ∧
    Cloth.pairDist Real.sqrt ({ Point.new (10 : ℝ) 0 with constraints := [0] })
      (Point.new 0 0) ≤ (defaults : Config ℝ).tearDist ∧
    ∃ s' a' b', Constraint.resolve Real.sqrt (defaults : Config ℝ) (pair (10 : ℝ) 8) 0
        = .ok s' ∧
      s'.points[1]? = some a' ∧ s'.points[0]? = some b' ∧
      a' = { ({ Point.new (10 : ℝ) 0 with constraints := [0] } : Point ℝ) with
        x := 10 + (10 - 0) *
          ((8 - Cloth.pairDist Real.sqrt { Point.new (10 : ℝ) 0 with constraints := [0] }
                (Point.new 0 0))
              / Cloth.pairDist Real.sqrt { Point.new (10 : ℝ) 0 with constraints := [0] }
                (Point.new 0 0) * 0.5 *
            (1 - 8 / Cloth.pairDist Real.sqrt { Point.new (10 : ℝ) 0 with constraints := [0] }
                (Point.new 0 0))),
        y := 0 + (0 - 0) *
          ((8 - Cloth.pairDist Real.sqrt { Point.new (10 : ℝ) 0 with constraints := [0] }
                (Point.new 0 0))
              / Cloth.pairDist Real.sqrt { Point.new (10 : ℝ) 0 with constraints := [0] }
                (Point.new 0 0) * 0.5 *
            (1 - 8 / Cloth.pairDist Real.sqrt { Point.new (10 : ℝ) 0 with constraints := [0] }
                (Point.new 0 0))) } ∧
      b' = { (Point.new (0 : ℝ) 0) with
        x := 0 - (10 - 0) *
          ((8 - Cloth.pairDist Real.sqrt { Point.new (10 : ℝ) 0 with constraints := [0] }
                (Point.new 0 0))
              / Cloth.pairDist Real.sqrt { Point.new (10 : ℝ) 0 with constraints := [0] }
                (Point.new 0 0) * 0.5 *
            (1 - 8 / Cloth.pairDist Real.sqrt { Point.new (10 : ℝ) 0 with constraints := [0] }
                (Point.new 0 0))),
        y := 0 - (0 - 0) *
          ((8 - Cloth.pairDist Real.sqrt { Point.new (10 : ℝ) 0 with constraints := [0] }
                (Point.new 0 0))
              / Cloth.pairDist Real.sqrt { Point.new (10 : ℝ) 0 with constraints := [0] }
                (Point.new 0 0) * 0.5 *
            (1 - 8 / Cloth.pairDist Real.sqrt { Point.new (10 : ℝ) 0 with constraints := [0] }
                (Point.new 0 0))) } ∧
      (a'.x - 10 = -(b'.x - 0) ∧ a'.y - 0 = -(b'.y - 0)) ∧
      ((a'.x + b'.x) / 2 = ((10 : ℝ) + 0) / 2 ∧ (a'.y + b'.y) / 2 = ((0 : ℝ) + 0) / 2) := by
  have hd : Cloth.pairDist Real.sqrt ({ Point.new (10 : ℝ) 0 with constraints := [0] })
      (Point.new 0 0) = 10 := by
    simp only [Cloth.pairDist, Point.new]
    exact sqrt_line 10 (by norm_num)
  exact ⟨by rw [hd]; norm_num, by rw [hd]; norm_num [defaults],
    C14_displacement defaults (pair (10 : ℝ) 8) 0 { p1 := 1, p2 := 0, length := 8 }
      { Point.new (10 : ℝ) 0 with constraints := [0] } (Point.new 0 0) rfl rfl rfl
      ⟨rfl, rfl⟩ ⟨rfl, rfl⟩ (by rw [hd]; norm_num) (by rw [hd]; norm_num [defaults])
      (by rw [hd]; norm_num)⟩

/-- The distance after both endpoints have moved by the displacement of lines 168-169. -/
theorem moved_dist (ax ay bx bY L d m : ℝ)
    (hd : d = Real.sqrt ((ax - bx) * (ax - bx) + (ay - bY) * (ay - bY))) (hpos : 0 < d)
    (hL : 0 ≤ L) (hLd : L ≤ d) (hm : m = (L - d) / d * 0.5 * (1 - L / d)) :
    Real.sqrt ((ax + (ax - bx) * m - (bx - (ax - bx) * m))
          * (ax + (ax - bx) * m - (bx - (ax - bx) * m))
        + (ay + (ay - bY) * m - (bY - (ay - bY) * m))
          * (ay + (ay - bY) * m - (bY - (ay - bY) * m)))
      = d - (d - L) ^ 2 / d := by
  obtain ⟨-, hm1, hr0⟩ := mul_bounds L d m hpos hL hLd hm
  have hsum : 0 ≤ (ax - bx) * (ax - bx) + (ay - bY) * (ay - bY) :=
    add_nonneg (mul_self_nonneg _) (mul_self_nonneg _)
  have hdd : d * d = (ax - bx) * (ax - bx) + (ay - bY) * (ay - bY) := by
    rw [hd]; exact Real.mul_self_sqrt hsum
  have hf : 0 ≤ (1 + 2 * m) * d := mul_nonneg (le_trans hr0 hm1) (le_of_lt hpos)
  have e : (ax + (ax - bx) * m - (bx - (ax - bx) * m))
          * (ax + (ax - bx) * m - (bx - (ax - bx) * m))
        + (ay + (ay - bY) * m - (bY - (ay - bY) * m))
          * (ay + (ay - bY) * m - (bY - (ay - bY) * m))
      = ((1 + 2 * m) * d) * ((1 + 2 * m) * d) := by
    have : ((1 + 2 * m) * d) * ((1 + 2 * m) * d) = (1 + 2 * m) * (1 + 2 * m) * (d * d) := by
      ring
    rw [this, hdd]
    ring
  rw [e, Real.sqrt_mul_self hf, hm]
  field_simp
  ring

/-- C16: over the real numbers, for a constraint with rest length `L > 0` whose endpoints
have no pin coordinate set and whose distance `d` is at least `L`, the endpoint distance
after one `Constraint.resolve()` is exactly `d - (d - L)^2 / d`; hence it lies between `L`
and `d`, the excess over the rest length shrinks by the factor `L/d`, and the rest length is
reached only if `d = L`. -/
theorem C16_new_distance (cfg : Config ℝ) (s : Cloth ℝ) (c : Nat) (k : Constraint ℝ)
    (a b : Point ℝ)
    (hk : s.heap[c]? = some k) (ha : s.points[k.p1]? = some a) (hb : s.points[k.p2]? = some b)
    (hL : 0 < k.length)
    (hpa : a.pinX = none ∧ a.pinY = none) (hpb : b.pinX = none ∧ b.pinY = none)
    (hd : k.length ≤ Cloth.pairDist Real.sqrt a b) :
    ∃ s' a' b', Constraint.resolve Real.sqrt cfg s c = .ok s' ∧
      s'.points[k.p1]? = some a' ∧ s'.points[k.p2]? = some b' ∧
      Cloth.pairDist Real.sqrt a' b'
        = Cloth.pairDist Real.sqrt a b
          - (Cloth.pairDist Real.sqrt a b - k.length) ^ 2 / Cloth.pairDist Real.sqrt a b ∧
      k.length ≤ Cloth.pairDist Real.sqrt a' b' ∧
      Cloth.pairDist Real.sqrt a' b' ≤ Cloth.pairDist Real.sqrt a b ∧
      Cloth.pairDist Real.sqrt a' b' - k.length
        = (Cloth.pairDist Real.sqrt a b - k.length) * k.length
          / Cloth.pairDist Real.sqrt a b ∧
      (Cloth.pairDist Real.sqrt a' b' = k.length ↔
        Cloth.pairDist Real.sqrt a b = k.length) := by
  have hpos : 0 < Cloth.pairDist Real.sqrt a b := lt_of_lt_of_le hL hd
  have h1 : ¬ Cloth.pairDist Real.sqrt a b < k.length := not_lt.mpr hd
  have h0 : Cloth.pairDist Real.sqrt a b ≠ 0 := ne_of_gt hpos
  have hne := endpoints_ne s k a b ha hb h0
  have hr := resolve_far Real.sqrt cfg s c k a b hk ha hb h1 h0
  obtain ⟨a', b', ea, eb, hax, hay, hbx, hby⟩ :=
    resolve_far_endpoints Real.sqrt cfg s _ c k a b hk ha hb h1 h0 hne hr _ rfl
  simp only [hpa.1, hpa.2, hpb.1, hpb.2, truthy, Bool.false_eq_true, if_false] at hax hay hbx hby
  have hnew : Cloth.pairDist Real.sqrt a' b'
      = Cloth.pairDist Real.sqrt a b
        - (Cloth.pairDist Real.sqrt a b - k.length) ^ 2 / Cloth.pairDist Real.sqrt a b := by
    have h := moved_dist a.x a.y b.x b.y k.length (Cloth.pairDist Real.sqrt a b) _ rfl hpos
      (le_of_lt hL) hd rfl
    rw [← h]
    simp only [Cloth.pairDist, hax, hay, hbx, hby]
  have hexc : Cloth.pairDist Real.sqrt a' b' - k.length
      = (Cloth.pairDist Real.sqrt a b - k.length) * k.length
        / Cloth.pairDist Real.sqrt a b := by
    rw [hnew]
    field_simp
    ring
  have hnn : 0 ≤ (Cloth.pairDist Real.sqrt a b - k.length) * k.length
      / Cloth.pairDist Real.sqrt a b :=
    div_nonneg (mul_nonneg (sub_nonneg.mpr hd) (le_of_lt hL)) (le_of_lt hpos)
  have hsq : 0 ≤ (Cloth.pairDist Real.sqrt a b - k.length) ^ 2
      / Cloth.pairDist Real.sqrt a b :=
    div_nonneg (sq_nonneg _) (le_of_lt hpos)
  refine ⟨_, a', b', hr, ea, eb, hnew, by linarith, by linarith, hexc, ?_⟩
  constructor
  · intro h
    rw [h, sub_self] at hexc
    have hz := hexc.symm
    rw [div_eq_zero_iff] at hz
    rcases hz with hz | hz
    · rcases mul_eq_zero.mp hz with hz | hz
      · linarith
      · linarith
    · exact absurd hz h0
  · intro h
    rw [h, sub_self, zero_mul, zero_div] at hexc
    linarith

/-- C16 (witness): two unpinned points 10 apart joined by a constraint of rest length 8:
the new distance is `10 - (10 - 8)^2 / 10 = 9.6`. -/
theorem C16_new_distance_witness :
    (0 : ℝ) < 8 ∧
    (8 : ℝ) ≤ Cloth.pairDist Real.sqrt ({ Point.new (10 : ℝ) 0 with constraints := [0] })
      (Point.new 0 0) ∧
    ∃ s' a' b', Constraint.resolve Real.sqrt (defaults : Config ℝ) (pair (10 : ℝ) 8) 0
        = .ok s' ∧
      s'.points[1]? = some a' ∧ s'.points[0]? = some b' ∧
      Cloth.pairDist Real.sqrt a' b'
        = Cloth.pairDist Real.sqrt ({ Point.new (10 : ℝ) 0 with constraints := [0] })
            (Point.new 0 0)
          - (Cloth.pairDist Real.sqrt ({ Point.new (10 : ℝ) 0 with constraints := [0] })
              (Point.new 0 0) - 8) ^ 2
            / Cloth.pairDist Real.sqrt ({ Point.new (10 : ℝ) 0 with constraints := [0] })
              (Point.new 0 0) ∧
      8 ≤ Cloth.pairDist Real.sqrt a' b' ∧
      Cloth.pairDist Real.sqrt a' b'
        ≤ Cloth.pairDist Real.sqrt ({ Point.new (10 : ℝ) 0 with constraints := [0] })
            (Point.new 0 0) ∧
      Cloth.pairDist Real.sqrt a' b' - 8
        = (Cloth.pairDist Real.sqrt ({ Point.new (10 : ℝ) 0 with constraints := [0] })
            (Point.new 0 0) - 8) * 8
          / Cloth.pairDist Real.sqrt ({ Point.new (10 : ℝ) 0 with constraints := [0] })
            (Point.new 0 0) ∧
      (Cloth.pairDist Real.sqrt a' b' = 8 ↔
        Cloth.pairDist Real.sqrt ({ Point.new (10 : ℝ) 0 with constraints := [0] })
          (Point.new 0 0) = 8) := by
  have hd : Cloth.pairDist Real.sqrt ({ Point.new (10 : ℝ) 0 with constraints := [0] })
      (Point.new 0 0) = 10 := by
    simp only [Cloth.pairDist, Point.new]
    exact sqrt_line 10 (by norm_num)
  exact ⟨by norm_num, by rw [hd]; norm_num,
    C16_new_distance defaults (pair (10 : ℝ) 8) 0 { p1 := 1, p2 := 0, length := 8 }
      { Point.new (10 : ℝ) 0 with constraints := [0] } (Point.new 0 0) rfl rfl rfl
      (by norm_num) ⟨rfl, rfl⟩ ⟨rfl, rfl⟩ (by rw [hd]; norm_num)⟩

/-! ### The calls of `Constraint.resolve` made by `Point.resolve` -/

/-- The record of calls does not change what the loop computes. -/
theorem resolveLoopLog_fst {α : Type} [LinearOrderedField α] (sqrt : α → α) (cfg : Config α)
    (i : Nat) : ∀ (n k : Nat) (s : Cloth α),
      (Point.resolveLoopLog sqrt cfg i n k s).map Prod.fst
        = Point.resolveLoop sqrt cfg i n k s := by
  intro n
  induction n with
  | zero => intro k s; rfl
  | succ n ih =>
    intro k s
    unfold Point.resolveLoopLog Point.resolveLoop
    cases hp : s.points[i]? with
    | none => rfl
    | some p =>
      simp only []
      cases hc : p.constraints[k]? with
      | none => exact ih _ _
      | some c =>
        simp only []
        cases hr : Constraint.resolve sqrt cfg s c with
        | error e => rfl
        | ok s1 =>
          simp only []
          rw [← ih (k + 1) s1]
          cases Point.resolveLoopLog sqrt cfg i n (k + 1) s1 <;> rfl

theorem resolveLog_fst {α : Type} [LinearOrderedField α] (sqrt : α → α) (cfg : Config α)
    (s : Cloth α) (i : Nat) :
    (Point.resolveLog sqrt cfg s i).map Prod.fst = Point.resolve sqrt cfg s i := by
  unfold Point.resolveLog Point.resolve
  cases hp : s.points[i]? with
  | none => rfl
  | some p =>
    simp only []
    by_cases hf : p.frozen = true
    · rw [if_pos hf, if_pos hf]
      cases p.pinX <;> cases p.pinY <;> rfl
    · rw [if_neg hf, if_neg hf]
      exact resolveLoopLog_fst sqrt cfg i _ _ s

theorem sqrt_400 : Real.sqrt 400 = 20 := by
  rw [show (400 : ℝ) = 20 * 20 by norm_num]
  exact Real.sqrt_mul_self (by norm_num)

/-- C13 (code bug): a point holding the constraints `[0, 1]`, of which constraint 0 is
stretched beyond the tear threshold.  One `Point.resolve()` calls `Constraint.resolve()` on
constraint 0 only: the call tears constraint 0 out of the list, constraint 1 moves to index
0, and the `forEach` of line 126 finds nothing at index 1.  Constraint 1 was in the list when
the call began, is still in it afterwards, and was not resolved (its endpoints keep the
distance 10 in y). -/
theorem C13_forEach_skips_after_tear :
    ((fork : Cloth ℝ).points.map (fun p => p.constraints)) = [[], [], [0, 1]] ∧
    (Point.resolveLog Real.sqrt defaults (fork : Cloth ℝ) 2).map
        (fun r => (r.2.map Prod.snd, r.1.points.map (fun p => (p.x, p.y, p.constraints))))
      = .ok ([0], [(3.6, 10, []), (20, 0, []), (16.4, 10, [1])]) := by
  constructor
  · rfl
  · norm_num [Point.resolveLog, Point.resolveLoopLog, Constraint.resolve, fork, Point.frozen,
      truthy, Point.new, sqrt_400, sqrt_100, Cloth.modifyPoint, defaults, Point.free,
      Except.map]

/-! ### Constraint lists never gain a constraint -/

theorem shrinks_refl {α : Type} (s : Cloth α) : s.shrinks s :=
  ⟨rfl, rfl, fun _ q h => ⟨q, h, List.Sublist.refl _⟩⟩

theorem shrinks_trans {α : Type} {s t u : Cloth α} (h1 : s.shrinks t) (h2 : t.shrinks u) :
    s.shrinks u := by
  obtain ⟨a1, b1, c1⟩ := h1
  obtain ⟨a2, b2, c2⟩ := h2
  refine ⟨a2.trans a1, b2.trans b1, ?_⟩
  intro i q hq
  obtain ⟨p, hp, hs⟩ := c2 i q hq
  obtain ⟨p0, hp0, hs0⟩ := c1 i p hp
  exact ⟨p0, hp0, hs.trans hs0⟩

theorem set_shrinks {α : Type} (s : Cloth α) (j : Nat) (p q : Point α)
    (hp : s.points[j]? = some p) (hq : q.constraints.Sublist p.constraints) :
    s.shrinks { s with points := s.points.set j q } := by
  refine ⟨rfl, by simp, ?_⟩
  intro i r hr
  have hlt : j < s.points.length := (List.getElem?_eq_some.mp hp).1
  by_cases e : j = i
  · subst e
    simp only [List.getElem?_set, hlt, if_true] at hr
    cases hr
    exact ⟨p, hp, hq⟩
  · simp only [List.getElem?_set_ne e] at hr
    exact ⟨r, hr, List.Sublist.refl _⟩

theorem modifyPoint_shrinks {α : Type} (s : Cloth α) (j : Nat) (f : Point α → Point α)
    (hf : ∀ p, (f p).constraints.Sublist p.constraints) : s.shrinks (s.modifyPoint j f) := by
  unfold Cloth.modifyPoint
  cases hp : s.points[j]? with
  | none => exact shrinks_refl s
  | some p => exact set_shrinks s j p (f p) hp (hf p)

theorem free_sublist {α : Type} [LinearOrderedField α] (p : Point α) (c : Nat) :
    (p.free c).constraints.Sublist p.constraints := by
  unfold Point.free
  split
  · exact List.eraseIdx_sublist _ _
  · exact List.dropLast_sublist _

theorem update_sublist {α : Type} [LinearOrderedField α] (sqrt : α → α) (cfg : Config α)
    (mouse : Mouse α) (p : Point α) (delta : α) :
    (Point.update sqrt cfg mouse p delta).constraints.Sublist p.constraints := by
  by_cases hp : p.frozen = true
  · simp only [Point.update, hp, if_true]
    exact List.Sublist.refl _
  · have hp' : p.frozen = false := by simpa using hp
    rw [update_constraints sqrt cfg mouse p delta hp']
    unfold Point.pointer
    split
    · dsimp only
      split
      · exact List.Sublist.refl _
      · split
        · exact List.nil_sublist _
        · exact List.Sublist.refl _
    · exact List.Sublist.refl _

theorem resolve_shrinks {α : Type} [LinearOrderedField α] (sqrt : α → α) (cfg : Config α)
    (s s' : Cloth α) (c : Nat) (hr : Constraint.resolve sqrt cfg s c = .ok s') :
    s.shrinks s' := by
  cases hk : s.heap[c]? with
  | none => simp [Constraint.resolve, hk] at hr
  | some k =>
    cases hp : s.points[k.p1]? with
    | none => simp [Constraint.resolve, hk, hp] at hr
    | some p =>
      cases hq : s.points[k.p2]? with
      | none => simp [Constraint.resolve, hk, hp, hq] at hr
      | some q =>
        by_cases h1 : Cloth.pairDist sqrt p q < k.length
        · rw [resolve_near sqrt cfg s c k p q hk hp hq h1] at hr
          cases hr
          exact shrinks_refl s
        · by_cases h0 : Cloth.pairDist sqrt p q = 0
          · exfalso
            unfold Cloth.pairDist at h1 h0
            simp only [Constraint.resolve, hk, hp, hq] at hr
            rw [if_neg h1, if_pos h0] at hr
            cases hr
          · rw [resolve_far sqrt cfg s c k p q hk hp hq h1 h0] at hr
            cases hr
            have keep : ∀ (g : Point α → Point α),
                (∀ r, (g r).constraints = r.constraints) →
                ∀ r, (g r).constraints.Sublist r.constraints := by
              intro g hg r
              rw [hg r]
            have base : s.shrinks (if Cloth.pairDist sqrt p q > cfg.tearDist
                then s.modifyPoint k.p1 (fun r => r.free c) else s) := by
              split
              · exact modifyPoint_shrinks _ _ _ (fun r => free_sublist r c)
              · exact shrinks_refl s
            have step : ∀ (t : Cloth α) (j : Nat) (g : Point α → Point α),
                (∀ r, (g r).constraints = r.constraints) → s.shrinks t →
                s.shrinks (t.modifyPoint j g) :=
              fun t j g hg ht => shrinks_trans ht (modifyPoint_shrinks t j g (keep g hg))
            apply step _ _ _ (fun r => by split <;> rfl)
            apply step _ _ _ (fun r => by split <;> rfl)
            apply step _ _ _ (fun r => by split <;> rfl)
            apply step _ _ _ (fun r => by split <;> rfl)
            exact base

theorem resolveLoop_shrinks {α : Type} [LinearOrderedField α] (sqrt : α → α)
    (cfg : Config α) (j : Nat) :
    ∀ (n k : Nat) (s s' : Cloth α), Point.resolveLoop sqrt cfg j n k s = .ok s' →
      s.shrinks s' := by
  intro n
  induction n with
  | zero =>
    intro k s s' hr
    simp only [Point.resolveLoop] at hr
    cases hr
    exact shrinks_refl s
  | succ n ih =>
    intro k s s' hr
    unfold Point.resolveLoop at hr
    cases hp : s.points[j]? with
    | none => simp [hp] at hr
    | some p =>
      simp only [hp] at hr
      cases hc : p.constraints[k]? with
      | none =>
        simp only [hc] at hr
        exact ih _ _ _ hr
      | some c =>
        simp only [hc] at hr
        cases hres : Constraint.resolve sqrt cfg s c with
        | error e => simp [hres] at hr
        | ok s1 =>
          simp only [hres] at hr
          exact shrinks_trans (resolve_shrinks sqrt cfg s s1 c hres) (ih _ _ _ hr)

theorem pointResolve_shrinks {α : Type} [LinearOrderedField α] (sqrt : α → α)
    (cfg : Config α) (j : Nat) (s s' : Cloth α)
    (hr : Point.resolve sqrt cfg s j = .ok s') : s.shrinks s' := by
  unfold Point.resolve at hr
  cases hp : s.points[j]? with
  | none => simp [hp] at hr
  | some p =>
    simp only [hp] at hr
    by_cases hf : p.frozen = true
    · rw [if_pos hf] at hr
      cases hx : p.pinX with
      | none => simp [Point.frozen, hx, truthy] at hf
      | some u =>
        cases hy : p.pinY with
        | none => simp [Point.frozen, hy, truthy] at hf
        | some v =>
          simp only [hx, hy] at hr
          cases hr
          exact set_shrinks s j p _ hp (List.Sublist.refl _)
    · rw [if_neg hf] at hr
      exact resolveLoop_shrinks sqrt cfg j _ _ s s' hr

theorem resolveAll_shrinks {α : Type} [LinearOrderedField α] (sqrt : α → α)
    (cfg : Config α) :
    ∀ (js : List Nat) (s s' : Cloth α), Cloth.resolveAll sqrt cfg js s = .ok s' →
      s.shrinks s' := by
  intro js
  induction js with
  | nil =>
    intro s s' hr
    simp only [Cloth.resolveAll] at hr
    cases hr
    exact shrinks_refl s
  | cons j js ih =>
    intro s s' hr
    unfold Cloth.resolveAll at hr
    cases hres : Point.resolve sqrt cfg s j with
    | error e => simp [hres] at hr
    | ok s1 =>
      simp only [hres] at hr
      exact shrinks_trans (pointResolve_shrinks sqrt cfg j s s1 hres) (ih _ _ hr)

theorem relax_shrinks {α : Type} [LinearOrderedField α] (sqrt : α → α) (cfg : Config α) :
    ∀ (n : Nat) (s s' : Cloth α), Cloth.relax sqrt cfg n s = .ok s' → s.shrinks s' := by
  intro n
  induction n with
  | zero =>
    intro s s' hr
    simp only [Cloth.relax] at hr
    cases hr
    exact shrinks_refl s
  | succ n ih =>
    intro s s' hr
    unfold Cloth.relax at hr
    cases hres : Cloth.relaxPass sqrt cfg s with
    | error e => simp [hres] at hr
    | ok s1 =>
      simp only [hres] at hr
      exact shrinks_trans (resolveAll_shrinks sqrt cfg _ s s1 hres) (ih _ _ hr)

theorem shrinks_valid {α : Type} {s t : Cloth α} (h : s.shrinks t) (hv : s.valid) :
    t.valid := by
  obtain ⟨hh, hl, hs⟩ := h
  intro i q hq c hc
  obtain ⟨p, hp, hsub⟩ := hs i q hq
  obtain ⟨k, hk, h1, h2⟩ := hv i p hp c (hsub.subset hc)
  exact ⟨k, by rw [hh]; exact hk, by rw [hl]; exact h1, by rw [hl]; exact h2⟩

theorem shrinks_owned {α : Type} {s t : Cloth α} (h : s.shrinks t) (ho : s.owned) :
    t.owned := by
  obtain ⟨hh, -, hs⟩ := h
  intro i q hq
  obtain ⟨p, hp, hsub⟩ := hs i q hq
  obtain ⟨hn, hc⟩ := ho i p hp
  refine ⟨hsub.nodup hn, ?_⟩
  intro c hcq
  obtain ⟨k, hk, h1⟩ := hc c (hsub.subset hcq)
  exact ⟨k, by rw [hh]; exact hk, h1⟩

theorem integrate_shrinks {α : Type} [LinearOrderedField α] (sqrt : α → α) (cfg : Config α)
    (mouse : Mouse α) (s : Cloth α) : s.shrinks (Cloth.integrate sqrt cfg mouse s) := by
  refine ⟨rfl, by simp [Cloth.integrate], ?_⟩
  intro i q hq
  simp only [Cloth.integrate, List.getElem?_map] at hq
  cases hp : s.points[i]? with
  | none => simp [hp] at hq
  | some p =>
    rw [hp] at hq
    simp only [Option.map_some', Option.some.injEq] at hq
    subst hq
    exact ⟨p, rfl, update_sublist sqrt cfg mouse p _⟩

theorem wireLoop_shrinks {α : Type} [LinearOrderedField α] (sqrt : α → α) (cfg : Config α)
    (mouse : Mouse α) (delta : α) :
    ∀ (js : List Nat) (s : Cloth α) (r : Cloth α × List (DrawCmd α)),
      Cloth.wireLoop sqrt cfg mouse delta js s = .ok r → s.shrinks r.1 := by
  intro js
  induction js with
  | nil =>
    intro s r hr
    simp only [Cloth.wireLoop] at hr
    cases hr
    exact shrinks_refl s
  | cons j js ih =>
    intro s r hr
    unfold Cloth.wireLoop at hr
    cases hp : s.points[j]? with
    | none => simp [hp] at hr
    | some p =>
      simp only [hp] at hr
      cases hd : Point.draw
          ({ s with points := s.points.set j (Point.update sqrt cfg mouse p (delta * delta)) })
          (Point.update sqrt cfg mouse p (delta * delta)) with
      | error e => simp [hd] at hr
      | ok d =>
        simp only [hd] at hr
        cases hres : Cloth.wireLoop sqrt cfg mouse delta js
            ({ s with points := s.points.set j (Point.update sqrt cfg mouse p (delta * delta)) })
          with
        | error e => simp [hres] at hr
        | ok r1 =>
          simp only [hres] at hr
          cases hr
          exact shrinks_trans (set_shrinks s j p _ hp (update_sublist sqrt cfg mouse p _))
            (ih _ r1 hres)

theorem clothUpdate_shrinks {α : Type} [LinearOrderedField α] (sqrt : α → α)
    (cfg : Config α) (mouse : Mouse α) (textureLoaded : Bool)
    (textureImage : Option (Image α)) (delta : α) (s : Cloth α)
    (r : Cloth α × List (DrawCmd α))
    (hr : Cloth.update sqrt cfg mouse textureLoaded textureImage s delta = .ok r) :
    s.shrinks r.1 := by
  unfold Cloth.update at hr
  cases hres : Cloth.relax sqrt cfg cfg.accuracy s with
  | error e => simp [hres] at hr
  | ok s1 =>
    simp only [hres] at hr
    have h1 := relax_shrinks sqrt cfg _ s s1 hres
    have wire : ∀ r, (match Cloth.wireLoop sqrt cfg mouse delta (List.range s1.points.length) s1
          with
          | .error e => (.error e : Except Fault (Cloth α × List (DrawCmd α)))
          | .ok r => .ok (r.1, [DrawCmd.beginPath] ++ r.2 ++ [DrawCmd.stroke])) = .ok r →
        s.shrinks r.1 := by
      intro r hw
      cases hl : Cloth.wireLoop sqrt cfg mouse delta (List.range s1.points.length) s1 with
      | error e => simp [hl] at hw
      | ok r1 =>
        simp only [hl] at hw
        cases hw
        exact shrinks_trans h1 (wireLoop_shrinks sqrt cfg mouse delta _ s1 r1 hl)
    cases textureLoaded with
    | false => exact wire r hr
    | true =>
      cases textureImage with
      | none => exact wire r hr
      | some img =>
        simp only at hr
        cases hr
        exact shrinks_trans h1 (integrate_shrinks sqrt cfg mouse s1)

/-- From the state a cloth is built in to any state it reaches, no constraint list gains a
constraint and the store of constraints does not change. -/
theorem reachable_shrinks {α : Type} [LinearOrderedField α] (sqrt : α → α) (cfg : Config α)
    (s0 s : Cloth α) (hr : Cloth.Reachable sqrt cfg s0 s) : s0.shrinks s := by
  induction hr with
  | start => exact shrinks_refl s0
  | frame mouse tl ti delta s1 s2 cmds _ hu ih =>
    exact shrinks_trans ih (clothUpdate_shrinks sqrt cfg mouse tl ti delta s1 (s2, cmds) hu)

/-! ### What the constructor builds -/

theorem built_push {α : Type} (s : Cloth α) (p : Point α) (ext : List (Constraint α))
    (hK : s.built) (hn : p.constraints.Nodup)
    (hc : ∀ c ∈ p.constraints, ∃ k : Constraint α, (s.heap ++ ext)[c]? = some k ∧
      k.p1 = s.points.length ∧ k.p2 < s.points.length) :
    Cloth.built { points := s.points ++ [p], heap := s.heap ++ ext } := by
  intro i q hq
  simp only at hq
  by_cases hi : i < s.points.length
  · rw [List.getElem?_append_left hi] at hq
    obtain ⟨h1, h2⟩ := hK i q hq
    refine ⟨h1, ?_⟩
    intro c hcq
    obtain ⟨k, hk, e1, e2⟩ := h2 c hcq
    have hlt : c < s.heap.length := (List.getElem?_eq_some.mp hk).1
    exact ⟨k, by simp only; rw [List.getElem?_append_left hlt]; exact hk, e1, e2⟩
  · rw [List.getElem?_append_right (not_lt.mp hi)] at hq
    have hi' : i = s.points.length := by
      by_contra hne
      have : i - s.points.length ≠ 0 := by omega
      obtain ⟨n, hn'⟩ := Nat.exists_eq_succ_of_ne_zero this
      rw [hn'] at hq
      simp at hq
    subst hi'
    simp only [Nat.sub_self, List.getElem?_cons_zero, Option.some.injEq] at hq
    subst hq
    exact ⟨hn, hc⟩

theorem gridPoint_constraints {α : Type} [LinearOrderedField α] (cfg : Config α) (free : Bool)
    (y x : Nat) : (Cloth.gridPoint cfg free y x).constraints = [] := by
  unfold Cloth.gridPoint
  dsimp only
  split <;> rfl

theorem addPoint_built {α : Type} [LinearOrderedField α] (cfg : Config α) (free : Bool)
    (s : Cloth α) (y x : Nat) (hK : s.built) (hx : x ≠ 0 → 0 < s.points.length)
    (hy : y ≠ 0 → x + (y - 1) * (cfg.clothX + 1) < s.points.length) :
    (Cloth.addPoint cfg free s y x).built := by
  have hg := gridPoint_constraints cfg free y x
  by_cases hx0 : x = 0 <;> by_cases hy0 : y = 0
  · have e : Cloth.addPoint cfg free s y x
        = { points := s.points ++ [Cloth.gridPoint cfg free y x], heap := s.heap ++ [] } := by
      simp [Cloth.addPoint, hx0, hy0]
    rw [e]
    exact built_push s _ [] hK (by rw [hg]; exact List.nodup_nil) (by rw [hg]; simp)
  · have e : Cloth.addPoint cfg free s y x
        = { points := s.points ++ [{ Cloth.gridPoint cfg free y x with
              constraints := [s.heap.length] }],
            heap := s.heap ++ [{ p1 := s.points.length, p2 := x + (y - 1) * (cfg.clothX + 1),
                                 length := cfg.spacing }] } := by
      simp [Cloth.addPoint, hx0, hy0, Point.attach, gridPoint_constraints]
    rw [e]
    refine built_push s _ _ hK (by simp) ?_
    intro c hc
    simp only [List.mem_singleton] at hc
    subst hc
    exact ⟨{ p1 := s.points.length, p2 := x + (y - 1) * (cfg.clothX + 1),
             length := cfg.spacing }, by simp, rfl, hy hy0⟩
  · have e : Cloth.addPoint cfg free s y x
        = { points := s.points ++ [{ Cloth.gridPoint cfg free y x with
              constraints := [s.heap.length] }],
            heap := s.heap ++ [{ p1 := s.points.length, p2 := s.points.length - 1,
                                 length := cfg.spacing }] } := by
      simp [Cloth.addPoint, hx0, hy0, Point.attach, gridPoint_constraints]
    rw [e]
    refine built_push s _ _ hK (by simp) ?_
    intro c hc
    simp only [List.mem_singleton] at hc
    subst hc
    have := hx hx0
    exact ⟨{ p1 := s.points.length, p2 := s.points.length - 1, length := cfg.spacing },
      by simp, rfl, by simp only; omega⟩
  · have e : Cloth.addPoint cfg free s y x
        = { points := s.points ++ [{ Cloth.gridPoint cfg free y x with
              constraints := [s.heap.length, s.heap.length + 1] }],
            heap := s.heap ++ [{ p1 := s.points.length, p2 := s.points.length - 1,
                                 length := cfg.spacing },
                               { p1 := s.points.length, p2 := x + (y - 1) * (cfg.clothX + 1),
                                 length := cfg.spacing }] } := by
      simp [Cloth.addPoint, hx0, hy0, Point.attach, gridPoint_constraints]
    rw [e]
    refine built_push s _ _ hK (by simp) ?_
    intro c hc
    simp only [List.mem_cons, List.mem_singleton, List.not_mem_nil, or_false] at hc
    have := hx hx0
    rcases hc with hc | hc
    · subst hc
      refine ⟨{ p1 := s.points.length, p2 := s.points.length - 1, length := cfg.spacing },
        ?_, rfl, by simp only; omega⟩
      rw [List.getElem?_append_right (le_refl _)]
      simp
    · subst hc
      refine ⟨{ p1 := s.points.length, p2 := x + (y - 1) * (cfg.clothX + 1),
                length := cfg.spacing }, ?_, rfl, hy hy0⟩
      rw [List.getElem?_append_right (by omega)]
      simp

theorem addPoint_length {α : Type} [LinearOrderedField α] (cfg : Config α) (free : Bool)
    (s : Cloth α) (y x : Nat) :
    (Cloth.addPoint cfg free s y x).points.length = s.points.length + 1 := by
  simp [Cloth.addPoint]

theorem addRow_built {α : Type} [LinearOrderedField α] (cfg : Config α) (free : Bool)
    (y : Nat) (s : Cloth α) (hK : s.built) (hl : s.points.length = y * (cfg.clothX + 1)) :
    ∀ n, n ≤ cfg.clothX + 1 →
      ((List.range n).foldl (fun s x => Cloth.addPoint cfg free s y x) s).built ∧
      ((List.range n).foldl (fun s x => Cloth.addPoint cfg free s y x) s).points.length
        = y * (cfg.clothX + 1) + n := by
  intro n
  induction n with
  | zero => intro _; exact ⟨hK, hl⟩
  | succ n ih =>
    intro hn
    obtain ⟨h1, h2⟩ := ih (by omega)
    rw [List.range_succ, List.foldl_append]
    simp only [List.foldl_cons, List.foldl_nil]
    refine ⟨addPoint_built cfg free _ y n h1 (by intro _; omega) ?_, ?_⟩
    · intro hy
      rw [h2]
      have e : y * (cfg.clothX + 1) = (y - 1) * (cfg.clothX + 1) + (cfg.clothX + 1) := by
        have : y = (y - 1) + 1 := by omega
        conv_lhs => rw [this]
        rw [Nat.succ_mul]
      omega
    · rw [addPoint_length, h2]
      omega

theorem new_built {α : Type} [LinearOrderedField α] (cfg : Config α) (free : Bool) :
    (Cloth.new cfg free).built := by
  have key : ∀ m,
      ((List.range m).foldl (fun s y => Cloth.addRow cfg free s y)
        ({ points := [], heap := [] } : Cloth α)).built ∧
      ((List.range m).foldl (fun s y => Cloth.addRow cfg free s y)
        ({ points := [], heap := [] } : Cloth α)).points.length = m * (cfg.clothX + 1) := by
    intro m
    induction m with
    | zero =>
      refine ⟨?_, by simp⟩
      intro i p hp
      simp at hp
    | succ m ih =>
      rw [List.range_succ, List.foldl_append]
      simp only [List.foldl_cons, List.foldl_nil]
      obtain ⟨h1, h2⟩ := ih
      have h := addRow_built cfg free m _ h1 h2 (cfg.clothX + 1) (le_refl _)
      refine ⟨h.1, ?_⟩
      rw [Nat.succ_mul]
      exact h.2
  exact (key (cfg.clothY + 1)).1

theorem built_owned {α : Type} {s : Cloth α} (h : s.built) : s.owned := by
  intro i p hp
  obtain ⟨h1, h2⟩ := h i p hp
  refine ⟨h1, ?_⟩
  intro c hc
  obtain ⟨k, hk, e1, -⟩ := h2 c hc
  exact ⟨k, hk, e1⟩

theorem built_valid {α : Type} {s : Cloth α} (h : s.built) : s.valid := by
  intro i p hp c hc
  obtain ⟨-, h2⟩ := h i p hp
  obtain ⟨k, hk, e1, e2⟩ := h2 c hc
  have hi : i < s.points.length := (List.getElem?_eq_some.mp hp).1
  exact ⟨k, hk, by omega, by omega⟩

/-- The constructor gives the point at index 0 no constraint. -/
theorem new_origin {α : Type} [LinearOrderedField α] (cfg : Config α) (free : Bool) :
    ∃ p, (Cloth.new cfg free).points[0]? = some p ∧ p.constraints = [] := by
  have h := congrArg (fun l => l[0 + 0 * (cfg.clothX + 1)]?) (new_points cfg free)
  simp only [List.getElem?_map] at h
  rw [grid_get _ _ _ 0 0 (by omega) (by omega)] at h
  simp only [Nat.zero_mul, Nat.add_zero] at h
  cases hp : (Cloth.new cfg free).points[0]? with
  | none => rw [hp] at h; simp at h
  | some p =>
    rw [hp] at h
    simp only [Option.map_some', Option.some.injEq, Prod.mk.injEq] at h
    exact ⟨p, rfl, List.length_eq_zero.mp (by simpa using h.2)⟩

/-- A cell whose top-left corner holds no constraint makes no call on `ctx`. -/
theorem quad_nil_of_empty {α : Type} [LinearOrderedField α] (sqrt : α → α) (cfg : Config α)
    (img : Image α) (s : Cloth α) (y x : Nat)
    (h : ∀ p, s.points[x + y * (cfg.clothX + 1)]? = some p → p.constraints = []) :
    Cloth.quad sqrt cfg img s y x = [] := by
  unfold Cloth.quad
  split
  · rename_i p1 p2 p3 p4 h1 h2 h3 h4
    have e := h p1 h1
    rw [if_pos (Or.inl (by simp [e]))]
  · rfl

/-- C17: in every state reachable from a constructed cloth, free or not, the point at grid
position (0, 0) exists and has an empty constraint list, and therefore `drawTextured` makes
no call at all on `ctx` for the cell (0, 0), in particular no `drawImage`, under every
pointer state and texture. -/
theorem C17_origin_cell_never_drawn (cfg : Config ℝ) (free : Bool) (s : Cloth ℝ)
    (hr : Cloth.Reachable Real.sqrt cfg (Cloth.new cfg free) s) :
    (∃ p, s.points[0]? = some p ∧ p.constraints = []) ∧
    ∀ (mouse : Mouse ℝ) (img : Image ℝ),
      Cloth.quad Real.sqrt cfg img (Cloth.drawTextured Real.sqrt cfg mouse img s).1 0 0 = [] ∧
      (Cloth.quad Real.sqrt cfg img (Cloth.drawTextured Real.sqrt cfg mouse img s).1 0 0).any
        DrawCmd.isDrawImage = false := by
  obtain ⟨p0, hp0, he0⟩ := new_origin cfg free
  obtain ⟨-, hl, hs⟩ := reachable_shrinks Real.sqrt cfg _ s hr
  have hlt : 0 < s.points.length := by
    rw [hl]
    exact (List.getElem?_eq_some.mp hp0).1
  have hq : s.points[0]? = some (s.points[0]) := List.getElem?_eq_getElem hlt
  have hempty : ∀ q, s.points[0]? = some q → q.constraints = [] := by
    intro q hq'
    obtain ⟨p, hp, hsub⟩ := hs 0 q hq'
    rw [hp0] at hp
    cases hp
    rw [he0] at hsub
    exact List.sublist_nil.mp hsub
  refine ⟨⟨_, hq, hempty _ hq⟩, ?_⟩
  intro mouse img
  have hnil : Cloth.quad Real.sqrt cfg img (Cloth.drawTextured Real.sqrt cfg mouse img s).1 0 0
      = [] := by
    apply quad_nil_of_empty
    intro q' hq'
    obtain ⟨-, -, hs'⟩ := integrate_shrinks Real.sqrt cfg mouse s
    simp only [Nat.zero_mul, Nat.add_zero] at hq'
    obtain ⟨q, hq0, hsub⟩ := hs' 0 q' hq'
    rw [hempty q hq0] at hsub
    exact List.sublist_nil.mp hsub
  exact ⟨hnil, by rw [hnil]; rfl⟩

/-- C17 (witness): the untorn cloth of 2 by 2 points, as the constructor leaves it. -/
theorem C17_origin_cell_never_drawn_witness :
    (∃ p, (Cloth.new (narrow : Config ℝ) false).points[0]? = some p ∧ p.constraints = []) ∧
    ∀ (mouse : Mouse ℝ) (img : Image ℝ),
      Cloth.quad Real.sqrt narrow img
        (Cloth.drawTextured Real.sqrt narrow mouse img (Cloth.new narrow false)).1 0 0 = [] ∧
      (Cloth.quad Real.sqrt narrow img
        (Cloth.drawTextured Real.sqrt narrow mouse img (Cloth.new narrow false)).1 0 0).any
        DrawCmd.isDrawImage = false :=
  C17_origin_cell_never_drawn narrow false (Cloth.new narrow false) Cloth.Reachable.start

/-! ### The two rendering paths of `Cloth.update` -/

theorem drawAll_ok {α : Type} (s : Cloth α) :
    ∀ l : List Nat, (∀ c ∈ l, ∃ k : Constraint α, s.heap[c]? = some k ∧
        k.p1 < s.points.length ∧ k.p2 < s.points.length) →
      ∃ d, Point.drawAll s l = .ok d := by
  intro l
  induction l with
  | nil => intro _; exact ⟨[], rfl⟩
  | cons c l ih =>
    intro h
    obtain ⟨k, hk, h1, h2⟩ := h c (List.mem_cons_self _ _)
    obtain ⟨d, hd⟩ := ih (fun c' hc' => h c' (List.mem_cons_of_mem _ hc'))
    refine ⟨[DrawCmd.moveTo (s.points[k.p1]).x (s.points[k.p1]).y,
      DrawCmd.lineTo (s.points[k.p2]).x (s.points[k.p2]).y] ++ d, ?_⟩
    unfold Point.drawAll
    simp only [Constraint.draw, hk, List.getElem?_eq_getElem h1, List.getElem?_eq_getElem h2, hd]

theorem wireLoop_ok {α : Type} [LinearOrderedField α] (sqrt : α → α) (cfg : Config α)
    (mouse : Mouse α) (delta : α) :
    ∀ (js : List Nat) (s : Cloth α), s.valid → (∀ j ∈ js, j < s.points.length) →
      ∃ cmds, Cloth.wireLoop sqrt cfg mouse delta js s
        = .ok (js.foldl (fun t j => t.modifyPoint j
            (fun p => Point.update sqrt cfg mouse p (delta * delta))) s, cmds) := by
  intro js
  induction js with
  | nil => intro s _ _; exact ⟨[], rfl⟩
  | cons j js ih =>
    intro s hv hj
    have hlt : j < s.points.length := hj j (List.mem_cons_self _ _)
    have hp : s.points[j]? = some (s.points[j]) := List.getElem?_eq_getElem hlt
    obtain ⟨q, hqd⟩ : ∃ q, Point.update sqrt cfg mouse (s.points[j]) (delta * delta) = q :=
      ⟨_, rfl⟩
    have hs1 : s.modifyPoint j (fun p => Point.update sqrt cfg mouse p (delta * delta))
        = { s with points := s.points.set j q } := by
      simp [Cloth.modifyPoint, hp, hqd]
    have hsub : q.constraints.Sublist (s.points[j]).constraints := by
      rw [← hqd]
      exact update_sublist sqrt cfg mouse (s.points[j]) (delta * delta)
    have hsh := set_shrinks s j _ q hp hsub
    have hv1 := shrinks_valid hsh hv
    have hq : ({ s with points := s.points.set j q } : Cloth α).points[j]? = some q := by
      simp [List.getElem?_set, hlt]
    obtain ⟨d, hd⟩ := drawAll_ok _ _ (fun c hc => hv1 j _ hq c (List.mem_reverse.mp hc))
    obtain ⟨cmds, hc⟩ := ih _ hv1 (fun j' hj' => by
      have := hj j' (List.mem_cons_of_mem _ hj')
      simpa using this)
    refine ⟨d ++ cmds, ?_⟩
    rw [List.foldl_cons, hs1]
    unfold Cloth.wireLoop
    simp only [hp, hqd, Point.draw, hd, hc]

theorem modifyAll_get {α : Type} (f : Point α → Point α) (s : Cloth α) :
    ∀ n, ((List.range n).foldl (fun t j => t.modifyPoint j f) s).heap = s.heap ∧
      ∀ i, ((List.range n).foldl (fun t j => t.modifyPoint j f) s).points[i]?
        = if i < n then (s.points[i]?).map f else s.points[i]? := by
  intro n
  induction n with
  | zero => exact ⟨rfl, fun i => by simp⟩
  | succ n ih =>
    rw [List.range_succ, List.foldl_append]
    simp only [List.foldl_cons, List.foldl_nil]
    refine ⟨by rw [modifyPoint_heap]; exact ih.1, ?_⟩
    intro i
    rw [modifyPoint_get, ih.2]
    by_cases h1 : i < n
    · have h2 : i ≠ n := by omega
      have h3 : i < n + 1 := by omega
      simp only [h1, h2, h3, if_true, if_false]
      cases s.points[i]? <;> rfl
    · by_cases h2 : i = n
      · subst h2
        simp
      · have h3 : ¬ i < n + 1 := by omega
        simp [h1, h2, h3]

theorem modifyAll_eq_map {α : Type} (f : Point α → Point α) (s : Cloth α) :
    (List.range s.points.length).foldl (fun t j => t.modifyPoint j f) s
      = { s with points := s.points.map f } := by
  obtain ⟨hh, hg⟩ := modifyAll_get f s s.points.length
  have hp : ((List.range s.points.length).foldl (fun t j => t.modifyPoint j f) s).points
      = s.points.map f := by
    apply List.ext_getElem?
    intro i
    rw [hg, List.getElem?_map]
    by_cases h : i < s.points.length
    · simp [h]
    · simp [h, List.getElem?_eq_none (not_lt.mp h)]
  generalize (List.range s.points.length).foldl (fun t j => t.modifyPoint j f) s = r at hh hp
  cases r
  simp only at hh hp
  subst hh hp
  rfl

/-- C19: for the time step 0.016 that the frame loop passes (line 358), for every pointer
state and every cloth state whose references designate objects, the state after
`Cloth.update(0.016)` is the same whether the texture is loaded (textured path, which
integrates with `0.016 * 0.016`) or not (wireframe path, which integrates with
`delta * delta`): either both calls fail in the same way during relaxation, or both return
and leave identical points and constraints. -/
theorem C19_render_path_same_state {α : Type} [LinearOrderedField α] (sqrt : α → α)
    (cfg : Config α) (mouse : Mouse α) (img : Image α) (s : Cloth α) (hv : s.valid) :
    (Cloth.update sqrt cfg mouse true (some img) s 0.016).map Prod.fst
        = (Cloth.update sqrt cfg mouse false none s 0.016).map Prod.fst ∧
    (Cloth.update sqrt cfg mouse true (some img) s 0.016).map Prod.fst
        = (Cloth.update sqrt cfg mouse true none s 0.016).map Prod.fst ∧
    (Cloth.update sqrt cfg mouse true (some img) s 0.016).map Prod.fst
        = (Cloth.update sqrt cfg mouse false (some img) s 0.016).map Prod.fst := by
  have agree : ∀ (textureLoaded : Bool) (textureImage : Option (Image α)),
      (Cloth.update sqrt cfg mouse true (some img) s 0.016).map Prod.fst
        = (Cloth.update sqrt cfg mouse textureLoaded textureImage s 0.016).map
          Prod.fst := by
    intro textureLoaded textureImage
    have wire : ∀ s1 : Cloth α, s1.valid →
        (match Cloth.wireLoop sqrt cfg mouse 0.016 (List.range s1.points.length) s1 with
          | .error e => (.error e : Except Fault (Cloth α × List (DrawCmd α)))
          | .ok r => .ok (r.1, [DrawCmd.beginPath] ++ r.2 ++ [DrawCmd.stroke])).map Prod.fst
        = .ok (Cloth.integrate sqrt cfg mouse s1) := by
      intro s1 hv1
      obtain ⟨cmds, hc⟩ := wireLoop_ok sqrt cfg mouse 0.016 (List.range s1.points.length) s1
        hv1 (fun j hj => List.mem_range.mp hj)
      rw [hc, modifyAll_eq_map]
      rfl
    unfold Cloth.update
    cases hres : Cloth.relax sqrt cfg cfg.accuracy s with
    | error e => rfl
    | ok s1 =>
      have hv1 := shrinks_valid (relax_shrinks sqrt cfg _ s s1 hres) hv
      simp only []
      cases textureLoaded with
      | false => rw [wire s1 hv1]; rfl
      | true =>
        cases textureImage with
        | none => rw [wire s1 hv1]; rfl
        | some img2 => rfl
  exact ⟨agree false none, agree true none, agree false (some img)⟩

/-- C19 (witness): the cloth of 2 by 2 points as the constructor leaves it, pointer at
rest, a texture of 64 by 64. -/
theorem C19_render_path_same_state_witness :
    (Cloth.new (narrow : Config ℝ) false).valid ∧
    ((Cloth.update Real.sqrt narrow mouse0 true (some { width := 64, height := 64 })
          (Cloth.new (narrow : Config ℝ) false) 0.016).map Prod.fst
        = (Cloth.update Real.sqrt narrow mouse0 false none
          (Cloth.new (narrow : Config ℝ) false) 0.016).map Prod.fst ∧
      (Cloth.update Real.sqrt narrow mouse0 true (some { width := 64, height := 64 })
          (Cloth.new (narrow : Config ℝ) false) 0.016).map Prod.fst
        = (Cloth.update Real.sqrt narrow mouse0 true none
          (Cloth.new (narrow : Config ℝ) false) 0.016).map Prod.fst ∧
      (Cloth.update Real.sqrt narrow mouse0 true (some { width := 64, height := 64 })
          (Cloth.new (narrow : Config ℝ) false) 0.016).map Prod.fst
        = (Cloth.update Real.sqrt narrow mouse0 false (some { width := 64, height := 64 })
          (Cloth.new (narrow : Config ℝ) false) 0.016).map Prod.fst) :=
  ⟨built_valid (new_built narrow false),
    C19_render_path_same_state Real.sqrt narrow mouse0 { width := 64, height := 64 }
      (Cloth.new narrow false) (built_valid (new_built narrow false))⟩

/-! ### Every constraint list is owned, and `free` finds what it is asked to remove -/

theorem resolveAllLog_fst {α : Type} [LinearOrderedField α] (sqrt : α → α) (cfg : Config α) :
    ∀ (js : List Nat) (s : Cloth α),
      (Cloth.resolveAllLog sqrt cfg js s).map Prod.fst = Cloth.resolveAll sqrt cfg js s := by
  intro js
  induction js with
  | nil => intro s; rfl
  | cons j js ih =>
    intro s
    unfold Cloth.resolveAllLog Cloth.resolveAll
    rw [← resolveLog_fst]
    cases hr : Point.resolveLog sqrt cfg s j with
    | error e => rfl
    | ok r =>
      simp only [Except.map]
      rw [← ih r.1]
      cases Cloth.resolveAllLog sqrt cfg js r.1 <;> rfl

theorem relaxLog_fst {α : Type} [LinearOrderedField α] (sqrt : α → α) (cfg : Config α) :
    ∀ (n : Nat) (s : Cloth α),
      (Cloth.relaxLog sqrt cfg n s).map Prod.fst = Cloth.relax sqrt cfg n s := by
  intro n
  induction n with
  | zero => intro s; rfl
  | succ n ih =>
    intro s
    unfold Cloth.relaxLog Cloth.relax Cloth.relaxPass
    rw [← resolveAllLog_fst]
    cases hr : Cloth.resolveAllLog sqrt cfg (List.range s.points.length) s with
    | error e => rfl
    | ok r =>
      simp only [Except.map]
      rw [← ih r.1]
      cases Cloth.relaxLog sqrt cfg n r.1 <;> rfl

theorem map_fst_ok {ε σ τ : Type} {x : Except ε (σ × τ)} {r : σ × τ} (h : x = .ok r) :
    x.map Prod.fst = .ok r.1 := by
  rw [h]; rfl

/-- In a state where every list is owned, the constraint found at an index of a point's list
is found by `free` in the list of its `p1`. -/
theorem owned_freeFinds {α : Type} [LinearOrderedField α] (s : Cloth α) (ho : s.owned)
    (i k : Nat) (p : Point α) (c : Nat) (hp : s.points[i]? = some p)
    (hc : p.constraints[k]? = some c) : s.freeFinds c := by
  have hmem : c ∈ p.constraints := List.getElem?_mem hc
  obtain ⟨hn, hown⟩ := ho i p hp
  obtain ⟨kk, hk, e⟩ := hown c hmem
  have hfree : (p.free c).constraints = p.constraints.erase c := by
    simp [Point.free, hmem]
  refine ⟨kk, p, hk, by rw [e]; exact hp, hmem, List.count_eq_one_of_mem hn hmem, hfree, ?_, ?_⟩
  · rw [hfree]
    exact hn.not_mem_erase
  · intro e' hne
    rw [hfree]
    exact List.mem_erase_of_ne hne

theorem resolveLoopLog_calls {α : Type} [LinearOrderedField α] (sqrt : α → α)
    (cfg : Config α) (i : Nat) :
    ∀ (n k : Nat) (s : Cloth α) (r : Cloth α × List (Cloth α × Nat)), s.owned →
      Point.resolveLoopLog sqrt cfg i n k s = .ok r → ∀ e ∈ r.2, e.1.freeFinds e.2 := by
  intro n
  induction n with
  | zero =>
    intro k s r _ hr
    simp only [Point.resolveLoopLog] at hr
    cases hr
    intro e he
    simp at he
  | succ n ih =>
    intro k s r ho hr
    unfold Point.resolveLoopLog at hr
    cases hp : s.points[i]? with
    | none => simp [hp] at hr
    | some p =>
      simp only [hp] at hr
      cases hc : p.constraints[k]? with
      | none =>
        simp only [hc] at hr
        exact ih _ _ _ ho hr
      | some c =>
        simp only [hc] at hr
        cases hres : Constraint.resolve sqrt cfg s c with
        | error e => simp [hres] at hr
        | ok s1 =>
          simp only [hres] at hr
          cases hrest : Point.resolveLoopLog sqrt cfg i n (k + 1) s1 with
          | error e => simp [hrest] at hr
          | ok r1 =>
            simp only [hrest] at hr
            cases hr
            have ho1 := shrinks_owned (resolve_shrinks sqrt cfg s s1 c hres) ho
            intro e he
            simp only [List.mem_cons] at he
            rcases he with he | he
            · subst he
              exact owned_freeFinds s ho i k p c hp hc
            · exact ih _ _ _ ho1 hrest e he

theorem resolveLog_calls {α : Type} [LinearOrderedField α] (sqrt : α → α)
    (cfg : Config α) (i : Nat) (s : Cloth α) (r : Cloth α × List (Cloth α × Nat))
    (ho : s.owned) (hr : Point.resolveLog sqrt cfg s i = .ok r) :
    ∀ e ∈ r.2, e.1.freeFinds e.2 := by
  unfold Point.resolveLog at hr
  cases hp : s.points[i]? with
  | none => simp [hp] at hr
  | some p =>
    simp only [hp] at hr
    by_cases hf : p.frozen = true
    · rw [if_pos hf] at hr
      cases hx : p.pinX <;> cases hy : p.pinY <;> simp only [hx, hy] at hr <;> cases hr <;>
        (intro e he; simp at he)
    · rw [if_neg hf] at hr
      exact resolveLoopLog_calls sqrt cfg i _ _ s r ho hr

theorem resolveAllLog_calls {α : Type} [LinearOrderedField α] (sqrt : α → α)
    (cfg : Config α) :
    ∀ (js : List Nat) (s : Cloth α) (r : Cloth α × List (Cloth α × Nat)), s.owned →
      Cloth.resolveAllLog sqrt cfg js s = .ok r → ∀ e ∈ r.2, e.1.freeFinds e.2 := by
  intro js
  induction js with
  | nil =>
    intro s r _ hr
    simp only [Cloth.resolveAllLog] at hr
    cases hr
    intro e he
    simp at he
  | cons j js ih =>
    intro s r ho hr
    unfold Cloth.resolveAllLog at hr
    cases h1 : Point.resolveLog sqrt cfg s j with
    | error e => simp [h1] at hr
    | ok r1 =>
      simp only [h1] at hr
      cases h2 : Cloth.resolveAllLog sqrt cfg js r1.1 with
      | error e => simp [h2] at hr
      | ok r2 =>
        simp only [h2] at hr
        cases hr
        have hres : Point.resolve sqrt cfg s j = .ok r1.1 := by
          rw [← resolveLog_fst]; exact map_fst_ok h1
        have ho1 := shrinks_owned (pointResolve_shrinks sqrt cfg j s r1.1 hres) ho
        intro e he
        simp only [List.mem_append] at he
        rcases he with he | he
        · exact resolveLog_calls sqrt cfg j s r1 ho h1 e he
        · exact ih _ _ ho1 h2 e he

theorem relaxLog_calls {α : Type} [LinearOrderedField α] (sqrt : α → α)
    (cfg : Config α) :
    ∀ (n : Nat) (s : Cloth α) (r : Cloth α × List (Cloth α × Nat)), s.owned →
      Cloth.relaxLog sqrt cfg n s = .ok r → ∀ e ∈ r.2, e.1.freeFinds e.2 := by
  intro n
  induction n with
  | zero =>
    intro s r _ hr
    simp only [Cloth.relaxLog] at hr
    cases hr
    intro e he
    simp at he
  | succ n ih =>
    intro s r ho hr
    unfold Cloth.relaxLog at hr
    cases h1 : Cloth.resolveAllLog sqrt cfg (List.range s.points.length) s with
    | error e => simp [h1] at hr
    | ok r1 =>
      simp only [h1] at hr
      cases h2 : Cloth.relaxLog sqrt cfg n r1.1 with
      | error e => simp [h2] at hr
      | ok r2 =>
        simp only [h2] at hr
        cases hr
        have hres : Cloth.resolveAll sqrt cfg (List.range s.points.length) s = .ok r1.1 := by
          rw [← resolveAllLog_fst]; exact map_fst_ok h1
        have ho1 := shrinks_owned (resolveAll_shrinks sqrt cfg _ s r1.1 hres) ho
        intro e he
        simp only [List.mem_append] at he
        rcases he with he | he
        · exact resolveAllLog_calls sqrt cfg _ s r1 ho h1 e he
        · exact ih _ _ ho1 h2 e he

/-- C20: in every state reachable from a constructed cloth, every constraint found in the
list of a point `P` has `p1 = P` and occurs in that list once; the store of constraints is
the one the constructor made and every list is a sublist of the list the constructor gave
that point (no list ever gains a constraint).  Consequently, in every call of
`Constraint.resolve` made by the relaxation passes run from such a state, `p1.free(c)` finds
`c` in the list of `p1` and removes exactly `c`. -/
theorem C20_owned_lists_and_free_finds {α : Type} [LinearOrderedField α] (sqrt : α → α)
    (cfg : Config α) (free : Bool) (s : Cloth α)
    (hr : Cloth.Reachable sqrt cfg (Cloth.new cfg free) s) :
    s.owned ∧ (Cloth.new cfg free).shrinks s ∧
    ∀ n : Nat,
      (Cloth.relaxLog sqrt cfg n s).map Prod.fst = Cloth.relax sqrt cfg n s ∧
      ∀ r, Cloth.relaxLog sqrt cfg n s = .ok r → ∀ e ∈ r.2, e.1.freeFinds e.2 := by
  have hsh := reachable_shrinks sqrt cfg _ s hr
  have ho : s.owned := shrinks_owned hsh (built_owned (new_built cfg free))
  refine ⟨ho, hsh, ?_⟩
  intro n
  exact ⟨relaxLog_fst sqrt cfg n s, fun r h => relaxLog_calls sqrt cfg n s r ho h⟩

/-- C20 (witness): the cloth of 2 by 2 points as the constructor leaves it. -/
theorem C20_owned_lists_and_free_finds_witness :
    (Cloth.new (narrow : Config ℝ) false).owned ∧
    (Cloth.new (narrow : Config ℝ) false).shrinks (Cloth.new (narrow : Config ℝ) false) ∧
    ∀ n : Nat,
      (Cloth.relaxLog Real.sqrt narrow n (Cloth.new (narrow : Config ℝ) false)).map Prod.fst
        = Cloth.relax Real.sqrt narrow n (Cloth.new (narrow : Config ℝ) false) ∧
      ∀ r, Cloth.relaxLog Real.sqrt narrow n (Cloth.new (narrow : Config ℝ) false) = .ok r →
        ∀ e ∈ r.2, e.1.freeFinds e.2 :=
  C20_owned_lists_and_free_finds Real.sqrt narrow false (Cloth.new narrow false)
    Cloth.Reachable.start

/-! ### Every frame returns -/

theorem foldl_keeps {σ β : Type} (P : σ → Prop) (f : σ → β → σ)
    (h : ∀ s x, P s → P (f s x)) : ∀ (l : List β) (s : σ), P s → P (l.foldl f s) := by
  intro l
  induction l with
  | nil => intro s hs; exact hs
  | cons a l ih => intro s hs; exact ih _ (h s a hs)

/-- Every constraint the constructor creates has the rest length `spacing` (line 152). -/
theorem new_rest_length {α : Type} [LinearOrderedField α] (cfg : Config α) (free : Bool) :
    ∀ k ∈ (Cloth.new cfg free).heap, k.length = cfg.spacing := by
  unfold Cloth.new
  apply foldl_keeps (fun s : Cloth α => ∀ k ∈ s.heap, k.length = cfg.spacing)
  · intro s y hs
    unfold Cloth.addRow
    apply foldl_keeps (fun s : Cloth α => ∀ k ∈ s.heap, k.length = cfg.spacing) _ _ _ s hs
    intro s x hs k hk
    by_cases hx : x = 0 <;> by_cases hy : y = 0 <;>
      simp [Cloth.addPoint, Point.attach, hx, hy] at hk
    · exact hs k hk
    · rcases hk with hk | hk
      · exact hs k hk
      · rw [hk]
    · rcases hk with hk | hk
      · exact hs k hk
      · rw [hk]
    · rcases hk with hk | hk | hk
      · exact hs k hk
      · rw [hk]
      · rw [hk]
  · intro k hk
    simp at hk

/-- On a state whose references designate objects, a constraint of positive rest length is
resolved without fault. -/
theorem resolve_total (cfg : Config ℝ) (s : Cloth ℝ) (c : Nat) (k : Constraint ℝ)
    (hk : s.heap[c]? = some k) (h1 : k.p1 < s.points.length) (h2 : k.p2 < s.points.length)
    (hL : 0 < k.length) : ∃ s', Constraint.resolve Real.sqrt cfg s c = .ok s' := by
  have ha : s.points[k.p1]? = some (s.points[k.p1]) := List.getElem?_eq_getElem h1
  have hb : s.points[k.p2]? = some (s.points[k.p2]) := List.getElem?_eq_getElem h2
  by_cases hn : Cloth.pairDist Real.sqrt (s.points[k.p1]) (s.points[k.p2]) < k.length
  · exact ⟨s, resolve_near Real.sqrt cfg s c k _ _ hk ha hb hn⟩
  · have h0 : Cloth.pairDist Real.sqrt (s.points[k.p1]) (s.points[k.p2]) ≠ 0 := by
      have := not_lt.mp hn
      intro e
      rw [e] at this
      exact absurd hL (not_lt.mpr this)
    exact ⟨_, resolve_far Real.sqrt cfg s c k _ _ hk ha hb hn h0⟩

theorem resolveLoop_total (cfg : Config ℝ) (i : Nat) :
    ∀ (n k : Nat) (s : Cloth ℝ), s.valid → (∀ c ∈ s.heap, 0 < c.length) →
      i < s.points.length → ∃ s', Point.resolveLoop Real.sqrt cfg i n k s = .ok s' := by
  intro n
  induction n with
  | zero => intro k s _ _ _; exact ⟨s, rfl⟩
  | succ n ih =>
    intro k s hv hpos hi
    have hp : s.points[i]? = some (s.points[i]) := List.getElem?_eq_getElem hi
    unfold Point.resolveLoop
    simp only [hp]
    cases hc : (s.points[i]).constraints[k]? with
    | none => exact ih _ s hv hpos hi
    | some c =>
      simp only []
      obtain ⟨kk, hk, h1, h2⟩ := hv i _ hp c (List.getElem?_mem hc)
      have hL : 0 < kk.length := hpos kk (List.getElem?_mem hk)
      obtain ⟨s1, hs1⟩ := resolve_total cfg s c kk hk h1 h2 hL
      rw [hs1]
      simp only []
      have hsh := resolve_shrinks Real.sqrt cfg s s1 c hs1
      exact ih _ s1 (shrinks_valid hsh hv) (by rw [hsh.1]; exact hpos) (by rw [hsh.2.1]; exact hi)

theorem pointResolve_total (cfg : Config ℝ) (i : Nat) (s : Cloth ℝ) (hv : s.valid)
    (hpos : ∀ c ∈ s.heap, 0 < c.length) (hi : i < s.points.length) :
    ∃ s', Point.resolve Real.sqrt cfg s i = .ok s' := by
  have hp : s.points[i]? = some (s.points[i]) := List.getElem?_eq_getElem hi
  unfold Point.resolve
  simp only [hp]
  split
  · split
    · exact ⟨_, rfl⟩
    · exact ⟨_, rfl⟩
  · exact resolveLoop_total cfg i _ _ s hv hpos hi

theorem resolveAll_total (cfg : Config ℝ) :
    ∀ (js : List Nat) (s : Cloth ℝ), s.valid → (∀ c ∈ s.heap, 0 < c.length) →
      (∀ j ∈ js, j < s.points.length) → ∃ s', Cloth.resolveAll Real.sqrt cfg js s = .ok s' := by
  intro js
  induction js with
  | nil => intro s _ _ _; exact ⟨s, rfl⟩
  | cons j js ih =>
    intro s hv hpos hj
    obtain ⟨s1, hs1⟩ := pointResolve_total cfg j s hv hpos (hj j (List.mem_cons_self _ _))
    have hsh := pointResolve_shrinks Real.sqrt cfg j s s1 hs1
    unfold Cloth.resolveAll
    rw [hs1]
    simp only []
    exact ih s1 (shrinks_valid hsh hv) (by rw [hsh.1]; exact hpos)
      (fun j' hj' => by rw [hsh.2.1]; exact hj j' (List.mem_cons_of_mem _ hj'))

theorem relax_total (cfg : Config ℝ) :
    ∀ (n : Nat) (s : Cloth ℝ), s.valid → (∀ c ∈ s.heap, 0 < c.length) →
      ∃ s', Cloth.relax Real.sqrt cfg n s = .ok s' := by
  intro n
  induction n with
  | zero => intro s _ _; exact ⟨s, rfl⟩
  | succ n ih =>
    intro s hv hpos
    obtain ⟨s1, hs1⟩ := resolveAll_total cfg (List.range s.points.length) s hv hpos
      (fun j hj => List.mem_range.mp hj)
    have hsh := resolveAll_shrinks Real.sqrt cfg _ s s1 hs1
    unfold Cloth.relax Cloth.relaxPass
    rw [hs1]
    simp only []
    exact ih s1 (shrinks_valid hsh hv) (by rw [hsh.1]; exact hpos)

/-- On a state whose references designate objects and whose constraints have positive rest
length, `Cloth.update` returns, whatever the pointer, the texture and the time step. -/
theorem update_total (cfg : Config ℝ) (mouse : Mouse ℝ) (textureLoaded : Bool)
    (textureImage : Option (Image ℝ)) (delta : ℝ) (s : Cloth ℝ) (hv : s.valid)
    (hpos : ∀ c ∈ s.heap, 0 < c.length) :
    ∃ r, Cloth.update Real.sqrt cfg mouse textureLoaded textureImage s delta = .ok r := by
  obtain ⟨s1, hs1⟩ := relax_total cfg cfg.accuracy s hv hpos
  have hv1 := shrinks_valid (relax_shrinks Real.sqrt cfg _ s s1 hs1) hv
  obtain ⟨cmds, hc⟩ := wireLoop_ok Real.sqrt cfg mouse delta (List.range s1.points.length) s1
    hv1 (fun j hj => List.mem_range.mp hj)
  unfold Cloth.update
  rw [hs1]
  simp only []
  cases textureLoaded with
  | false => simp only [hc]; exact ⟨_, rfl⟩
  | true =>
    cases textureImage with
    | none => simp only [hc]; exact ⟨_, rfl⟩
    | some img => exact ⟨_, rfl⟩

/-- From every state reachable from a cloth built with positive spacing, every frame
returns: no call of `Cloth.update` faults, and the state it leaves is reachable again. -/
theorem reachable_frame_total (cfg : Config ℝ) (hsp : 0 < cfg.spacing) (free : Bool)
    (s : Cloth ℝ) (hr : Cloth.Reachable Real.sqrt cfg (Cloth.new cfg free) s)
    (mouse : Mouse ℝ) (textureLoaded : Bool) (textureImage : Option (Image ℝ)) (delta : ℝ) :
    ∃ r, Cloth.update Real.sqrt cfg mouse textureLoaded textureImage s delta = .ok r ∧
      Cloth.Reachable Real.sqrt cfg (Cloth.new cfg free) r.1 := by
  have hsh := reachable_shrinks Real.sqrt cfg _ s hr
  have hv := shrinks_valid hsh (built_valid (new_built cfg free))
  have hpos : ∀ c ∈ s.heap, 0 < c.length := by
    intro c hc
    rw [hsh.1] at hc
    rw [new_rest_length cfg free c hc]
    exact hsp
  obtain ⟨r, hu⟩ := update_total cfg mouse textureLoaded textureImage delta s hv hpos
  exact ⟨r, hu, Cloth.Reachable.frame mouse textureLoaded textureImage delta s r.1 r.2 hr hu⟩

/-! ### When nothing is torn, every constraint is resolved once -/

theorem resolveLoopLog_all {α : Type} [LinearOrderedField α] (sqrt : α → α)
    (cfg : Config α) (i : Nat) :
    ∀ (n k : Nat) (s : Cloth α) (r : Cloth α × List (Cloth α × Nat)) (p p' : Point α),
      Point.resolveLoopLog sqrt cfg i n k s = .ok r → s.points[i]? = some p →
      r.1.points[i]? = some p' → p'.constraints = p.constraints →
      r.2.map Prod.snd = (p.constraints.drop k).take n := by
  intro n
  induction n with
  | zero =>
    intro k s r p p' hr _ _ _
    simp only [Point.resolveLoopLog] at hr
    cases hr
    simp
  | succ n ih =>
    intro k s r p p' hr hp hp' he
    unfold Point.resolveLoopLog at hr
    simp only [hp] at hr
    cases hc : p.constraints[k]? with
    | none =>
      simp only [hc] at hr
      rw [ih _ _ _ p p' hr hp hp' he]
      have hk : p.constraints.length ≤ k := List.getElem?_eq_none_iff.mp hc
      rw [List.drop_eq_nil_of_le hk, List.drop_eq_nil_of_le (by omega)]
      simp
    | some c =>
      simp only [hc] at hr
      cases hres : Constraint.resolve sqrt cfg s c with
      | error e => simp [hres] at hr
      | ok s1 =>
        simp only [hres] at hr
        cases hrest : Point.resolveLoopLog sqrt cfg i n (k + 1) s1 with
        | error e => simp [hrest] at hr
        | ok r1 =>
          simp only [hrest] at hr
          cases hr
          have hloop : Point.resolveLoop sqrt cfg i n (k + 1) s1 = .ok r1.1 := by
            rw [← resolveLoopLog_fst]; exact map_fst_ok hrest
          obtain ⟨p1, hp1, hsub1⟩ :=
            (resolveLoop_shrinks sqrt cfg i n (k + 1) s1 r1.1 hloop).2.2 i p' hp'
          obtain ⟨p0, hp0, hsub0⟩ := (resolve_shrinks sqrt cfg s s1 c hres).2.2 i p1 hp1
          rw [hp] at hp0
          cases hp0
          have e1 : p1.constraints = p.constraints := by
            apply List.Sublist.antisymm hsub0
            rw [← he]
            exact hsub1
          have hrec := ih (k + 1) s1 r1 p1 p' hrest hp1 hp' (he.trans e1.symm)
          have hlt : k < p.constraints.length := (List.getElem?_eq_some.mp hc).1
          have hck : p.constraints[k] = c := (List.getElem?_eq_some.mp hc).2
          simp only [List.map_cons, hrec, e1]
          rw [List.drop_eq_getElem_cons hlt, hck, List.take_succ_cons]

/-- When a call of `Point.resolve()` on a point that is not frozen leaves the point's
constraint list as it found it (nothing was torn out of it during the call),
`Constraint.resolve()` has been called exactly once on each constraint of the list, in the
order of the list. -/
theorem resolveLog_all_when_no_tear {α : Type} [LinearOrderedField α] (sqrt : α → α)
    (cfg : Config α) (i : Nat) (s : Cloth α) (r : Cloth α × List (Cloth α × Nat))
    (p p' : Point α) (hr : Point.resolveLog sqrt cfg s i = .ok r)
    (hp : s.points[i]? = some p) (hf : p.frozen = false)
    (hp' : r.1.points[i]? = some p') (he : p'.constraints = p.constraints) :
    r.2.map Prod.snd = p.constraints := by
  unfold Point.resolveLog at hr
  simp only [hp, hf, Bool.false_eq_true, if_false] at hr
  rw [resolveLoopLog_all sqrt cfg i _ _ s r p p' hr hp hp' he]
  simp

end Tearaway
